import Mathlib

/-!
# Bike lane-runner: shallow embedding of `src/main.cpp`

The program is a single `main` with a frame loop plus six helper functions.
The embedding follows the source statement by statement.

Conventions.
* `float` values are exact rationals (`ℚ`); `int` values are unbounded `ℤ`;
  `unsigned` texture and window sizes are `ℕ`.
* An `sf::Sprite` is its position together with its scaled texture size; no
  sprite in the program is rotated or re-origined, so `getGlobalBounds` is the
  rectangle `(x, y, w, h)`.
* An `sf::Clock` is the instant of its last `restart`; every clock read made
  during one loop iteration observes the same instant `Input.now`.
* Each `std::rand()` call site has its own field in `Input`; key states polled
  with `sf::Keyboard::isKeyPressed` are fields of `Input` as well.
* Each `sf::Sound::play` call increments a counter in the state.
* Drawing, road tiles, grass offset, menu text layout and the about-screen
  scroller carry no simulation state read by the modelled code and are left out.
-/

namespace BikeGame

/-! ## SFML value types -/

/-- Rectangle `sf::FloatRect`. -/
structure FloatRect where
  left : ℚ
  top : ℚ
  width : ℚ
  height : ℚ
  deriving DecidableEq, Repr

/-- SFML `Rect::intersects`: the rectangles, normalised for negative sizes,
share an area of positive width and height. -/
def FloatRect.intersects (a b : FloatRect) : Bool :=
  let r1MinX := min a.left (a.left + a.width)
  let r1MaxX := max a.left (a.left + a.width)
  let r1MinY := min a.top (a.top + a.height)
  let r1MaxY := max a.top (a.top + a.height)
  let r2MinX := min b.left (b.left + b.width)
  let r2MaxX := max b.left (b.left + b.width)
  let r2MinY := min b.top (b.top + b.height)
  let r2MaxY := max b.top (b.top + b.height)
  let interLeft := max r1MinX r2MinX
  let interTop := max r1MinY r2MinY
  let interRight := min r1MaxX r2MaxX
  let interBottom := min r1MaxY r2MaxY
  decide (interLeft < interRight) && decide (interTop < interBottom)

/-- SFML `Rect::contains` for a point. -/
def FloatRect.contains (r : FloatRect) (x y : ℚ) : Bool :=
  let minX := min r.left (r.left + r.width)
  let maxX := max r.left (r.left + r.width)
  let minY := min r.top (r.top + r.height)
  let maxY := max r.top (r.top + r.height)
  decide (minX ≤ x) && decide (x < maxX) && decide (minY ≤ y) && decide (y < maxY)

/-- An `sf::Sprite`: position and scaled texture size. -/
structure Sprite where
  x : ℚ
  y : ℚ
  w : ℚ
  h : ℚ
  deriving DecidableEq, Repr

/-- `sf::Sprite::getGlobalBounds`. -/
def Sprite.getGlobalBounds (s : Sprite) : FloatRect :=
  { left := s.x, top := s.y, width := s.w, height := s.h }

/-- `sf::Sprite::move`. -/
def Sprite.move (s : Sprite) (dx dy : ℚ) : Sprite :=
  { s with x := s.x + dx, y := s.y + dy }

/-- `sf::Sprite::setPosition`. -/
def Sprite.setPosition (s : Sprite) (px py : ℚ) : Sprite :=
  { s with x := px, y := py }

/-- The hitbox used by the obstacle pass: the central half of the width
(`r.left += r.width * 0.25f; r.width *= 0.5f;`). -/
def shrink (r : FloatRect) : FloatRect :=
  { r with left := r.left + r.width * (1 / 4), width := r.width * (1 / 2) }

/-- C++ `static_cast<int>` of a float: truncation toward zero. -/
def truncToInt (q : ℚ) : ℤ :=
  if 0 ≤ q then ⌊q⌋ else ⌈q⌉

/-! ## Program constants and assets -/

/-- Game states (`enum GameState`). -/
inductive GameState where
  | MENU
  | APROPOS
  | LOADING
  | GAME
  | HIT
  | FINISH
  deriving DecidableEq, Repr

/-- Pixel sizes of the loaded textures and the local bounds of the finish
screen button text; these come from asset files outside the source. -/
structure Assets where
  roadW : ℕ
  roadH : ℕ
  playerW : ℕ
  playerH : ℕ
  finishW : ℕ
  finishH : ℕ
  treeW : ℕ → ℕ
  treeH : ℕ → ℕ
  eplayerW : ℕ → ℕ
  eplayerH : ℕ → ℕ
  bottleW : ℕ
  bottleH : ℕ
  coinW : ℕ
  coinH : ℕ
  returnBtnLocal : FloatRect

def MAX_STAMINA : ℚ := 5
def STAMINA_DRAIN : ℚ := 3
def STAMINA_REGEN : ℚ := 1 / 2
def BOTTLE_STAMINA : ℚ := 1
def MIN_STAMINA_TO_BOOST : ℚ := 1 / 2
def DEFAULT_SPEED : ℚ := 4
def MAX_SPEED : ℚ := 12
def ACCEL : ℚ := 1 / 5
def BRAKE_FORCE : ℚ := 1 / 2
def obstacleSpeed : ℚ := DEFAULT_SPEED
def padLeft : ℚ := 3 / 20
def padRight : ℚ := 3 / 20
def LANES : ℤ := 4
def NUM_TILES : ℚ := 10
def FINISH_DELAY : ℚ := 2

/-- `RACE_DISTANCE = TILE_H * NUM_TILES` with `TILE_H` the road texture height. -/
def RACE_DISTANCE (A : Assets) : ℚ := (A.roadH : ℚ) * NUM_TILES

/-- `FINISH_SPAWN_AT = RACE_DISTANCE - 500.f`. -/
def FINISH_SPAWN_AT (A : Assets) : ℚ := RACE_DISTANCE A - 500

/-- Size of `treeTextures[i]`: the loading loop runs over `i = 1..4`, so slot 0
keeps the empty default texture. -/
def treeSize (A : Assets) (i : ℕ) : ℕ × ℕ :=
  if i = 0 then (0, 0) else (A.treeW i, A.treeH i)

/-! ## Program state and inputs -/

/-- The variables of `main` that the simulation reads and writes. -/
structure World where
  gameState : GameState
  windowOpen : Bool
  inFinishLoop : Bool
  winW : ℕ
  winH : ℕ
  selected : ℤ
  finishLine : Sprite
  finishLineSpawned : Bool
  raceFinished : Bool
  finishTriggered : Bool
  finishTriggerClock : ℚ
  loadingClock : ℚ
  fadeClock : ℚ
  deltaClock : ℚ
  trees : List Sprite
  obstacles : List Sprite
  bottles : List Sprite
  coins : List Sprite
  player : Sprite
  lives : ℤ
  score : ℤ
  stamina : ℚ
  playerWorldSpeed : ℚ
  playerLane : ℤ
  distanceTraveled : ℚ
  triedWhileExhausted : Bool
  returnBtn : FloatRect
  clickCount : ℕ
  crashCount : ℕ
  drinkCount : ℕ
  coinCount : ℕ
  tiredCount : ℕ
  finishCount : ℕ
  deriving DecidableEq, Repr

/-- Keys the program distinguishes in `KeyPressed` events. -/
inductive Key where
  | Up
  | Down
  | Enter
  | A
  | Left
  | D
  | Right
  | Other
  deriving DecidableEq, Repr

/-- Window events (`sf::Event`). -/
inductive Event where
  | Closed
  | Resized (width height : ℕ)
  | KeyPressed (code : Key)
  | MouseButtonPressed (x y : ℤ)
  | Other
  deriving DecidableEq, Repr

/-- Everything the environment supplies during one loop iteration. -/
structure Input where
  now : ℚ
  events : List Event
  keyW : Bool
  keyUp : Bool
  keySpace : Bool
  keyS : Bool
  keyDown : Bool
  rTreeGate : ℕ
  rTreeTex : ℕ
  rTreeSide : ℕ
  rTreeX : ℕ
  rObsGate : ℕ
  rObsLane : ℕ
  rObsTex : ℕ
  rObsY : ℕ
  rBottleGate : ℕ
  rBottleLane : ℕ
  rBottleY : ℕ
  rCoinGate : ℕ
  rCoinLane : ℕ
  rCoinY : ℕ
  deriving DecidableEq, Repr

/-! ## Helper functions of the source -/

/-- Lane target of `resetPlayer` (also recomputed inline by the smoothing
block): `roadLeft + padLeft*rw + laneW*(lane + 0.5) - pw/2`. -/
def laneTargetX (rw : ℚ) (winW : ℕ) (lane : ℤ) (pw : ℚ) : ℚ :=
  let roadLeft := ((winW : ℚ) - rw) / 2
  let leftPad := padLeft * rw
  let inner := rw - (padLeft + padRight) * rw
  let laneW := inner / (LANES : ℚ)
  roadLeft + leftPad + laneW * ((lane : ℚ) + 1 / 2) - pw / 2

/-- Helper `resetPlayer`: put the player sprite on its lane target. -/
def resetPlayer (A : Assets) (w : World) : World :=
  let playerTargetX := laneTargetX (A.roadW : ℚ) w.winW w.playerLane w.player.w
  let py := (w.winH : ℚ) - w.player.h - 10
  { w with player := w.player.setPosition playerTargetX py }

/-- The three spacing / overlap loops of `spawnBottle` and `spawnScoreCoin`:
`true` when one of them executes `return`. -/
def spawnRejected (cand : Sprite) (same other1 other2 : List Sprite) : Bool :=
  same.any (fun e => decide (|e.y - cand.y| < 100)) ||
  other1.any (fun o => cand.getGlobalBounds.intersects o.getGlobalBounds) ||
  other2.any (fun o => cand.getGlobalBounds.intersects o.getGlobalBounds)

/-- Candidate sprite built by `spawnBottle`. -/
def bottleCandidate (A : Assets) (winW : ℕ) (rLane rY : ℕ) : Sprite :=
  let lane : ℤ := (rLane : ℤ) % LANES
  let bw : ℚ := (A.bottleW : ℚ) * (23 / 100)
  let bh : ℚ := (A.bottleH : ℚ) * (23 / 100)
  { x := laneTargetX (A.roadW : ℚ) winW lane bw
    y := -bh - ((rY % 100 : ℕ) : ℚ)
    w := bw
    h := bh }

/-- Helper `spawnBottle`. -/
def spawnBottle (A : Assets) (winW : ℕ) (rGate rLane rY : ℕ)
    (bottles obstacles coins : List Sprite) : List Sprite :=
  if rGate % 1000 < 5 then
    let b := bottleCandidate A winW rLane rY
    if spawnRejected b bottles obstacles coins then bottles else bottles ++ [b]
  else bottles

/-- Candidate sprite built by `spawnScoreCoin`. -/
def coinCandidate (A : Assets) (winW : ℕ) (rLane rY : ℕ) : Sprite :=
  let lane : ℤ := (rLane : ℤ) % LANES
  let cw : ℚ := (A.coinW : ℚ) * (16 / 100)
  let ch : ℚ := (A.coinH : ℚ) * (16 / 100)
  { x := laneTargetX (A.roadW : ℚ) winW lane cw
    y := -ch - ((rY % 150 : ℕ) : ℚ)
    w := cw
    h := ch }

/-- Helper `spawnScoreCoin`. -/
def spawnScoreCoin (A : Assets) (winW : ℕ) (rGate rLane rY : ℕ)
    (coins obstacles bottles : List Sprite) : List Sprite :=
  if rGate % 1000 < 4 then
    let c := coinCandidate A winW rLane rY
    if spawnRejected c coins obstacles bottles then coins else coins ++ [c]
  else coins

/-- Result of `updateBottles`: the vector, `stamina`, and the number of
`drinkSound.play()` calls. -/
structure BottleResult where
  bottles : List Sprite
  stamina : ℚ
  drinks : ℕ
  deriving DecidableEq, Repr

/-- Helper `updateBottles`: the erase-while-iterating loop, one element per
recursion step. -/
def updateBottles (worldSpeed : ℚ) (winH : ℕ) (player : Sprite) :
    List Sprite → ℚ → BottleResult
  | [], stamina => { bottles := [], stamina := stamina, drinks := 0 }
  | b :: rest, stamina =>
    let b1 := b.move 0 worldSpeed
    if player.getGlobalBounds.intersects b1.getGlobalBounds then
      let r := updateBottles worldSpeed winH player rest (min MAX_STAMINA (stamina + BOTTLE_STAMINA))
      { r with drinks := r.drinks + 1 }
    else if (winH : ℚ) < b1.y then
      updateBottles worldSpeed winH player rest stamina
    else
      let r := updateBottles worldSpeed winH player rest stamina
      { r with bottles := b1 :: r.bottles }

/-- Result of `updateCoins`: the vector, `score`, and the number of
`coinSound.play()` calls. -/
structure CoinResult where
  coins : List Sprite
  score : ℤ
  plays : ℕ
  deriving DecidableEq, Repr

/-- Helper `updateCoins`. -/
def updateCoins (worldSpeed : ℚ) (winH : ℕ) (player : Sprite) :
    List Sprite → ℤ → CoinResult
  | [], score => { coins := [], score := score, plays := 0 }
  | c :: rest, score =>
    let c1 := c.move 0 worldSpeed
    if player.getGlobalBounds.intersects c1.getGlobalBounds then
      let r := updateCoins worldSpeed winH player rest (score + 100)
      { r with plays := r.plays + 1 }
    else if (winH : ℚ) < c1.y then
      updateCoins worldSpeed winH player rest score
    else
      let r := updateCoins worldSpeed winH player rest score
      { r with coins := c1 :: r.coins }

/-! ## Event handling of the main loop (lines 427–495) -/

/-- One `KeyPressed` event in the main event loop. -/
def handleKey (A : Assets) (now : ℚ) (code : Key) (w : World) : World :=
  match w.gameState with
  | GameState.MENU =>
    match code with
    | Key.Up => { w with selected := (w.selected + 2) % 3 }
    | Key.Down => { w with selected := (w.selected + 1) % 3 }
    | Key.Enter =>
      let w := { w with clickCount := w.clickCount + 1 }
      if w.selected = 0 then
        { w with
          finishLineSpawned := false
          raceFinished := false
          finishTriggered := false
          gameState := GameState.LOADING
          loadingClock := now }
      else if w.selected = 1 then
        { w with gameState := GameState.APROPOS }
      else if w.selected = 2 then
        { w with windowOpen := false }
      else w
    | _ => w
  | GameState.APROPOS =>
    match code with
    | Key.Enter =>
      { w with clickCount := w.clickCount + 1, gameState := GameState.MENU, selected := 0 }
    | _ => w
  | GameState.GAME | GameState.HIT =>
    if (code = Key.A ∨ code = Key.Left) ∧ 0 < w.playerLane then
      resetPlayer A { w with playerLane := w.playerLane - 1 }
    else if (code = Key.D ∨ code = Key.Right) ∧ w.playerLane < LANES - 1 then
      resetPlayer A { w with playerLane := w.playerLane + 1 }
    else w
  | _ => w

/-- One event polled by the main event loop. -/
def handleEvent (A : Assets) (now : ℚ) (w : World) (ev : Event) : World :=
  match ev with
  | Event.Closed => { w with windowOpen := false }
  | Event.Resized width height => resetPlayer A { w with winW := width, winH := height }
  | Event.KeyPressed code => handleKey A now code w
  | _ => w

/-- The main event loop: `while (window.pollEvent(ev))`. -/
def pollEvents (A : Assets) (now : ℚ) (evs : List Event) (w : World) : World :=
  evs.foldl (handleEvent A now) w

/-! ## LOADING state (lines 517–548) -/

/-- The LOADING branch: after 3 s reset the race variables and enter GAME. -/
def loadingStep (A : Assets) (now : ℚ) (w : World) : World :=
  let lt := now - w.loadingClock
  if 3 < lt then
    let w := { w with
      lives := 3
      score := 0
      finishLineSpawned := false
      raceFinished := false
      finishTriggered := false
      trees := []
      obstacles := []
      bottles := []
      coins := []
      playerLane := 1
      playerWorldSpeed := DEFAULT_SPEED
      stamina := MAX_STAMINA }
    let w := resetPlayer A w
    { w with fadeClock := now, gameState := GameState.GAME }
  else w

/-! ## FINISH state: the nested loop (lines 620–709) -/

/-- Body shared by the Enter key and the button click on the finish screen. -/
def backToMenu (w : World) : World :=
  { w with
    clickCount := w.clickCount + 1
    gameState := GameState.MENU
    selected := 0
    distanceTraveled := 0
    score := 0
    lives := 3 }

/-- The event loop of the nested finish-screen loop; `Closed` breaks out. -/
def finishPollEvents : List Event → World → World
  | [], w => w
  | ev :: rest, w =>
    match ev with
    | Event.Closed => { w with windowOpen := false }
    | Event.KeyPressed Key.Enter => finishPollEvents rest (backToMenu w)
    | Event.MouseButtonPressed x y =>
      if w.returnBtn.contains (x : ℚ) (y : ℚ) then finishPollEvents rest (backToMenu w)
      else finishPollEvents rest w
    | _ => finishPollEvents rest w

/-- Entering the FINISH branch: `updateReturnBtnPos()` fixes the button
rectangle, then control is at the head of the nested loop. -/
def enterFinishLoop (A : Assets) (w : World) : World :=
  let bb := A.returnBtnLocal
  let posX := (w.winW : ℚ) / 2 - (bb.width / 2 + bb.left)
  let posY := (w.winH : ℚ) * (6 / 10) + 250
  { w with
    inFinishLoop := true
    returnBtn := { left := posX + bb.left, top := posY + bb.top, width := bb.width, height := bb.height } }

/-- One iteration of the nested finish-screen loop; the loop is left when the
state is no longer FINISH. -/
def finishLoopIteration (evs : List Event) (w : World) : World :=
  if w.gameState = GameState.FINISH then
    let w := finishPollEvents evs w
    { w with inFinishLoop := decide (w.gameState = GameState.FINISH) }
  else { w with inFinishLoop := false }

/-! ## GAME / HIT state (lines 714–996) -/

/-- `boostKeyDown`: W, Up or Space is held. -/
def boostKeyDown (inp : Input) : Bool := inp.keyW || inp.keyUp || inp.keySpace

/-- `braking`: S or Down is held. -/
def braking (inp : Input) : Bool := inp.keyS || inp.keyDown

/-- The local `boosting` of a frame: boost key held and enough stamina at the
start of the frame. -/
def boosting (inp : Input) (w : World) : Bool :=
  boostKeyDown inp && decide (MIN_STAMINA_TO_BOOST ≤ w.stamina)

/-- Lines 727–743: boost drain and the edge-triggered tired sound. -/
def boostStep (inp : Input) (dt : ℚ) (w : World) : World :=
  if boostKeyDown inp then
    if MIN_STAMINA_TO_BOOST ≤ w.stamina then
      { w with stamina := max 0 (w.stamina - STAMINA_DRAIN * dt), triedWhileExhausted := false }
    else if !w.triedWhileExhausted then
      { w with tiredCount := w.tiredCount + 1, triedWhileExhausted := true }
    else w
  else { w with triedWhileExhausted := false }

/-- Lines 753–758: regeneration when not boosting, distance accumulation, and
the second, unconditional regeneration. -/
def regenStep (isBoosting : Bool) (dt : ℚ) (w : World) : World :=
  let w := if !isBoosting then { w with stamina := min MAX_STAMINA (w.stamina + STAMINA_REGEN * dt) } else w
  let w := if !w.raceFinished then { w with distanceTraveled := w.distanceTraveled + w.playerWorldSpeed } else w
  { w with stamina := min MAX_STAMINA (w.stamina + STAMINA_REGEN * dt) }

/-- Lines 761–768: world speed update. -/
def speedStep (isBoosting isBraking : Bool) (w : World) : World :=
  if isBoosting then { w with playerWorldSpeed := min (w.playerWorldSpeed + ACCEL) MAX_SPEED }
  else if isBraking then { w with playerWorldSpeed := 0 }
  else if w.playerWorldSpeed < DEFAULT_SPEED then
    { w with playerWorldSpeed := min (w.playerWorldSpeed + ACCEL) DEFAULT_SPEED }
  else if DEFAULT_SPEED < w.playerWorldSpeed then
    { w with playerWorldSpeed := max (w.playerWorldSpeed - BRAKE_FORCE) DEFAULT_SPEED }
  else w

/-- `roadLeft = (window.getSize().x - rw) / 2.f`. -/
def roadLeft (A : Assets) (w : World) : ℚ := ((w.winW : ℚ) - (A.roadW : ℚ)) / 2

/-- Lines 819–825: place the finish line once the spawn distance is reached. -/
def finishSpawn (A : Assets) (w : World) : World :=
  if !w.finishLineSpawned && decide (FINISH_SPAWN_AT A ≤ w.distanceTraveled) then
    let scale : ℚ := (A.roadW : ℚ) / (A.finishW : ℚ)
    let fw : ℚ := (A.finishW : ℚ) * scale
    let fh : ℚ := (A.finishH : ℚ) * scale
    { w with
      finishLine := { x := roadLeft A w, y := -fh, w := fw, h := fh }
      finishLineSpawned := true }
  else w

/-- Lines 827–844: scroll the finish line, latch the trigger, and switch to
FINISH once the delay has elapsed. -/
def finishTrack (now : ℚ) (w : World) : World :=
  if w.finishLineSpawned then
    let w := { w with finishLine := w.finishLine.move 0 w.playerWorldSpeed }
    let w :=
      if !w.finishTriggered && w.player.getGlobalBounds.intersects w.finishLine.getGlobalBounds then
        { w with finishTriggered := true, finishTriggerClock := now, finishCount := w.finishCount + 1 }
      else w
    if w.finishTriggered && decide (FINISH_DELAY ≤ now - w.finishTriggerClock) then
      { w with gameState := GameState.FINISH, raceFinished := true }
    else w
  else w

/-- `trees.empty() || trees.back().getPosition().y > limit`, also used for the
obstacle vector. -/
def backBelow (l : List Sprite) (limit : ℚ) : Bool :=
  match l.getLast? with
  | none => true
  | some s => decide (limit < s.y)

/-- The tree sprite built at lines 849–857. -/
def treeCandidate (A : Assets) (inp : Input) (w : World) : Sprite :=
  let sz := treeSize A (inp.rTreeTex % 5)
  let tw : ℚ := (sz.1 : ℚ)
  let th : ℚ := (sz.2 : ℚ)
  let rl := roadLeft A w
  let rw : ℚ := (A.roadW : ℚ)
  let leftSide : Bool := inp.rTreeSide % 2 == 0
  let tx : ℚ :=
    if leftSide then
      (if tw < rl then (((inp.rTreeX : ℤ).tmod (truncToInt (rl - tw + 1)) : ℤ) : ℚ) else 0)
    else
      (if tw < (w.winW : ℚ) - (rl + rw) then
        rl + rw + (((inp.rTreeX : ℤ).tmod (truncToInt ((w.winW : ℚ) - rl - rw - tw + 1)) : ℤ) : ℚ)
      else (w.winW : ℚ) - tw)
  { x := tx, y := -th, w := tw, h := th }

/-- Lines 848–859: tree spawn. -/
def spawnTree (A : Assets) (inp : Input) (w : World) : World :=
  if decide (inp.rTreeGate % 100 < 2) && backBelow w.trees 200 then
    { w with trees := w.trees ++ [treeCandidate A inp w] }
  else w

/-- Lines 860–864: move the trees and erase those below the window. -/
def treeLoop (worldSpeed : ℚ) (winH : ℕ) : List Sprite → List Sprite
  | [] => []
  | t :: rest =>
    let t1 := t.move 0 worldSpeed
    if (winH : ℚ) < t1.y then treeLoop worldSpeed winH rest
    else t1 :: treeLoop worldSpeed winH rest

/-- The tree update applied to the state. -/
def updateTrees (w : World) : World :=
  { w with trees := treeLoop w.playerWorldSpeed w.winH w.trees }

/-- The obstacle sprite built at lines 868–876. -/
def obstacleCandidate (A : Assets) (inp : Input) (w : World) : Sprite :=
  let lane : ℤ := (inp.rObsLane : ℤ) % LANES
  let ow : ℚ := (A.eplayerW (inp.rObsTex % 5) : ℚ) * (1 / 5)
  let oh : ℚ := (A.eplayerH (inp.rObsTex % 5) : ℚ) * (1 / 5)
  { x := laneTargetX (A.roadW : ℚ) w.winW lane ow
    y := -oh - (((inp.rObsY % 101 + 50 : ℕ)) : ℚ)
    w := ow
    h := oh }

/-- Lines 867–878: obstacle spawn. -/
def spawnObstacle (A : Assets) (inp : Input) (w : World) : World :=
  if decide (inp.rObsGate % 100 < 10) && backBelow w.obstacles 150 then
    { w with obstacles := w.obstacles ++ [obstacleCandidate A inp w] }
  else w

/-- Line 880: `it->move(0, (braking ? -obstacleSpeed : obstacleSpeed))`. -/
def movedObstacle (isBraking : Bool) (o : Sprite) : Sprite :=
  o.move 0 (if isBraking then -obstacleSpeed else obstacleSpeed)

/-- Lines 879–900: the obstacle loop, one element per recursion step. The
state carries `gameState`, `lives`, `score`, `fadeClock` and the crash sound
counter; the result pairs the surviving vector with the state. -/
def obstacleLoop (isBraking : Bool) (now : ℚ) : List Sprite → World → List Sprite × World
  | [], w => ([], w)
  | o :: rest, w =>
    let o1 := movedObstacle isBraking o
    let pb := shrink w.player.getGlobalBounds
    let ob := shrink o1.getGlobalBounds
    if pb.intersects ob && decide (w.gameState = GameState.GAME) then
      let w := { w with crashCount := w.crashCount + 1, lives := w.lives - 1 }
      let w :=
        if w.lives ≤ (0 : ℤ) then { w with gameState := GameState.MENU }
        else { w with gameState := GameState.HIT, fadeClock := now }
      obstacleLoop isBraking now rest w
    else if (w.winH : ℚ) < o1.y then
      obstacleLoop isBraking now rest { w with score := w.score + 10 }
    else
      let r := obstacleLoop isBraking now rest w
      (o1 :: r.1, r.2)

/-- The obstacle pass applied to the state. -/
def obstaclePass (isBraking : Bool) (now : ℚ) (w : World) : World :=
  let r := obstacleLoop isBraking now w.obstacles w
  { r.2 with obstacles := r.1 }

/-- One smoothing step toward `target` (lines 907–910). -/
def smoothX (bx target : ℚ) : ℚ :=
  if bx + 5 < target then bx + 5
  else if target < bx - 5 then bx - 5
  else target

/-- Lines 903–911: smooth lane movement. -/
def smoothLane (A : Assets) (w : World) : World :=
  let playerTargetX := laneTargetX (A.roadW : ℚ) w.winW w.playerLane w.player.w
  { w with player := { w.player with x := smoothX w.player.x playerTargetX } }

/-- Lines 914–923: the hit blink ends after 2 s. -/
def hitBlink (now : ℚ) (w : World) : World :=
  if w.gameState = GameState.HIT then
    let ht := now - w.fadeClock
    if ht < 2 then w else { w with gameState := GameState.GAME }
  else w

/-- Line 931: the call of `spawnBottle`. -/
def spawnBottleCall (A : Assets) (inp : Input) (w : World) : World :=
  let l := spawnBottle A w.winW inp.rBottleGate inp.rBottleLane inp.rBottleY
    w.bottles w.obstacles w.coins
  { w with bottles := l }

/-- Line 932: the call of `updateBottles`. -/
def updateBottlesCall (w : World) : World :=
  let r := updateBottles w.playerWorldSpeed w.winH w.player w.bottles w.stamina
  { w with bottles := r.bottles, stamina := r.stamina, drinkCount := w.drinkCount + r.drinks }

/-- Line 933: the call of `spawnScoreCoin`. -/
def spawnScoreCoinCall (A : Assets) (inp : Input) (w : World) : World :=
  let l := spawnScoreCoin A w.winW inp.rCoinGate inp.rCoinLane inp.rCoinY
    w.coins w.obstacles w.bottles
  { w with coins := l }

/-- Line 934: the call of `updateCoins`. -/
def updateCoinsCall (w : World) : World :=
  let r := updateCoins w.playerWorldSpeed w.winH w.player w.coins w.score
  { w with coins := r.coins, score := r.score, coinCount := w.coinCount + r.plays }

/-- The frame up to and including the obstacle spawn (lines 716–878). -/
def preObstacle (A : Assets) (inp : Input) (dt : ℚ) (w : World) : World :=
  let b := boosting inp w
  let w := boostStep inp dt w
  let w := regenStep b dt w
  let w := speedStep b (braking inp) w
  let w := finishSpawn A w
  let w := finishTrack inp.now w
  let w := spawnTree A inp w
  let w := updateTrees w
  spawnObstacle A inp w

/-- The frame after the obstacle pass (lines 902–934). -/
def postObstacle (A : Assets) (inp : Input) (w : World) : World :=
  let w := smoothLane A w
  let w := hitBlink inp.now w
  let w := spawnBottleCall A inp w
  let w := updateBottlesCall w
  let w := spawnScoreCoinCall A inp w
  updateCoinsCall w

/-- One frame of the GAME / HIT branch. -/
def gameFrame (A : Assets) (inp : Input) (dt : ℚ) (w : World) : World :=
  postObstacle A inp (obstaclePass (braking inp) inp.now (preObstacle A inp dt w))

/-! ## The main loop -/

/-- The state handling of one main-loop iteration, after event polling. -/
def stateStep (A : Assets) (inp : Input) (dt : ℚ) (w : World) : World :=
  match w.gameState with
  | GameState.LOADING => loadingStep A inp.now w
  | GameState.MENU => w
  | GameState.APROPOS => w
  | GameState.FINISH => enterFinishLoop A w
  | _ => gameFrame A inp dt w

/-- One step of the program: an iteration of the nested finish-screen loop when
control is inside it, otherwise an iteration of the main loop
(`deltaClock.restart()`, event polling, state handling). A closed window has
ended the program. -/
def iteration (A : Assets) (inp : Input) (w : World) : World :=
  if !w.windowOpen then w
  else if w.inFinishLoop then finishLoopIteration inp.events w
  else
    let dt := inp.now - w.deltaClock
    let w := { w with deltaClock := inp.now }
    let w := pollEvents A inp.now inp.events w
    stateStep A inp dt w

/-- The state when the main loop is first entered. -/
def initWorld (A : Assets) : World :=
  let scale : ℚ := (A.roadW : ℚ) / (A.finishW : ℚ)
  resetPlayer A
    { gameState := GameState.MENU
      windowOpen := true
      inFinishLoop := false
      winW := 800
      winH := 600
      selected := 0
      finishLine := { x := 0, y := -NUM_TILES * (A.roadH : ℚ), w := (A.finishW : ℚ) * scale, h := (A.finishH : ℚ) * scale }
      finishLineSpawned := false
      raceFinished := false
      finishTriggered := false
      finishTriggerClock := 0
      loadingClock := 0
      fadeClock := 0
      deltaClock := 0
      trees := []
      obstacles := []
      bottles := []
      coins := []
      player := { x := 0, y := 0, w := (A.playerW : ℚ) * (1 / 4), h := (A.playerH : ℚ) * (1 / 4) }
      lives := 3
      score := 0
      stamina := MAX_STAMINA
      playerWorldSpeed := DEFAULT_SPEED
      playerLane := 1
      distanceTraveled := 0
      triedWhileExhausted := false
      returnBtn := { left := 0, top := 0, width := 0, height := 0 }
      clickCount := 0
      crashCount := 0
      drinkCount := 0
      coinCount := 0
      tiredCount := 0
      finishCount := 0 }

/-- States the program can be in at the head of a loop iteration, under a
clock that never runs backwards. -/
inductive Reachable (A : Assets) : World → Prop where
  | init : Reachable A (initWorld A)
  | step (w : World) (inp : Input) : Reachable A w → w.deltaClock ≤ inp.now →
      Reachable A (iteration A inp w)

/-- Run the program over a list of per-iteration inputs. -/
def run (A : Assets) : List Input → World → World
  | [], w => w
  | inp :: rest, w => run A rest (iteration A inp w)

/-! ## Range predicates -/

/-- Stamina lies in `[0, MAX_STAMINA]`. -/
def StaminaOK (w : World) : Prop := 0 ≤ w.stamina ∧ w.stamina ≤ MAX_STAMINA

/-- World speed lies in `[0, MAX_SPEED]`. -/
def SpeedOK (w : World) : Prop := 0 ≤ w.playerWorldSpeed ∧ w.playerWorldSpeed ≤ MAX_SPEED

/-! ## Vocabulary for the obstacle pass -/

/-- The collision test of the obstacle loop: shrunk player bounds against the
shrunk bounds of the moved obstacle. -/
def hitsPlayer (player : Sprite) (isBraking : Bool) (o : Sprite) : Bool :=
  (shrink player.getGlobalBounds).intersects (shrink (movedObstacle isBraking o).getGlobalBounds)

/-- The moved obstacles that are not below the window, in list order. -/
def survivors (isBraking : Bool) (winH : ℕ) (l : List Sprite) : List Sprite :=
  (l.map (movedObstacle isBraking)).filter (fun o => !decide ((winH : ℚ) < o.y))

/-- The finish flags are ordered: finished implies triggered implies spawned. -/
def FlagsOK (w : World) : Prop :=
  (w.raceFinished = true → w.finishTriggered = true) ∧
    (w.finishTriggered = true → w.finishLineSpawned = true)

/-- The state on which the finish-line block of a frame runs: the frame start
after the stamina and speed controller. -/
def afterControl (inp : Input) (dt : ℚ) (w : World) : World :=
  speedStep (boosting inp w) (braking inp) (regenStep (boosting inp w) dt (boostStep inp dt w))

/-- What a step that runs no game frame can do to the finish sequence: the
finish line and the trigger clock stay, the three flags stay or are all
cleared, and FINISH is not entered. -/
def NoFinishProgress (w w2 : World) : Prop :=
  w2.finishLine = w.finishLine ∧ w2.finishTriggerClock = w.finishTriggerClock ∧
    ((w2.finishLineSpawned = w.finishLineSpawned ∧ w2.finishTriggered = w.finishTriggered ∧
        w2.raceFinished = w.raceFinished) ∨
      (w2.finishLineSpawned = false ∧ w2.finishTriggered = false ∧ w2.raceFinished = false)) ∧
    (w2.gameState = GameState.FINISH → w.gameState = GameState.FINISH)

/-- The vector is ordered with newer entries (further back) at smaller or equal
`y`, i.e. higher up on the screen. -/
def SortedUp (l : List Sprite) : Prop := l.Pairwise (fun a b => b.y ≤ a.y)

/-! ## Demonstration data -/

/-- Sample asset sizes. -/
def demoAssets : Assets :=
  { roadW := 400, roadH := 600, playerW := 200, playerH := 400, finishW := 400, finishH := 100
    treeW := fun _ => 100, treeH := fun _ => 200
    eplayerW := fun _ => 200, eplayerH := fun _ => 400
    bottleW := 100, bottleH := 100, coinW := 100, coinH := 100
    returnBtnLocal := { left := 0, top := 0, width := 200, height := 30 } }

/-- An input at time `now` with no event, no key held and every random gate
failing. -/
def idleInput (now : ℚ) : Input :=
  { now := now, events := [], keyW := false, keyUp := false, keySpace := false
    keyS := false, keyDown := false
    rTreeGate := 99, rTreeTex := 1, rTreeSide := 0, rTreeX := 0
    rObsGate := 99, rObsLane := 0, rObsTex := 0, rObsY := 0
    rBottleGate := 999, rBottleLane := 0, rBottleY := 0
    rCoinGate := 999, rCoinLane := 0, rCoinY := 0 }

/-- Menu, Enter on "Jouer" at t = 1, loading until t = 5: the first frame of
the race is next. -/
def raceStart : World :=
  run demoAssets [{ idleInput 1 with events := [Event.KeyPressed Key.Enter] }, idleInput 5]
    (initWorld demoAssets)

/-- Along the run, no input carries a time earlier than the last
`deltaClock.restart()`. -/
def timeOK (A : Assets) : List Input → World → Bool
  | [], _ => true
  | inp :: rest, w => decide (w.deltaClock ≤ inp.now) && timeOK A rest (iteration A inp w)

/-- The race start with one life left and four obstacles ahead: the second and
the third overlap the player, the fourth is below the window. -/
def crashWorld : World :=
  { raceStart with
    lives := 1
    obstacles := [⟨345, 300, 40, 80⟩, ⟨345, 480, 40, 80⟩, ⟨345, 500, 40, 80⟩, ⟨345, 700, 40, 80⟩] }

/-- The race start with a bottle and two coins on the player and one coin
elsewhere. -/
def pickupWorld : World :=
  { raceStart with
    stamina := 9 / 2
    bottles := [⟨350, 500, 23, 23⟩]
    coins := [⟨350, 500, 16, 16⟩, ⟨100, 100, 16, 16⟩, ⟨350, 520, 16, 16⟩] }

/-- The coin pickup test of `updateCoins`: the moved coin against the player. -/
def coinPicked (worldSpeed : ℚ) (player : Sprite) (c : Sprite) : Bool :=
  player.getGlobalBounds.intersects (c.move 0 worldSpeed).getGlobalBounds

/-- The inputs `f (t0 + k / 10)` for `k = 1 .. n`: frames at ten per second. -/
def framesFrom (t0 : ℚ) (n : ℕ) (f : ℚ → Input) : List Input :=
  (List.range n).map (fun k => f (t0 + ((k : ℚ) + 1) / 10))

/-- An idle input whose obstacle gate passes, for lane 1 at the nearest spawn
height. -/
def spawnObs (t : ℚ) : Input :=
  { idleInput t with rObsGate := 0, rObsLane := 1 }

/-- A race lost and restarted: the window is resized to 800 x 200 and "Jouer"
confirmed at t = 1, the race starts at t = 5, 108 frames follow in which an
obstacle is spawned in the player lane whenever the gate allows, "Jouer" is
confirmed again at t = 17 and the loading delay has passed at t = 21. -/
def deathRestartInputs : List Input :=
  [{ idleInput 1 with events := [Event.Resized 800 200, Event.KeyPressed Key.Enter] },
    idleInput 5] ++
  framesFrom 5 108 spawnObs ++
  [{ idleInput 17 with events := [Event.KeyPressed Key.Enter] }, idleInput 21]

/-- Along the run every step is a GAME / HIT frame of the open main loop in
which the boost key is down and stamina at the start of the frame is below
`MIN_STAMINA_TO_BOOST`. -/
def heldExhausted (A : Assets) : List Input → World → Bool
  | [], _ => true
  | inp :: rest, w =>
    w.windowOpen && !w.inFinishLoop &&
    (decide (w.gameState = GameState.GAME) || decide (w.gameState = GameState.HIT)) &&
    boostKeyDown inp && decide (w.stamina < MIN_STAMINA_TO_BOOST) &&
    heldExhausted A rest (iteration A inp w)

/-- The race start with stamina 0. -/
def exhaustedStart : World := { raceStart with stamina := 0 }

/-- Three frames, half a second apart, with the boost key W held throughout. -/
def boostHold : List Input :=
  [{ idleInput (11 / 2) with keyW := true }, { idleInput 6 with keyW := true },
    { idleInput (13 / 2) with keyW := true }]

/-- Two frames, a tenth of a second apart, with the boost key W held. -/
def shortHold : List Input :=
  [{ idleInput (51 / 10) with keyW := true }, { idleInput (52 / 10) with keyW := true }]

/-- Sample assets with a short road texture: RACE_DISTANCE = 600. -/
def sprintAssets : Assets := { demoAssets with roadH := 60 }

/-- A race run to the finish: window resized to 800 x 200 and "Jouer" confirmed
at t = 1, race start at t = 5, then `n` idle frames at ten per second. -/
def sprintInputs (n : ℕ) : List Input :=
  [{ idleInput 1 with events := [Event.Resized 800 200, Event.KeyPressed Key.Enter] },
    idleInput 5] ++ framesFrom 5 n idleInput

/-- An idle input whose tree gate passes (texture 1, left side). -/
def spawnTreeInput (t : ℚ) : Input :=
  { idleInput t with rTreeGate := 0 }

/-- From the race start: one frame that spawns a tree, then 100 idle frames. -/
def treeInputs : List Input :=
  spawnTreeInput (51 / 10) :: framesFrom (51 / 10) 100 idleInput

/-- The race start followed by one frame in which a bottle is spawned in
lane 1. -/
def bottleAhead : World :=
  iteration demoAssets
    { idleInput (51 / 10) with rBottleGate := 0, rBottleLane := 1, rBottleY := 37 } raceStart

/-- The speed written by the speed update (lines 761–768) as a function of the
two flags and the previous speed. -/
def nextSpeed (isBoosting isBraking : Bool) (s : ℚ) : ℚ :=
  if isBoosting then min (s + ACCEL) MAX_SPEED
  else if isBraking then 0
  else if s < DEFAULT_SPEED then min (s + ACCEL) DEFAULT_SPEED
  else if DEFAULT_SPEED < s then max (s - BRAKE_FORCE) DEFAULT_SPEED
  else s

/-- The mode transitions the claim lists as legal. -/
def legalTransitions : List (GameState × GameState) :=
  [(GameState.MENU, GameState.LOADING), (GameState.MENU, GameState.APROPOS),
    (GameState.APROPOS, GameState.MENU), (GameState.LOADING, GameState.GAME),
    (GameState.GAME, GameState.HIT), (GameState.HIT, GameState.GAME),
    (GameState.GAME, GameState.MENU), (GameState.HIT, GameState.MENU),
    (GameState.GAME, GameState.FINISH), (GameState.FINISH, GameState.MENU)]

/-- The transitions of the program: the listed ones and HIT to FINISH. -/
def programTransitions : List (GameState × GameState) :=
  legalTransitions ++ [(GameState.HIT, GameState.FINISH)]

/-- A race in which the trigger latches at t = 9.7 and an obstacle spawned at
t = 7 hits the player at t = 10.5: at t = 11.6 the mode is HIT. -/
def hitFinishInputs : List Input :=
  [{ idleInput 1 with events := [Event.Resized 800 200, Event.KeyPressed Key.Enter] },
    idleInput 5] ++ framesFrom 5 19 idleInput ++ [spawnObs 7] ++ framesFrom 7 46 idleInput

/-- The lane index is a valid lane. -/
def LaneOK (w : World) : Prop := 0 ≤ w.playerLane ∧ w.playerLane ≤ LANES - 1

/-- The lane after a key press, as the claim describes it. -/
def laneAfterKey (g : GameState) (code : Key) (lane : ℤ) : ℤ :=
  if (g = GameState.GAME ∨ g = GameState.HIT) ∧ (code = Key.A ∨ code = Key.Left) ∧ 0 < lane
  then lane - 1
  else if (g = GameState.GAME ∨ g = GameState.HIT) ∧ (code = Key.D ∨ code = Key.Right) ∧
      lane < LANES - 1
  then lane + 1
  else lane

/-- Lives are within 0..3, and at least 1 while the mode is GAME or HIT. -/
def LivesOK (w : World) : Prop :=
  0 ≤ w.lives ∧ w.lives ≤ 3 ∧
    ((w.gameState = GameState.GAME ∨ w.gameState = GameState.HIT) → 1 ≤ w.lives)

/-- Along the run every step is a GAME / HIT frame of the open main loop in
which boost is not active and no brake key is down. -/
def coasting (A : Assets) : List Input → World → Bool
  | [], _ => true
  | inp :: rest, w =>
    w.windowOpen && !w.inFinishLoop &&
    (decide (w.gameState = GameState.GAME) || decide (w.gameState = GameState.HIT)) &&
    !boosting inp w && !braking inp &&
    coasting A rest (iteration A inp w)

/-- The race start followed by three boosted frames at ten per second: the
world speed is 4.6. -/
def boostedStart : World :=
  run demoAssets (framesFrom 5 3 (fun t => { idleInput t with keyW := true })) raceStart

/-- The loop of `updateBottles` (lines 109–121) at iterator level: `i` is the
position of `it` in the vector `v`. `it->move` writes the element in place,
`bottles.erase(it)` removes the element at `i` and leaves `it` at position `i`,
`++it` advances by one; the loop ends when `it` reaches `end()`. The first
argument bounds the number of loop-condition tests. -/
def updateBottlesIter (worldSpeed : ℚ) (winH : ℕ) (player : Sprite) :
    ℕ → ℕ → List Sprite → ℚ → ℕ → Option BottleResult
  | 0, _, _, _, _ => none
  | fuel + 1, i, v, stamina, drinks =>
    if h : i < v.length then
      let b1 := (v[i]).move 0 worldSpeed
      let v1 := v.set i b1
      if player.getGlobalBounds.intersects b1.getGlobalBounds then
        updateBottlesIter worldSpeed winH player fuel i (v1.eraseIdx i)
          (min MAX_STAMINA (stamina + BOTTLE_STAMINA)) (drinks + 1)
      else if (winH : ℚ) < b1.y then
        updateBottlesIter worldSpeed winH player fuel i (v1.eraseIdx i) stamina drinks
      else
        updateBottlesIter worldSpeed winH player fuel (i + 1) v1 stamina drinks
    else some { bottles := v, stamina := stamina, drinks := drinks }

/-- The loop of `updateCoins` (lines 129–141) at iterator level, as for
`updateBottlesIter`. -/
def updateCoinsIter (worldSpeed : ℚ) (winH : ℕ) (player : Sprite) :
    ℕ → ℕ → List Sprite → ℤ → ℕ → Option CoinResult
  | 0, _, _, _, _ => none
  | fuel + 1, i, v, score, plays =>
    if h : i < v.length then
      let c1 := (v[i]).move 0 worldSpeed
      let v1 := v.set i c1
      if player.getGlobalBounds.intersects c1.getGlobalBounds then
        updateCoinsIter worldSpeed winH player fuel i (v1.eraseIdx i) (score + 100) (plays + 1)
      else if (winH : ℚ) < c1.y then
        updateCoinsIter worldSpeed winH player fuel i (v1.eraseIdx i) score plays
      else
        updateCoinsIter worldSpeed winH player fuel (i + 1) v1 score plays
    else some { coins := v, score := score, plays := plays }

/-- The prune as the specification words it: move every element once by
`worldSpeed`, then keep, in order, the moved elements that neither intersect
the player's bounds nor lie below the window. -/
def pruneSpec (worldSpeed : ℚ) (winH : ℕ) (player : Sprite) (l : List Sprite) : List Sprite :=
  (l.map (fun e => e.move 0 worldSpeed)).filter
    (fun e => !player.getGlobalBounds.intersects e.getGlobalBounds && !decide ((winH : ℚ) < e.y))

/-- The number of moved elements that intersect the player's bounds. -/
def pickedSpec (worldSpeed : ℚ) (player : Sprite) (l : List Sprite) : ℕ :=
  (l.map (fun e => e.move 0 worldSpeed)).countP
    (fun e => player.getGlobalBounds.intersects e.getGlobalBounds)

/-- The four entity collections of a state: trees, obstacles, bottles and
coins. -/
def entities (w : World) : List Sprite × List Sprite × List Sprite × List Sprite :=
  (w.trees, w.obstacles, w.bottles, w.coins)

/-- The statements of one GAME / HIT frame in source order, each as a state
transformer; `w` is the state at the head of the frame, where the boost block
fixes the local `boosting`. -/
def frameStatements (A : Assets) (inp : Input) (dt : ℚ) (w : World) : List (World → World) :=
  [boostStep inp dt, regenStep (boosting inp w) dt, speedStep (boosting inp w) (braking inp),
    finishSpawn A, finishTrack inp.now, spawnTree A inp, updateTrees, spawnObstacle A inp,
    obstaclePass (braking inp) inp.now, smoothLane A, hitBlink inp.now, spawnBottleCall A inp,
    updateBottlesCall, spawnScoreCoinCall A inp, updateCoinsCall]

/-- The state in front of statement `k` of the frame. -/
def stateBefore (A : Assets) (inp : Input) (dt : ℚ) (w : World) (k : ℕ) : World :=
  ((frameStatements A inp dt w).take k).foldl (fun v f => f v) w

/-- The state at the head of the frame run by a main-loop iteration: after
`deltaClock.restart()` and event polling. -/
def frameStart (A : Assets) (inp : Input) (w : World) : World :=
  pollEvents A inp.now inp.events { w with deltaClock := inp.now }

/-- A race down to the last life: the window is resized to 800 x 200 and
"Jouer" confirmed at t = 1, the race starts at t = 5, and 107 frames follow in
which an obstacle is spawned in the player lane whenever the gate allows. -/
def lastLifeInputs : List Input :=
  [{ idleInput 1 with events := [Event.Resized 800 200, Event.KeyPressed Key.Enter] },
    idleInput 5] ++ framesFrom 5 107 spawnObs

/-- The frame at t = 15.8, in which the last life is lost; its bottle gate
passes for lane 2. -/
def lastFrame : Input :=
  { spawnObs (79 / 5) with rBottleGate := 0, rBottleLane := 2, rBottleY := 37 }

/-- The race lost and restarted: after `lastLifeInputs` and `lastFrame`, "Jouer"
is confirmed again at t = 17. -/
def lostAndRestarted : List Input :=
  lastLifeInputs ++ [lastFrame, { idleInput 17 with events := [Event.KeyPressed Key.Enter] }]

/-- The state with one life left, at the head of the iteration of t = 15.8. -/
def lastLifeState : World := run demoAssets lastLifeInputs (initWorld demoAssets)

/-- The state in front of statement `k` of the frame in which the last life is
lost. -/
def lastFrameBefore (k : ℕ) : World :=
  stateBefore demoAssets lastFrame (lastFrame.now - lastLifeState.deltaClock)
    (frameStart demoAssets lastFrame lastLifeState) k

/-! # Theorems -/

/-! ## Frame lemmas: what each loop leaves alone -/

/-- The obstacle loop changes only `gameState`, `lives`, `score`, `fadeClock`
and `crashCount`. -/
theorem obstacleLoop_frame (isBraking : Bool) (now : ℚ) (l : List Sprite) (w : World) :
    ∃ g lv sc fc cc, (obstacleLoop isBraking now l w).2 =
      { w with gameState := g, lives := lv, score := sc, fadeClock := fc, crashCount := cc } := by
  induction l generalizing w with
  | nil => exact ⟨w.gameState, w.lives, w.score, w.fadeClock, w.crashCount, rfl⟩
  | cons o rest ih =>
    simp only [obstacleLoop]
    split_ifs <;> exact ih _

/-- The obstacle pass changes only `obstacles`, `gameState`, `lives`, `score`,
`fadeClock` and `crashCount`. -/
theorem obstaclePass_frame (isBraking : Bool) (now : ℚ) (w : World) :
    ∃ ob g lv sc fc cc, obstaclePass isBraking now w =
      { w with obstacles := ob, gameState := g, lives := lv, score := sc, fadeClock := fc, crashCount := cc } := by
  obtain ⟨g, lv, sc, fc, cc, h⟩ := obstacleLoop_frame isBraking now w.obstacles w
  refine ⟨(obstacleLoop isBraking now w.obstacles w).1, g, lv, sc, fc, cc, ?_⟩
  simp only [obstaclePass, h]

/-- One main-loop event changes only the window, the menu selection, the race
flags, the mode, the loading clock, the lane, the player sprite and the click
counter. -/
theorem handleEvent_frame (A : Assets) (now : ℚ) (w : World) (ev : Event) :
    ∃ g wo ww wh sel fs rf ft lc pl ln ck, handleEvent A now w ev =
      { w with gameState := g, windowOpen := wo, winW := ww, winH := wh, selected := sel,
               finishLineSpawned := fs, raceFinished := rf, finishTriggered := ft,
               loadingClock := lc, player := pl, playerLane := ln, clickCount := ck } := by
  cases ev with
  | Closed => exact ⟨_, _, _, _, _, _, _, _, _, _, _, _, rfl⟩
  | Resized a b => exact ⟨_, _, _, _, _, _, _, _, _, _, _, _, rfl⟩
  | KeyPressed code =>
    simp only [handleEvent]
    unfold handleKey
    split <;> (try split) <;> (try dsimp only) <;> (try split_ifs) <;>
      exact ⟨_, _, _, _, _, _, _, _, _, _, _, _, rfl⟩
  | MouseButtonPressed a b => exact ⟨_, _, _, _, _, _, _, _, _, _, _, _, rfl⟩
  | Other => exact ⟨_, _, _, _, _, _, _, _, _, _, _, _, rfl⟩

/-- Event polling of the main loop: same frame as a single event. -/
theorem pollEvents_frame (A : Assets) (now : ℚ) (evs : List Event) (w : World) :
    ∃ g wo ww wh sel fs rf ft lc pl ln ck, pollEvents A now evs w =
      { w with gameState := g, windowOpen := wo, winW := ww, winH := wh, selected := sel,
               finishLineSpawned := fs, raceFinished := rf, finishTriggered := ft,
               loadingClock := lc, player := pl, playerLane := ln, clickCount := ck } := by
  induction evs generalizing w with
  | nil => exact ⟨_, _, _, _, _, _, _, _, _, _, _, _, rfl⟩
  | cons ev rest ih =>
    obtain ⟨g, wo, ww, wh, sel, fs, rf, ft, lc, pl, ln, ck, h⟩ := handleEvent_frame A now w ev
    obtain ⟨g2, wo2, ww2, wh2, sel2, fs2, rf2, ft2, lc2, pl2, ln2, ck2, h2⟩ := ih (handleEvent A now w ev)
    refine ⟨g2, wo2, ww2, wh2, sel2, fs2, rf2, ft2, lc2, pl2, ln2, ck2, ?_⟩
    simp only [pollEvents, List.foldl_cons] at h2 ⊢
    rw [h2, h]

/-- The event loop of the finish screen changes only `windowOpen`, the mode,
the menu selection, the distance, the score, the lives and the click counter. -/
theorem finishPollEvents_frame (evs : List Event) (w : World) :
    ∃ g wo sel d sc lv ck, finishPollEvents evs w =
      { w with gameState := g, windowOpen := wo, selected := sel, distanceTraveled := d,
               score := sc, lives := lv, clickCount := ck } := by
  induction evs generalizing w with
  | nil => exact ⟨_, _, _, _, _, _, _, rfl⟩
  | cons ev rest ih =>
    unfold finishPollEvents
    split
    · exact ⟨_, _, _, _, _, _, _, rfl⟩
    · exact ih (backToMenu w)
    · split_ifs
      · exact ih (backToMenu w)
      · exact ih w
    · exact ih w

/-- One iteration of the finish-screen loop: same frame, plus `inFinishLoop`. -/
theorem finishLoopIteration_frame (evs : List Event) (w : World) :
    ∃ g wo fl sel d sc lv ck, finishLoopIteration evs w =
      { w with gameState := g, windowOpen := wo, inFinishLoop := fl, selected := sel,
               distanceTraveled := d, score := sc, lives := lv, clickCount := ck } := by
  unfold finishLoopIteration
  split_ifs
  · obtain ⟨g, wo, sel, d, sc, lv, ck, h⟩ := finishPollEvents_frame evs w
    exact ⟨g, wo, _, sel, d, sc, lv, ck, by rw [h]⟩
  · exact ⟨_, _, _, _, _, _, _, _, rfl⟩

/-! ## Fields each phase leaves unchanged -/

@[simp]
theorem resetPlayer_keeps (A : Assets) (w : World) :
    (resetPlayer A w).gameState = w.gameState ∧ (resetPlayer A w).windowOpen = w.windowOpen ∧
      (resetPlayer A w).inFinishLoop = w.inFinishLoop ∧ (resetPlayer A w).winW = w.winW ∧
      (resetPlayer A w).winH = w.winH ∧ (resetPlayer A w).selected = w.selected ∧
      (resetPlayer A w).finishLine = w.finishLine ∧
      (resetPlayer A w).finishLineSpawned = w.finishLineSpawned ∧
      (resetPlayer A w).raceFinished = w.raceFinished ∧
      (resetPlayer A w).finishTriggered = w.finishTriggered ∧
      (resetPlayer A w).finishTriggerClock = w.finishTriggerClock ∧
      (resetPlayer A w).loadingClock = w.loadingClock ∧ (resetPlayer A w).fadeClock = w.fadeClock ∧
      (resetPlayer A w).deltaClock = w.deltaClock ∧ (resetPlayer A w).trees = w.trees ∧
      (resetPlayer A w).obstacles = w.obstacles ∧ (resetPlayer A w).bottles = w.bottles ∧
      (resetPlayer A w).coins = w.coins ∧ (resetPlayer A w).lives = w.lives ∧
      (resetPlayer A w).score = w.score ∧ (resetPlayer A w).stamina = w.stamina ∧
      (resetPlayer A w).playerWorldSpeed = w.playerWorldSpeed ∧
      (resetPlayer A w).playerLane = w.playerLane ∧
      (resetPlayer A w).distanceTraveled = w.distanceTraveled ∧
      (resetPlayer A w).triedWhileExhausted = w.triedWhileExhausted ∧
      (resetPlayer A w).returnBtn = w.returnBtn ∧ (resetPlayer A w).clickCount = w.clickCount ∧
      (resetPlayer A w).crashCount = w.crashCount ∧ (resetPlayer A w).drinkCount = w.drinkCount ∧
      (resetPlayer A w).coinCount = w.coinCount ∧ (resetPlayer A w).tiredCount = w.tiredCount ∧
      (resetPlayer A w).finishCount = w.finishCount := by
  simp [resetPlayer]

@[simp]
theorem boostStep_keeps (inp : Input) (dt : ℚ) (w : World) :
    (boostStep inp dt w).gameState = w.gameState ∧ (boostStep inp dt w).windowOpen = w.windowOpen ∧
      (boostStep inp dt w).inFinishLoop = w.inFinishLoop ∧ (boostStep inp dt w).winW = w.winW ∧
      (boostStep inp dt w).winH = w.winH ∧ (boostStep inp dt w).selected = w.selected ∧
      (boostStep inp dt w).finishLine = w.finishLine ∧
      (boostStep inp dt w).finishLineSpawned = w.finishLineSpawned ∧
      (boostStep inp dt w).raceFinished = w.raceFinished ∧
      (boostStep inp dt w).finishTriggered = w.finishTriggered ∧
      (boostStep inp dt w).finishTriggerClock = w.finishTriggerClock ∧
      (boostStep inp dt w).loadingClock = w.loadingClock ∧
      (boostStep inp dt w).fadeClock = w.fadeClock ∧
      (boostStep inp dt w).deltaClock = w.deltaClock ∧ (boostStep inp dt w).trees = w.trees ∧
      (boostStep inp dt w).obstacles = w.obstacles ∧ (boostStep inp dt w).bottles = w.bottles ∧
      (boostStep inp dt w).coins = w.coins ∧ (boostStep inp dt w).player = w.player ∧
      (boostStep inp dt w).lives = w.lives ∧ (boostStep inp dt w).score = w.score ∧
      (boostStep inp dt w).playerWorldSpeed = w.playerWorldSpeed ∧
      (boostStep inp dt w).playerLane = w.playerLane ∧
      (boostStep inp dt w).distanceTraveled = w.distanceTraveled ∧
      (boostStep inp dt w).returnBtn = w.returnBtn ∧
      (boostStep inp dt w).clickCount = w.clickCount ∧
      (boostStep inp dt w).crashCount = w.crashCount ∧
      (boostStep inp dt w).drinkCount = w.drinkCount ∧
      (boostStep inp dt w).coinCount = w.coinCount ∧
      (boostStep inp dt w).finishCount = w.finishCount := by
  unfold boostStep
  split_ifs <;> simp

@[simp]
theorem regenStep_keeps (b : Bool) (dt : ℚ) (w : World) :
    (regenStep b dt w).gameState = w.gameState ∧ (regenStep b dt w).windowOpen = w.windowOpen ∧
      (regenStep b dt w).inFinishLoop = w.inFinishLoop ∧ (regenStep b dt w).winW = w.winW ∧
      (regenStep b dt w).winH = w.winH ∧ (regenStep b dt w).selected = w.selected ∧
      (regenStep b dt w).finishLine = w.finishLine ∧
      (regenStep b dt w).finishLineSpawned = w.finishLineSpawned ∧
      (regenStep b dt w).raceFinished = w.raceFinished ∧
      (regenStep b dt w).finishTriggered = w.finishTriggered ∧
      (regenStep b dt w).finishTriggerClock = w.finishTriggerClock ∧
      (regenStep b dt w).loadingClock = w.loadingClock ∧
      (regenStep b dt w).fadeClock = w.fadeClock ∧ (regenStep b dt w).deltaClock = w.deltaClock ∧
      (regenStep b dt w).trees = w.trees ∧ (regenStep b dt w).obstacles = w.obstacles ∧
      (regenStep b dt w).bottles = w.bottles ∧ (regenStep b dt w).coins = w.coins ∧
      (regenStep b dt w).player = w.player ∧ (regenStep b dt w).lives = w.lives ∧
      (regenStep b dt w).score = w.score ∧
      (regenStep b dt w).playerWorldSpeed = w.playerWorldSpeed ∧
      (regenStep b dt w).playerLane = w.playerLane ∧
      (regenStep b dt w).triedWhileExhausted = w.triedWhileExhausted ∧
      (regenStep b dt w).returnBtn = w.returnBtn ∧ (regenStep b dt w).clickCount = w.clickCount ∧
      (regenStep b dt w).crashCount = w.crashCount ∧ (regenStep b dt w).drinkCount = w.drinkCount ∧
      (regenStep b dt w).coinCount = w.coinCount ∧ (regenStep b dt w).tiredCount = w.tiredCount ∧
      (regenStep b dt w).finishCount = w.finishCount := by
  unfold regenStep
  (try dsimp only)
  split_ifs <;> simp

@[simp]
theorem speedStep_keeps (b c : Bool) (w : World) :
    (speedStep b c w).gameState = w.gameState ∧ (speedStep b c w).windowOpen = w.windowOpen ∧
      (speedStep b c w).inFinishLoop = w.inFinishLoop ∧ (speedStep b c w).winW = w.winW ∧
      (speedStep b c w).winH = w.winH ∧ (speedStep b c w).selected = w.selected ∧
      (speedStep b c w).finishLine = w.finishLine ∧
      (speedStep b c w).finishLineSpawned = w.finishLineSpawned ∧
      (speedStep b c w).raceFinished = w.raceFinished ∧
      (speedStep b c w).finishTriggered = w.finishTriggered ∧
      (speedStep b c w).finishTriggerClock = w.finishTriggerClock ∧
      (speedStep b c w).loadingClock = w.loadingClock ∧ (speedStep b c w).fadeClock = w.fadeClock ∧
      (speedStep b c w).deltaClock = w.deltaClock ∧ (speedStep b c w).trees = w.trees ∧
      (speedStep b c w).obstacles = w.obstacles ∧ (speedStep b c w).bottles = w.bottles ∧
      (speedStep b c w).coins = w.coins ∧ (speedStep b c w).player = w.player ∧
      (speedStep b c w).lives = w.lives ∧ (speedStep b c w).score = w.score ∧
      (speedStep b c w).stamina = w.stamina ∧ (speedStep b c w).playerLane = w.playerLane ∧
      (speedStep b c w).distanceTraveled = w.distanceTraveled ∧
      (speedStep b c w).triedWhileExhausted = w.triedWhileExhausted ∧
      (speedStep b c w).returnBtn = w.returnBtn ∧ (speedStep b c w).clickCount = w.clickCount ∧
      (speedStep b c w).crashCount = w.crashCount ∧ (speedStep b c w).drinkCount = w.drinkCount ∧
      (speedStep b c w).coinCount = w.coinCount ∧ (speedStep b c w).tiredCount = w.tiredCount ∧
      (speedStep b c w).finishCount = w.finishCount := by
  unfold speedStep
  split_ifs <;> simp

@[simp]
theorem finishSpawn_keeps (A : Assets) (w : World) :
    (finishSpawn A w).gameState = w.gameState ∧ (finishSpawn A w).windowOpen = w.windowOpen ∧
      (finishSpawn A w).inFinishLoop = w.inFinishLoop ∧ (finishSpawn A w).winW = w.winW ∧
      (finishSpawn A w).winH = w.winH ∧ (finishSpawn A w).selected = w.selected ∧
      (finishSpawn A w).raceFinished = w.raceFinished ∧
      (finishSpawn A w).finishTriggered = w.finishTriggered ∧
      (finishSpawn A w).finishTriggerClock = w.finishTriggerClock ∧
      (finishSpawn A w).loadingClock = w.loadingClock ∧ (finishSpawn A w).fadeClock = w.fadeClock ∧
      (finishSpawn A w).deltaClock = w.deltaClock ∧ (finishSpawn A w).trees = w.trees ∧
      (finishSpawn A w).obstacles = w.obstacles ∧ (finishSpawn A w).bottles = w.bottles ∧
      (finishSpawn A w).coins = w.coins ∧ (finishSpawn A w).player = w.player ∧
      (finishSpawn A w).lives = w.lives ∧ (finishSpawn A w).score = w.score ∧
      (finishSpawn A w).stamina = w.stamina ∧
      (finishSpawn A w).playerWorldSpeed = w.playerWorldSpeed ∧
      (finishSpawn A w).playerLane = w.playerLane ∧
      (finishSpawn A w).distanceTraveled = w.distanceTraveled ∧
      (finishSpawn A w).triedWhileExhausted = w.triedWhileExhausted ∧
      (finishSpawn A w).returnBtn = w.returnBtn ∧ (finishSpawn A w).clickCount = w.clickCount ∧
      (finishSpawn A w).crashCount = w.crashCount ∧ (finishSpawn A w).drinkCount = w.drinkCount ∧
      (finishSpawn A w).coinCount = w.coinCount ∧ (finishSpawn A w).tiredCount = w.tiredCount ∧
      (finishSpawn A w).finishCount = w.finishCount := by
  unfold finishSpawn
  split_ifs <;> simp

@[simp]
theorem finishTrack_keeps (now : ℚ) (w : World) :
    (finishTrack now w).windowOpen = w.windowOpen ∧
      (finishTrack now w).inFinishLoop = w.inFinishLoop ∧ (finishTrack now w).winW = w.winW ∧
      (finishTrack now w).winH = w.winH ∧ (finishTrack now w).selected = w.selected ∧
      (finishTrack now w).finishLineSpawned = w.finishLineSpawned ∧
      (finishTrack now w).loadingClock = w.loadingClock ∧
      (finishTrack now w).fadeClock = w.fadeClock ∧ (finishTrack now w).deltaClock = w.deltaClock ∧
      (finishTrack now w).trees = w.trees ∧ (finishTrack now w).obstacles = w.obstacles ∧
      (finishTrack now w).bottles = w.bottles ∧ (finishTrack now w).coins = w.coins ∧
      (finishTrack now w).player = w.player ∧ (finishTrack now w).lives = w.lives ∧
      (finishTrack now w).score = w.score ∧ (finishTrack now w).stamina = w.stamina ∧
      (finishTrack now w).playerWorldSpeed = w.playerWorldSpeed ∧
      (finishTrack now w).playerLane = w.playerLane ∧
      (finishTrack now w).distanceTraveled = w.distanceTraveled ∧
      (finishTrack now w).triedWhileExhausted = w.triedWhileExhausted ∧
      (finishTrack now w).returnBtn = w.returnBtn ∧ (finishTrack now w).clickCount = w.clickCount ∧
      (finishTrack now w).crashCount = w.crashCount ∧
      (finishTrack now w).drinkCount = w.drinkCount ∧ (finishTrack now w).coinCount = w.coinCount ∧
      (finishTrack now w).tiredCount = w.tiredCount := by
  unfold finishTrack
  (try dsimp only)
  split_ifs <;> simp

@[simp]
theorem spawnTree_keeps (A : Assets) (inp : Input) (w : World) :
    (spawnTree A inp w).gameState = w.gameState ∧ (spawnTree A inp w).windowOpen = w.windowOpen ∧
      (spawnTree A inp w).inFinishLoop = w.inFinishLoop ∧ (spawnTree A inp w).winW = w.winW ∧
      (spawnTree A inp w).winH = w.winH ∧ (spawnTree A inp w).selected = w.selected ∧
      (spawnTree A inp w).finishLine = w.finishLine ∧
      (spawnTree A inp w).finishLineSpawned = w.finishLineSpawned ∧
      (spawnTree A inp w).raceFinished = w.raceFinished ∧
      (spawnTree A inp w).finishTriggered = w.finishTriggered ∧
      (spawnTree A inp w).finishTriggerClock = w.finishTriggerClock ∧
      (spawnTree A inp w).loadingClock = w.loadingClock ∧
      (spawnTree A inp w).fadeClock = w.fadeClock ∧ (spawnTree A inp w).deltaClock = w.deltaClock ∧
      (spawnTree A inp w).obstacles = w.obstacles ∧ (spawnTree A inp w).bottles = w.bottles ∧
      (spawnTree A inp w).coins = w.coins ∧ (spawnTree A inp w).player = w.player ∧
      (spawnTree A inp w).lives = w.lives ∧ (spawnTree A inp w).score = w.score ∧
      (spawnTree A inp w).stamina = w.stamina ∧
      (spawnTree A inp w).playerWorldSpeed = w.playerWorldSpeed ∧
      (spawnTree A inp w).playerLane = w.playerLane ∧
      (spawnTree A inp w).distanceTraveled = w.distanceTraveled ∧
      (spawnTree A inp w).triedWhileExhausted = w.triedWhileExhausted ∧
      (spawnTree A inp w).returnBtn = w.returnBtn ∧ (spawnTree A inp w).clickCount = w.clickCount ∧
      (spawnTree A inp w).crashCount = w.crashCount ∧
      (spawnTree A inp w).drinkCount = w.drinkCount ∧ (spawnTree A inp w).coinCount = w.coinCount ∧
      (spawnTree A inp w).tiredCount = w.tiredCount ∧
      (spawnTree A inp w).finishCount = w.finishCount := by
  unfold spawnTree
  split_ifs <;> simp

@[simp]
theorem updateTrees_keeps (w : World) :
    (updateTrees w).gameState = w.gameState ∧ (updateTrees w).windowOpen = w.windowOpen ∧
      (updateTrees w).inFinishLoop = w.inFinishLoop ∧ (updateTrees w).winW = w.winW ∧
      (updateTrees w).winH = w.winH ∧ (updateTrees w).selected = w.selected ∧
      (updateTrees w).finishLine = w.finishLine ∧
      (updateTrees w).finishLineSpawned = w.finishLineSpawned ∧
      (updateTrees w).raceFinished = w.raceFinished ∧
      (updateTrees w).finishTriggered = w.finishTriggered ∧
      (updateTrees w).finishTriggerClock = w.finishTriggerClock ∧
      (updateTrees w).loadingClock = w.loadingClock ∧ (updateTrees w).fadeClock = w.fadeClock ∧
      (updateTrees w).deltaClock = w.deltaClock ∧ (updateTrees w).obstacles = w.obstacles ∧
      (updateTrees w).bottles = w.bottles ∧ (updateTrees w).coins = w.coins ∧
      (updateTrees w).player = w.player ∧ (updateTrees w).lives = w.lives ∧
      (updateTrees w).score = w.score ∧ (updateTrees w).stamina = w.stamina ∧
      (updateTrees w).playerWorldSpeed = w.playerWorldSpeed ∧
      (updateTrees w).playerLane = w.playerLane ∧
      (updateTrees w).distanceTraveled = w.distanceTraveled ∧
      (updateTrees w).triedWhileExhausted = w.triedWhileExhausted ∧
      (updateTrees w).returnBtn = w.returnBtn ∧ (updateTrees w).clickCount = w.clickCount ∧
      (updateTrees w).crashCount = w.crashCount ∧ (updateTrees w).drinkCount = w.drinkCount ∧
      (updateTrees w).coinCount = w.coinCount ∧ (updateTrees w).tiredCount = w.tiredCount ∧
      (updateTrees w).finishCount = w.finishCount := by
  simp [updateTrees]

@[simp]
theorem spawnObstacle_keeps (A : Assets) (inp : Input) (w : World) :
    (spawnObstacle A inp w).gameState = w.gameState ∧
      (spawnObstacle A inp w).windowOpen = w.windowOpen ∧
      (spawnObstacle A inp w).inFinishLoop = w.inFinishLoop ∧
      (spawnObstacle A inp w).winW = w.winW ∧ (spawnObstacle A inp w).winH = w.winH ∧
      (spawnObstacle A inp w).selected = w.selected ∧
      (spawnObstacle A inp w).finishLine = w.finishLine ∧
      (spawnObstacle A inp w).finishLineSpawned = w.finishLineSpawned ∧
      (spawnObstacle A inp w).raceFinished = w.raceFinished ∧
      (spawnObstacle A inp w).finishTriggered = w.finishTriggered ∧
      (spawnObstacle A inp w).finishTriggerClock = w.finishTriggerClock ∧
      (spawnObstacle A inp w).loadingClock = w.loadingClock ∧
      (spawnObstacle A inp w).fadeClock = w.fadeClock ∧
      (spawnObstacle A inp w).deltaClock = w.deltaClock ∧ (spawnObstacle A inp w).trees = w.trees ∧
      (spawnObstacle A inp w).bottles = w.bottles ∧ (spawnObstacle A inp w).coins = w.coins ∧
      (spawnObstacle A inp w).player = w.player ∧ (spawnObstacle A inp w).lives = w.lives ∧
      (spawnObstacle A inp w).score = w.score ∧ (spawnObstacle A inp w).stamina = w.stamina ∧
      (spawnObstacle A inp w).playerWorldSpeed = w.playerWorldSpeed ∧
      (spawnObstacle A inp w).playerLane = w.playerLane ∧
      (spawnObstacle A inp w).distanceTraveled = w.distanceTraveled ∧
      (spawnObstacle A inp w).triedWhileExhausted = w.triedWhileExhausted ∧
      (spawnObstacle A inp w).returnBtn = w.returnBtn ∧
      (spawnObstacle A inp w).clickCount = w.clickCount ∧
      (spawnObstacle A inp w).crashCount = w.crashCount ∧
      (spawnObstacle A inp w).drinkCount = w.drinkCount ∧
      (spawnObstacle A inp w).coinCount = w.coinCount ∧
      (spawnObstacle A inp w).tiredCount = w.tiredCount ∧
      (spawnObstacle A inp w).finishCount = w.finishCount := by
  unfold spawnObstacle
  split_ifs <;> simp

@[simp]
theorem obstaclePass_keeps (b : Bool) (now : ℚ) (w : World) :
    (obstaclePass b now w).windowOpen = w.windowOpen ∧
      (obstaclePass b now w).inFinishLoop = w.inFinishLoop ∧ (obstaclePass b now w).winW = w.winW ∧
      (obstaclePass b now w).winH = w.winH ∧ (obstaclePass b now w).selected = w.selected ∧
      (obstaclePass b now w).finishLine = w.finishLine ∧
      (obstaclePass b now w).finishLineSpawned = w.finishLineSpawned ∧
      (obstaclePass b now w).raceFinished = w.raceFinished ∧
      (obstaclePass b now w).finishTriggered = w.finishTriggered ∧
      (obstaclePass b now w).finishTriggerClock = w.finishTriggerClock ∧
      (obstaclePass b now w).loadingClock = w.loadingClock ∧
      (obstaclePass b now w).deltaClock = w.deltaClock ∧ (obstaclePass b now w).trees = w.trees ∧
      (obstaclePass b now w).bottles = w.bottles ∧ (obstaclePass b now w).coins = w.coins ∧
      (obstaclePass b now w).player = w.player ∧ (obstaclePass b now w).stamina = w.stamina ∧
      (obstaclePass b now w).playerWorldSpeed = w.playerWorldSpeed ∧
      (obstaclePass b now w).playerLane = w.playerLane ∧
      (obstaclePass b now w).distanceTraveled = w.distanceTraveled ∧
      (obstaclePass b now w).triedWhileExhausted = w.triedWhileExhausted ∧
      (obstaclePass b now w).returnBtn = w.returnBtn ∧
      (obstaclePass b now w).clickCount = w.clickCount ∧
      (obstaclePass b now w).drinkCount = w.drinkCount ∧
      (obstaclePass b now w).coinCount = w.coinCount ∧
      (obstaclePass b now w).tiredCount = w.tiredCount ∧
      (obstaclePass b now w).finishCount = w.finishCount := by
  obtain ⟨_, _, _, _, _, _, h⟩ := obstaclePass_frame b now w
  rw [h]
  simp

@[simp]
theorem smoothLane_keeps (A : Assets) (w : World) :
    (smoothLane A w).gameState = w.gameState ∧ (smoothLane A w).windowOpen = w.windowOpen ∧
      (smoothLane A w).inFinishLoop = w.inFinishLoop ∧ (smoothLane A w).winW = w.winW ∧
      (smoothLane A w).winH = w.winH ∧ (smoothLane A w).selected = w.selected ∧
      (smoothLane A w).finishLine = w.finishLine ∧
      (smoothLane A w).finishLineSpawned = w.finishLineSpawned ∧
      (smoothLane A w).raceFinished = w.raceFinished ∧
      (smoothLane A w).finishTriggered = w.finishTriggered ∧
      (smoothLane A w).finishTriggerClock = w.finishTriggerClock ∧
      (smoothLane A w).loadingClock = w.loadingClock ∧ (smoothLane A w).fadeClock = w.fadeClock ∧
      (smoothLane A w).deltaClock = w.deltaClock ∧ (smoothLane A w).trees = w.trees ∧
      (smoothLane A w).obstacles = w.obstacles ∧ (smoothLane A w).bottles = w.bottles ∧
      (smoothLane A w).coins = w.coins ∧ (smoothLane A w).lives = w.lives ∧
      (smoothLane A w).score = w.score ∧ (smoothLane A w).stamina = w.stamina ∧
      (smoothLane A w).playerWorldSpeed = w.playerWorldSpeed ∧
      (smoothLane A w).playerLane = w.playerLane ∧
      (smoothLane A w).distanceTraveled = w.distanceTraveled ∧
      (smoothLane A w).triedWhileExhausted = w.triedWhileExhausted ∧
      (smoothLane A w).returnBtn = w.returnBtn ∧ (smoothLane A w).clickCount = w.clickCount ∧
      (smoothLane A w).crashCount = w.crashCount ∧ (smoothLane A w).drinkCount = w.drinkCount ∧
      (smoothLane A w).coinCount = w.coinCount ∧ (smoothLane A w).tiredCount = w.tiredCount ∧
      (smoothLane A w).finishCount = w.finishCount := by
  simp [smoothLane]

@[simp]
theorem hitBlink_keeps (now : ℚ) (w : World) :
    (hitBlink now w).windowOpen = w.windowOpen ∧ (hitBlink now w).inFinishLoop = w.inFinishLoop ∧
      (hitBlink now w).winW = w.winW ∧ (hitBlink now w).winH = w.winH ∧
      (hitBlink now w).selected = w.selected ∧ (hitBlink now w).finishLine = w.finishLine ∧
      (hitBlink now w).finishLineSpawned = w.finishLineSpawned ∧
      (hitBlink now w).raceFinished = w.raceFinished ∧
      (hitBlink now w).finishTriggered = w.finishTriggered ∧
      (hitBlink now w).finishTriggerClock = w.finishTriggerClock ∧
      (hitBlink now w).loadingClock = w.loadingClock ∧ (hitBlink now w).fadeClock = w.fadeClock ∧
      (hitBlink now w).deltaClock = w.deltaClock ∧ (hitBlink now w).trees = w.trees ∧
      (hitBlink now w).obstacles = w.obstacles ∧ (hitBlink now w).bottles = w.bottles ∧
      (hitBlink now w).coins = w.coins ∧ (hitBlink now w).player = w.player ∧
      (hitBlink now w).lives = w.lives ∧ (hitBlink now w).score = w.score ∧
      (hitBlink now w).stamina = w.stamina ∧
      (hitBlink now w).playerWorldSpeed = w.playerWorldSpeed ∧
      (hitBlink now w).playerLane = w.playerLane ∧
      (hitBlink now w).distanceTraveled = w.distanceTraveled ∧
      (hitBlink now w).triedWhileExhausted = w.triedWhileExhausted ∧
      (hitBlink now w).returnBtn = w.returnBtn ∧ (hitBlink now w).clickCount = w.clickCount ∧
      (hitBlink now w).crashCount = w.crashCount ∧ (hitBlink now w).drinkCount = w.drinkCount ∧
      (hitBlink now w).coinCount = w.coinCount ∧ (hitBlink now w).tiredCount = w.tiredCount ∧
      (hitBlink now w).finishCount = w.finishCount := by
  unfold hitBlink
  (try dsimp only)
  split_ifs <;> simp

@[simp]
theorem spawnBottleCall_keeps (A : Assets) (inp : Input) (w : World) :
    (spawnBottleCall A inp w).gameState = w.gameState ∧
      (spawnBottleCall A inp w).windowOpen = w.windowOpen ∧
      (spawnBottleCall A inp w).inFinishLoop = w.inFinishLoop ∧
      (spawnBottleCall A inp w).winW = w.winW ∧ (spawnBottleCall A inp w).winH = w.winH ∧
      (spawnBottleCall A inp w).selected = w.selected ∧
      (spawnBottleCall A inp w).finishLine = w.finishLine ∧
      (spawnBottleCall A inp w).finishLineSpawned = w.finishLineSpawned ∧
      (spawnBottleCall A inp w).raceFinished = w.raceFinished ∧
      (spawnBottleCall A inp w).finishTriggered = w.finishTriggered ∧
      (spawnBottleCall A inp w).finishTriggerClock = w.finishTriggerClock ∧
      (spawnBottleCall A inp w).loadingClock = w.loadingClock ∧
      (spawnBottleCall A inp w).fadeClock = w.fadeClock ∧
      (spawnBottleCall A inp w).deltaClock = w.deltaClock ∧
      (spawnBottleCall A inp w).trees = w.trees ∧
      (spawnBottleCall A inp w).obstacles = w.obstacles ∧
      (spawnBottleCall A inp w).coins = w.coins ∧ (spawnBottleCall A inp w).player = w.player ∧
      (spawnBottleCall A inp w).lives = w.lives ∧ (spawnBottleCall A inp w).score = w.score ∧
      (spawnBottleCall A inp w).stamina = w.stamina ∧
      (spawnBottleCall A inp w).playerWorldSpeed = w.playerWorldSpeed ∧
      (spawnBottleCall A inp w).playerLane = w.playerLane ∧
      (spawnBottleCall A inp w).distanceTraveled = w.distanceTraveled ∧
      (spawnBottleCall A inp w).triedWhileExhausted = w.triedWhileExhausted ∧
      (spawnBottleCall A inp w).returnBtn = w.returnBtn ∧
      (spawnBottleCall A inp w).clickCount = w.clickCount ∧
      (spawnBottleCall A inp w).crashCount = w.crashCount ∧
      (spawnBottleCall A inp w).drinkCount = w.drinkCount ∧
      (spawnBottleCall A inp w).coinCount = w.coinCount ∧
      (spawnBottleCall A inp w).tiredCount = w.tiredCount ∧
      (spawnBottleCall A inp w).finishCount = w.finishCount := by
  simp [spawnBottleCall]

@[simp]
theorem updateBottlesCall_keeps (w : World) :
    (updateBottlesCall w).gameState = w.gameState ∧
      (updateBottlesCall w).windowOpen = w.windowOpen ∧
      (updateBottlesCall w).inFinishLoop = w.inFinishLoop ∧ (updateBottlesCall w).winW = w.winW ∧
      (updateBottlesCall w).winH = w.winH ∧ (updateBottlesCall w).selected = w.selected ∧
      (updateBottlesCall w).finishLine = w.finishLine ∧
      (updateBottlesCall w).finishLineSpawned = w.finishLineSpawned ∧
      (updateBottlesCall w).raceFinished = w.raceFinished ∧
      (updateBottlesCall w).finishTriggered = w.finishTriggered ∧
      (updateBottlesCall w).finishTriggerClock = w.finishTriggerClock ∧
      (updateBottlesCall w).loadingClock = w.loadingClock ∧
      (updateBottlesCall w).fadeClock = w.fadeClock ∧
      (updateBottlesCall w).deltaClock = w.deltaClock ∧ (updateBottlesCall w).trees = w.trees ∧
      (updateBottlesCall w).obstacles = w.obstacles ∧ (updateBottlesCall w).coins = w.coins ∧
      (updateBottlesCall w).player = w.player ∧ (updateBottlesCall w).lives = w.lives ∧
      (updateBottlesCall w).score = w.score ∧
      (updateBottlesCall w).playerWorldSpeed = w.playerWorldSpeed ∧
      (updateBottlesCall w).playerLane = w.playerLane ∧
      (updateBottlesCall w).distanceTraveled = w.distanceTraveled ∧
      (updateBottlesCall w).triedWhileExhausted = w.triedWhileExhausted ∧
      (updateBottlesCall w).returnBtn = w.returnBtn ∧
      (updateBottlesCall w).clickCount = w.clickCount ∧
      (updateBottlesCall w).crashCount = w.crashCount ∧
      (updateBottlesCall w).coinCount = w.coinCount ∧
      (updateBottlesCall w).tiredCount = w.tiredCount ∧
      (updateBottlesCall w).finishCount = w.finishCount := by
  simp [updateBottlesCall]

@[simp]
theorem spawnScoreCoinCall_keeps (A : Assets) (inp : Input) (w : World) :
    (spawnScoreCoinCall A inp w).gameState = w.gameState ∧
      (spawnScoreCoinCall A inp w).windowOpen = w.windowOpen ∧
      (spawnScoreCoinCall A inp w).inFinishLoop = w.inFinishLoop ∧
      (spawnScoreCoinCall A inp w).winW = w.winW ∧ (spawnScoreCoinCall A inp w).winH = w.winH ∧
      (spawnScoreCoinCall A inp w).selected = w.selected ∧
      (spawnScoreCoinCall A inp w).finishLine = w.finishLine ∧
      (spawnScoreCoinCall A inp w).finishLineSpawned = w.finishLineSpawned ∧
      (spawnScoreCoinCall A inp w).raceFinished = w.raceFinished ∧
      (spawnScoreCoinCall A inp w).finishTriggered = w.finishTriggered ∧
      (spawnScoreCoinCall A inp w).finishTriggerClock = w.finishTriggerClock ∧
      (spawnScoreCoinCall A inp w).loadingClock = w.loadingClock ∧
      (spawnScoreCoinCall A inp w).fadeClock = w.fadeClock ∧
      (spawnScoreCoinCall A inp w).deltaClock = w.deltaClock ∧
      (spawnScoreCoinCall A inp w).trees = w.trees ∧
      (spawnScoreCoinCall A inp w).obstacles = w.obstacles ∧
      (spawnScoreCoinCall A inp w).bottles = w.bottles ∧
      (spawnScoreCoinCall A inp w).player = w.player ∧
      (spawnScoreCoinCall A inp w).lives = w.lives ∧ (spawnScoreCoinCall A inp w).score = w.score ∧
      (spawnScoreCoinCall A inp w).stamina = w.stamina ∧
      (spawnScoreCoinCall A inp w).playerWorldSpeed = w.playerWorldSpeed ∧
      (spawnScoreCoinCall A inp w).playerLane = w.playerLane ∧
      (spawnScoreCoinCall A inp w).distanceTraveled = w.distanceTraveled ∧
      (spawnScoreCoinCall A inp w).triedWhileExhausted = w.triedWhileExhausted ∧
      (spawnScoreCoinCall A inp w).returnBtn = w.returnBtn ∧
      (spawnScoreCoinCall A inp w).clickCount = w.clickCount ∧
      (spawnScoreCoinCall A inp w).crashCount = w.crashCount ∧
      (spawnScoreCoinCall A inp w).drinkCount = w.drinkCount ∧
      (spawnScoreCoinCall A inp w).coinCount = w.coinCount ∧
      (spawnScoreCoinCall A inp w).tiredCount = w.tiredCount ∧
      (spawnScoreCoinCall A inp w).finishCount = w.finishCount := by
  simp [spawnScoreCoinCall]

@[simp]
theorem updateCoinsCall_keeps (w : World) :
    (updateCoinsCall w).gameState = w.gameState ∧ (updateCoinsCall w).windowOpen = w.windowOpen ∧
      (updateCoinsCall w).inFinishLoop = w.inFinishLoop ∧ (updateCoinsCall w).winW = w.winW ∧
      (updateCoinsCall w).winH = w.winH ∧ (updateCoinsCall w).selected = w.selected ∧
      (updateCoinsCall w).finishLine = w.finishLine ∧
      (updateCoinsCall w).finishLineSpawned = w.finishLineSpawned ∧
      (updateCoinsCall w).raceFinished = w.raceFinished ∧
      (updateCoinsCall w).finishTriggered = w.finishTriggered ∧
      (updateCoinsCall w).finishTriggerClock = w.finishTriggerClock ∧
      (updateCoinsCall w).loadingClock = w.loadingClock ∧
      (updateCoinsCall w).fadeClock = w.fadeClock ∧ (updateCoinsCall w).deltaClock = w.deltaClock ∧
      (updateCoinsCall w).trees = w.trees ∧ (updateCoinsCall w).obstacles = w.obstacles ∧
      (updateCoinsCall w).bottles = w.bottles ∧ (updateCoinsCall w).player = w.player ∧
      (updateCoinsCall w).lives = w.lives ∧ (updateCoinsCall w).stamina = w.stamina ∧
      (updateCoinsCall w).playerWorldSpeed = w.playerWorldSpeed ∧
      (updateCoinsCall w).playerLane = w.playerLane ∧
      (updateCoinsCall w).distanceTraveled = w.distanceTraveled ∧
      (updateCoinsCall w).triedWhileExhausted = w.triedWhileExhausted ∧
      (updateCoinsCall w).returnBtn = w.returnBtn ∧ (updateCoinsCall w).clickCount = w.clickCount ∧
      (updateCoinsCall w).crashCount = w.crashCount ∧
      (updateCoinsCall w).drinkCount = w.drinkCount ∧
      (updateCoinsCall w).tiredCount = w.tiredCount ∧
      (updateCoinsCall w).finishCount = w.finishCount := by
  simp [updateCoinsCall]

@[simp]
theorem enterFinishLoop_keeps (A : Assets) (w : World) :
    (enterFinishLoop A w).gameState = w.gameState ∧
      (enterFinishLoop A w).windowOpen = w.windowOpen ∧ (enterFinishLoop A w).winW = w.winW ∧
      (enterFinishLoop A w).winH = w.winH ∧ (enterFinishLoop A w).selected = w.selected ∧
      (enterFinishLoop A w).finishLine = w.finishLine ∧
      (enterFinishLoop A w).finishLineSpawned = w.finishLineSpawned ∧
      (enterFinishLoop A w).raceFinished = w.raceFinished ∧
      (enterFinishLoop A w).finishTriggered = w.finishTriggered ∧
      (enterFinishLoop A w).finishTriggerClock = w.finishTriggerClock ∧
      (enterFinishLoop A w).loadingClock = w.loadingClock ∧
      (enterFinishLoop A w).fadeClock = w.fadeClock ∧
      (enterFinishLoop A w).deltaClock = w.deltaClock ∧ (enterFinishLoop A w).trees = w.trees ∧
      (enterFinishLoop A w).obstacles = w.obstacles ∧ (enterFinishLoop A w).bottles = w.bottles ∧
      (enterFinishLoop A w).coins = w.coins ∧ (enterFinishLoop A w).player = w.player ∧
      (enterFinishLoop A w).lives = w.lives ∧ (enterFinishLoop A w).score = w.score ∧
      (enterFinishLoop A w).stamina = w.stamina ∧
      (enterFinishLoop A w).playerWorldSpeed = w.playerWorldSpeed ∧
      (enterFinishLoop A w).playerLane = w.playerLane ∧
      (enterFinishLoop A w).distanceTraveled = w.distanceTraveled ∧
      (enterFinishLoop A w).triedWhileExhausted = w.triedWhileExhausted ∧
      (enterFinishLoop A w).clickCount = w.clickCount ∧
      (enterFinishLoop A w).crashCount = w.crashCount ∧
      (enterFinishLoop A w).drinkCount = w.drinkCount ∧
      (enterFinishLoop A w).coinCount = w.coinCount ∧
      (enterFinishLoop A w).tiredCount = w.tiredCount ∧
      (enterFinishLoop A w).finishCount = w.finishCount := by
  simp [enterFinishLoop]

@[simp]
theorem pollEvents_keeps (A : Assets) (now : ℚ) (evs : List Event) (w : World) :
    (pollEvents A now evs w).inFinishLoop = w.inFinishLoop ∧
      (pollEvents A now evs w).finishLine = w.finishLine ∧
      (pollEvents A now evs w).finishTriggerClock = w.finishTriggerClock ∧
      (pollEvents A now evs w).fadeClock = w.fadeClock ∧
      (pollEvents A now evs w).deltaClock = w.deltaClock ∧
      (pollEvents A now evs w).trees = w.trees ∧ (pollEvents A now evs w).obstacles = w.obstacles ∧
      (pollEvents A now evs w).bottles = w.bottles ∧ (pollEvents A now evs w).coins = w.coins ∧
      (pollEvents A now evs w).lives = w.lives ∧ (pollEvents A now evs w).score = w.score ∧
      (pollEvents A now evs w).stamina = w.stamina ∧
      (pollEvents A now evs w).playerWorldSpeed = w.playerWorldSpeed ∧
      (pollEvents A now evs w).distanceTraveled = w.distanceTraveled ∧
      (pollEvents A now evs w).triedWhileExhausted = w.triedWhileExhausted ∧
      (pollEvents A now evs w).returnBtn = w.returnBtn ∧
      (pollEvents A now evs w).crashCount = w.crashCount ∧
      (pollEvents A now evs w).drinkCount = w.drinkCount ∧
      (pollEvents A now evs w).coinCount = w.coinCount ∧
      (pollEvents A now evs w).tiredCount = w.tiredCount ∧
      (pollEvents A now evs w).finishCount = w.finishCount := by
  obtain ⟨_, _, _, _, _, _, _, _, _, _, _, _, h⟩ := pollEvents_frame A now evs w
  rw [h]
  simp

@[simp]
theorem finishLoopIteration_keeps (evs : List Event) (w : World) :
    (finishLoopIteration evs w).winW = w.winW ∧ (finishLoopIteration evs w).winH = w.winH ∧
      (finishLoopIteration evs w).finishLine = w.finishLine ∧
      (finishLoopIteration evs w).finishLineSpawned = w.finishLineSpawned ∧
      (finishLoopIteration evs w).raceFinished = w.raceFinished ∧
      (finishLoopIteration evs w).finishTriggered = w.finishTriggered ∧
      (finishLoopIteration evs w).finishTriggerClock = w.finishTriggerClock ∧
      (finishLoopIteration evs w).loadingClock = w.loadingClock ∧
      (finishLoopIteration evs w).fadeClock = w.fadeClock ∧
      (finishLoopIteration evs w).deltaClock = w.deltaClock ∧
      (finishLoopIteration evs w).trees = w.trees ∧
      (finishLoopIteration evs w).obstacles = w.obstacles ∧
      (finishLoopIteration evs w).bottles = w.bottles ∧
      (finishLoopIteration evs w).coins = w.coins ∧ (finishLoopIteration evs w).player = w.player ∧
      (finishLoopIteration evs w).stamina = w.stamina ∧
      (finishLoopIteration evs w).playerWorldSpeed = w.playerWorldSpeed ∧
      (finishLoopIteration evs w).playerLane = w.playerLane ∧
      (finishLoopIteration evs w).triedWhileExhausted = w.triedWhileExhausted ∧
      (finishLoopIteration evs w).returnBtn = w.returnBtn ∧
      (finishLoopIteration evs w).crashCount = w.crashCount ∧
      (finishLoopIteration evs w).drinkCount = w.drinkCount ∧
      (finishLoopIteration evs w).coinCount = w.coinCount ∧
      (finishLoopIteration evs w).tiredCount = w.tiredCount ∧
      (finishLoopIteration evs w).finishCount = w.finishCount := by
  obtain ⟨_, _, _, _, _, _, _, _, h⟩ := finishLoopIteration_frame evs w
  rw [h]
  simp

@[simp]
theorem loadingStep_keeps (A : Assets) (now : ℚ) (w : World) :
    (loadingStep A now w).windowOpen = w.windowOpen ∧
      (loadingStep A now w).inFinishLoop = w.inFinishLoop ∧ (loadingStep A now w).winW = w.winW ∧
      (loadingStep A now w).winH = w.winH ∧ (loadingStep A now w).selected = w.selected ∧
      (loadingStep A now w).finishLine = w.finishLine ∧
      (loadingStep A now w).finishTriggerClock = w.finishTriggerClock ∧
      (loadingStep A now w).loadingClock = w.loadingClock ∧
      (loadingStep A now w).deltaClock = w.deltaClock ∧
      (loadingStep A now w).distanceTraveled = w.distanceTraveled ∧
      (loadingStep A now w).triedWhileExhausted = w.triedWhileExhausted ∧
      (loadingStep A now w).returnBtn = w.returnBtn ∧
      (loadingStep A now w).clickCount = w.clickCount ∧
      (loadingStep A now w).crashCount = w.crashCount ∧
      (loadingStep A now w).drinkCount = w.drinkCount ∧
      (loadingStep A now w).coinCount = w.coinCount ∧
      (loadingStep A now w).tiredCount = w.tiredCount ∧
      (loadingStep A now w).finishCount = w.finishCount := by
  unfold loadingStep
  (try dsimp only)
  split_ifs <;> simp

/-! ## Stamina range -/

theorem updateBottles_stamina_range (worldSpeed : ℚ) (winH : ℕ) (player : Sprite)
    (l : List Sprite) (s : ℚ) (h0 : 0 ≤ s) (h1 : s ≤ MAX_STAMINA) :
    0 ≤ (updateBottles worldSpeed winH player l s).stamina ∧
      (updateBottles worldSpeed winH player l s).stamina ≤ MAX_STAMINA := by
  induction l generalizing s with
  | nil => exact ⟨h0, h1⟩
  | cons b rest ih =>
    simp only [updateBottles]
    split_ifs
    · exact ih _ (le_min (by norm_num [MAX_STAMINA]) (by norm_num [BOTTLE_STAMINA]; linarith))
        (min_le_left _ _)
    · exact ih s h0 h1
    · exact ih s h0 h1

theorem boostStep_staminaOK (inp : Input) (dt : ℚ) (w : World) (hdt : 0 ≤ dt)
    (h : StaminaOK w) : StaminaOK (boostStep inp dt w) := by
  unfold boostStep
  split_ifs
  · refine ⟨le_max_left _ _, max_le (le_trans h.1 h.2) ?_⟩
    have := h.2
    simp only [STAMINA_DRAIN]
    linarith
  · exact h
  · exact h
  · exact h

theorem regenStep_staminaOK (b : Bool) (dt : ℚ) (w : World) (hdt : 0 ≤ dt)
    (h : StaminaOK w) : StaminaOK (regenStep b dt w) := by
  have key : ∀ s : ℚ, 0 ≤ s → 0 ≤ min MAX_STAMINA (s + STAMINA_REGEN * dt) := by
    intro s hs
    refine le_min (by norm_num [MAX_STAMINA]) ?_
    have : 0 ≤ STAMINA_REGEN * dt := mul_nonneg (by norm_num [STAMINA_REGEN]) hdt
    linarith
  unfold regenStep StaminaOK
  dsimp only
  split_ifs <;> exact ⟨key _ (by first | exact h.1 | exact key _ h.1), min_le_left _ _⟩

theorem updateBottlesCall_staminaOK (w : World) (h : StaminaOK w) :
    StaminaOK (updateBottlesCall w) :=
  updateBottles_stamina_range w.playerWorldSpeed w.winH w.player w.bottles w.stamina h.1 h.2

theorem gameFrame_staminaOK (A : Assets) (inp : Input) (dt : ℚ) (w : World) (hdt : 0 ≤ dt)
    (h : StaminaOK w) : StaminaOK (gameFrame A inp dt w) := by
  have h1 := regenStep_staminaOK (boosting inp w) dt _ hdt (boostStep_staminaOK inp dt w hdt h)
  unfold gameFrame postObstacle preObstacle
  unfold StaminaOK
  simp only [updateCoinsCall_keeps, spawnScoreCoinCall_keeps]
  apply updateBottlesCall_staminaOK
  unfold StaminaOK
  simpa using h1

theorem stateStep_staminaOK (A : Assets) (inp : Input) (dt : ℚ) (w : World) (hdt : 0 ≤ dt)
    (h : StaminaOK w) : StaminaOK (stateStep A inp dt w) := by
  unfold stateStep
  split
  · unfold loadingStep
    dsimp only
    split_ifs
    · simp [StaminaOK, MAX_STAMINA]
    · exact h
  · exact h
  · exact h
  · simpa [StaminaOK] using h
  · exact gameFrame_staminaOK A inp dt w hdt h

/-- One program step keeps stamina in range when the frame delta is
non-negative. -/
theorem iteration_staminaOK (A : Assets) (inp : Input) (w : World)
    (hdt : w.deltaClock ≤ inp.now) (h : StaminaOK w) : StaminaOK (iteration A inp w) := by
  unfold iteration
  split_ifs
  · exact h
  · simpa [StaminaOK] using h
  · apply stateStep_staminaOK _ _ _ _ (by linarith)
    simpa [StaminaOK] using h

/-! ## World speed range -/

theorem speedStep_speedOK (b c : Bool) (w : World) (h : SpeedOK w) :
    SpeedOK (speedStep b c w) := by
  obtain ⟨h0, h1⟩ := h
  unfold speedStep SpeedOK
  simp only [ACCEL, MAX_SPEED, DEFAULT_SPEED, BRAKE_FORCE] at *
  split_ifs
  · exact ⟨le_min (by linarith) (by norm_num), min_le_right _ _⟩
  · exact ⟨le_refl _, by norm_num⟩
  · exact ⟨le_min (by linarith) (by norm_num), le_trans (min_le_right _ _) (by norm_num)⟩
  · exact ⟨le_trans (by norm_num) (le_max_right _ _), max_le (by linarith) (by norm_num)⟩
  · exact ⟨h0, h1⟩

theorem gameFrame_speedOK (A : Assets) (inp : Input) (dt : ℚ) (w : World)
    (h : SpeedOK w) : SpeedOK (gameFrame A inp dt w) := by
  have h1 := speedStep_speedOK (boosting inp w) (braking inp) (regenStep (boosting inp w) dt (boostStep inp dt w))
    (by simpa [SpeedOK] using h)
  unfold gameFrame postObstacle preObstacle
  simpa [SpeedOK] using h1

theorem stateStep_speedOK (A : Assets) (inp : Input) (dt : ℚ) (w : World)
    (h : SpeedOK w) : SpeedOK (stateStep A inp dt w) := by
  unfold stateStep
  split
  · unfold loadingStep
    dsimp only
    split_ifs
    · norm_num [SpeedOK, MAX_SPEED, DEFAULT_SPEED]
    · exact h
  · exact h
  · exact h
  · simpa [SpeedOK] using h
  · exact gameFrame_speedOK A inp dt w h

/-- One program step keeps the world speed in range. -/
theorem iteration_speedOK (A : Assets) (inp : Input) (w : World)
    (h : SpeedOK w) : SpeedOK (iteration A inp w) := by
  unfold iteration
  split_ifs
  · exact h
  · simpa [SpeedOK] using h
  · apply stateStep_speedOK
    simpa [SpeedOK] using h

/-- Reachability is closed under `run` when time does not run backwards. -/
theorem Reachable.run_of (A : Assets) (inps : List Input) (w : World) (h : Reachable A w)
    (ht : timeOK A inps w = true) : Reachable A (run A inps w) := by
  induction inps generalizing w with
  | nil => exact h
  | cons inp rest ih =>
    simp only [timeOK, Bool.and_eq_true, decide_eq_true_eq] at ht
    exact ih _ (Reachable.step w inp h ht.1) ht.2

theorem raceStart_reachable : Reachable demoAssets raceStart :=
  Reachable.run_of demoAssets _ _ Reachable.init (by decide!)

/-! ## The obstacle loop -/

/-- The loop keeps the player sprite and the window height it reads. -/
theorem obstacleLoop_reads (isBraking : Bool) (now : ℚ) (l : List Sprite) (w : World) :
    (obstacleLoop isBraking now l w).2.player = w.player ∧
      (obstacleLoop isBraking now l w).2.winH = w.winH := by
  obtain ⟨_, _, _, _, _, h⟩ := obstacleLoop_frame isBraking now l w
  rw [h]
  exact ⟨rfl, rfl⟩

/-- Without a collision branch (the mode is not GAME, or no obstacle of the
list hits the player) the loop only moves and prunes. -/
theorem obstacleLoop_no_crash (isBraking : Bool) (now : ℚ) (l : List Sprite) (w : World)
    (h : w.gameState ≠ GameState.GAME ∨ ∀ o ∈ l, hitsPlayer w.player isBraking o = false) :
    (obstacleLoop isBraking now l w).1 = survivors isBraking w.winH l ∧
      (obstacleLoop isBraking now l w).2.lives = w.lives ∧
      (obstacleLoop isBraking now l w).2.crashCount = w.crashCount ∧
      (obstacleLoop isBraking now l w).2.gameState = w.gameState ∧
      (obstacleLoop isBraking now l w).2.fadeClock = w.fadeClock := by
  induction l generalizing w with
  | nil => simp [obstacleLoop, survivors]
  | cons o rest ih =>
    have hcond : ((shrink w.player.getGlobalBounds).intersects
        (shrink (movedObstacle isBraking o).getGlobalBounds) &&
        decide (w.gameState = GameState.GAME)) = false := by
      rcases h with h | h
      · simp [h]
      · have := h o (List.mem_cons_self _ _)
        simp only [hitsPlayer] at this
        simp [this]
    have hrest : ∀ w2 : World, w2.gameState = w.gameState → w2.player = w.player →
        (w2.gameState ≠ GameState.GAME ∨ ∀ o ∈ rest, hitsPlayer w2.player isBraking o = false) := by
      intro w2 hg hp
      rcases h with h | h
      · exact Or.inl (by rw [hg]; exact h)
      · exact Or.inr (fun o ho => by rw [hp]; exact h o (List.mem_cons_of_mem _ ho))
    simp only [obstacleLoop, hcond, Bool.false_eq_true, if_false]
    split_ifs with hoff
    · have := ih { w with score := w.score + 10 } (hrest _ rfl rfl)
      simp only [survivors, List.map_cons] at this ⊢
      rw [List.filter_cons_of_neg (by simpa using hoff)]
      exact this
    · have := ih w (hrest _ rfl rfl)
      simp only [survivors, List.map_cons] at this ⊢
      rw [List.filter_cons_of_pos (by simpa using hoff)]
      exact ⟨by rw [this.1], this.2⟩

/-- In GAME mode the first obstacle that hits the player is erased, one life
is lost, one crash sound is played, the mode leaves GAME, and every other
obstacle is only moved and pruned. -/
theorem obstacleLoop_first_crash (isBraking : Bool) (now : ℚ) (pre post : List Sprite)
    (o : Sprite) (w : World) (hmode : w.gameState = GameState.GAME)
    (hpre : ∀ p ∈ pre, hitsPlayer w.player isBraking p = false)
    (ho : hitsPlayer w.player isBraking o = true) :
    (obstacleLoop isBraking now (pre ++ o :: post) w).1 =
        survivors isBraking w.winH pre ++ survivors isBraking w.winH post ∧
      (obstacleLoop isBraking now (pre ++ o :: post) w).2.lives = w.lives - 1 ∧
      (obstacleLoop isBraking now (pre ++ o :: post) w).2.crashCount = w.crashCount + 1 ∧
      (obstacleLoop isBraking now (pre ++ o :: post) w).2.gameState =
        (if w.lives - 1 ≤ 0 then GameState.MENU else GameState.HIT) ∧
      (0 < w.lives - 1 → (obstacleLoop isBraking now (pre ++ o :: post) w).2.fadeClock = now) := by
  induction pre generalizing w with
  | nil =>
    have hcond : ((shrink w.player.getGlobalBounds).intersects
        (shrink (movedObstacle isBraking o).getGlobalBounds) &&
        decide (w.gameState = GameState.GAME)) = true := by
      simp only [hitsPlayer] at ho
      simp [ho, hmode]
    simp only [List.nil_append, obstacleLoop, hcond, if_true]
    split_ifs with hl
    · have := obstacleLoop_no_crash isBraking now post
        { w with crashCount := w.crashCount + 1, lives := w.lives - 1, gameState := GameState.MENU }
        (Or.inl (by simp))
      refine ⟨by simpa [survivors] using this.1, this.2.1, this.2.2.1, this.2.2.2.1, ?_⟩
      intro h0
      exact absurd hl (not_le.mpr h0)
    · have := obstacleLoop_no_crash isBraking now post
        { w with crashCount := w.crashCount + 1, lives := w.lives - 1, gameState := GameState.HIT,
                 fadeClock := now }
        (Or.inl (by simp))
      exact ⟨by simpa [survivors] using this.1, this.2.1, this.2.2.1, this.2.2.2.1,
        fun _ => this.2.2.2.2⟩
  | cons p pre ih =>
    have hp := hpre p (List.mem_cons_self _ _)
    have hcond : ((shrink w.player.getGlobalBounds).intersects
        (shrink (movedObstacle isBraking p).getGlobalBounds) &&
        decide (w.gameState = GameState.GAME)) = false := by
      simp only [hitsPlayer] at hp
      simp [hp]
    have hstep : obstacleLoop isBraking now (p :: (pre ++ o :: post)) w =
        (if (w.winH : ℚ) < (movedObstacle isBraking p).y then
          obstacleLoop isBraking now (pre ++ o :: post) { w with score := w.score + 10 }
        else
          (movedObstacle isBraking p :: (obstacleLoop isBraking now (pre ++ o :: post) w).1,
            (obstacleLoop isBraking now (pre ++ o :: post) w).2)) := by
      simp only [obstacleLoop, hcond, Bool.false_eq_true, if_false]
    rw [List.cons_append, hstep]
    by_cases hoff : (w.winH : ℚ) < (movedObstacle isBraking p).y
    · rw [if_pos hoff]
      have := ih { w with score := w.score + 10 } hmode
        (fun q hq => hpre q (List.mem_cons_of_mem _ hq)) ho
      simp only [survivors, List.map_cons] at this ⊢
      rw [List.filter_cons_of_neg (by simpa using hoff)]
      exact this
    · rw [if_neg hoff]
      have := ih w hmode (fun q hq => hpre q (List.mem_cons_of_mem _ hq)) ho
      simp only [survivors, List.map_cons] at this ⊢
      rw [List.filter_cons_of_pos (by simpa using hoff)]
      exact ⟨by rw [this.1]; rfl, this.2⟩

/-- A list with an element satisfying `p` splits at the first such element. -/
theorem exists_first_split {α : Type} (p : α → Bool) (l : List α) (h : ∃ a ∈ l, p a = true) :
    ∃ pre a post, l = pre ++ a :: post ∧ (∀ b ∈ pre, p b = false) ∧ p a = true := by
  induction l with
  | nil => simp at h
  | cons x rest ih =>
    by_cases hx : p x = true
    · exact ⟨[], x, rest, rfl, by simp, hx⟩
    · obtain ⟨a, ha, hpa⟩ := h
      have hmem : a ∈ rest := by
        rcases List.mem_cons.mp ha with rfl | h'
        · exact absurd hpa hx
        · exact h'
      obtain ⟨pre, b, post, hsplit, hpre, hb⟩ := ih ⟨a, hmem, hpa⟩
      refine ⟨x :: pre, b, post, by rw [hsplit]; rfl, ?_, hb⟩
      intro c hc
      rcases List.mem_cons.mp hc with rfl | h'
      · simpa using hx
      · exact hpre c h'

/-- The part of the frame after the obstacle pass keeps the obstacle vector,
the lives and the crash counter, and a mode that is HIT since this instant or
MENU survives the blink check. -/
theorem postObstacle_after_pass (A : Assets) (inp : Input) (w : World) :
    (postObstacle A inp w).obstacles = w.obstacles ∧
      (postObstacle A inp w).lives = w.lives ∧
      (postObstacle A inp w).crashCount = w.crashCount ∧
      (w.gameState = GameState.MENU → (postObstacle A inp w).gameState = GameState.MENU) ∧
      (w.gameState = GameState.HIT → w.fadeClock = inp.now →
        (postObstacle A inp w).gameState = GameState.HIT) := by
  unfold postObstacle
  refine ⟨by simp, by simp, by simp, ?_, ?_⟩
  · intro h
    simp [hitBlink, h]
  · intro h hf
    simp [hitBlink, h, hf]

/-- The part of the frame before the obstacle pass keeps the lives, the crash
counter, the player sprite and the window height. -/
theorem preObstacle_before_pass (A : Assets) (inp : Input) (dt : ℚ) (w : World) :
    (preObstacle A inp dt w).lives = w.lives ∧
      (preObstacle A inp dt w).crashCount = w.crashCount ∧
      (preObstacle A inp dt w).player = w.player ∧
      (preObstacle A inp dt w).winH = w.winH := by
  unfold preObstacle
  simp

/-! ## Events while LOADING -/

/-- In LOADING mode an event of the main loop can only close or resize the
window (which re-places the player). -/
theorem handleEvent_loading (A : Assets) (now : ℚ) (w : World) (ev : Event)
    (h : w.gameState = GameState.LOADING) :
    ∃ wo ww wh pl, handleEvent A now w ev =
      { w with windowOpen := wo, winW := ww, winH := wh, player := pl } := by
  cases ev with
  | Closed => exact ⟨_, _, _, _, rfl⟩
  | Resized a b => exact ⟨_, _, _, _, rfl⟩
  | KeyPressed code =>
    have hk : handleKey A now code w = w := by
      unfold handleKey
      split <;> simp_all
    exact ⟨w.windowOpen, w.winW, w.winH, w.player, by simp only [handleEvent, hk]⟩
  | MouseButtonPressed a b => exact ⟨_, _, _, _, rfl⟩
  | Other => exact ⟨_, _, _, _, rfl⟩

/-- Event polling in LOADING mode: same frame as a single event. -/
theorem pollEvents_loading (A : Assets) (now : ℚ) (evs : List Event) (w : World)
    (h : w.gameState = GameState.LOADING) :
    ∃ wo ww wh pl, pollEvents A now evs w =
      { w with windowOpen := wo, winW := ww, winH := wh, player := pl } := by
  induction evs generalizing w with
  | nil => exact ⟨_, _, _, _, rfl⟩
  | cons ev rest ih =>
    obtain ⟨wo, ww, wh, pl, e1⟩ := handleEvent_loading A now w ev h
    obtain ⟨wo2, ww2, wh2, pl2, e2⟩ := ih (handleEvent A now w ev) (by rw [e1]; exact h)
    refine ⟨wo2, ww2, wh2, pl2, ?_⟩
    simp only [pollEvents, List.foldl_cons] at e2 ⊢
    rw [e2, e1]

/-- State handling in LOADING mode is the LOADING branch. -/
theorem stateStep_loading (A : Assets) (inp : Input) (dt : ℚ) (w : World)
    (h : w.gameState = GameState.LOADING) : stateStep A inp dt w = loadingStep A inp.now w := by
  unfold stateStep
  simp only [h]

/-- A main-loop iteration from LOADING is the LOADING branch applied to a
state that is still LOADING with the same loading clock. -/
theorem iteration_loading (A : Assets) (inp : Input) (w : World)
    (hl : w.gameState = GameState.LOADING) (ho : w.windowOpen = true)
    (hf : w.inFinishLoop = false) :
    ∃ w1 : World, w1.gameState = GameState.LOADING ∧ w1.loadingClock = w.loadingClock ∧
      w1.distanceTraveled = w.distanceTraveled ∧
      iteration A inp w = loadingStep A inp.now w1 := by
  obtain ⟨wo, ww, wh, pl, e⟩ := pollEvents_loading A inp.now inp.events
    { w with deltaClock := inp.now } hl
  refine ⟨pollEvents A inp.now inp.events { w with deltaClock := inp.now }, ?_, ?_, ?_, ?_⟩
  · rw [e]
    exact hl
  · rw [e]
  · rw [e]
  · have hg : (pollEvents A inp.now inp.events { w with deltaClock := inp.now }).gameState =
        GameState.LOADING := by
      rw [e]
      exact hl
    unfold iteration
    rw [if_neg (by simp [ho]), if_neg (by simp [hf])]
    exact stateStep_loading A inp _ _ hg

/-! ## GAME / HIT iterations -/

/-- In GAME or HIT mode an event of the main loop can only close or resize the
window or change the lane (which re-places the player). -/
theorem handleEvent_game (A : Assets) (now : ℚ) (w : World) (ev : Event)
    (h : w.gameState = GameState.GAME ∨ w.gameState = GameState.HIT) :
    ∃ wo ww wh pl ln, handleEvent A now w ev =
      { w with windowOpen := wo, winW := ww, winH := wh, player := pl, playerLane := ln } := by
  cases ev with
  | Closed => exact ⟨_, _, _, _, _, rfl⟩
  | Resized a b => exact ⟨_, _, _, _, _, rfl⟩
  | KeyPressed code =>
    simp only [handleEvent]
    unfold handleKey
    split
    · rcases h with h | h <;> simp_all
    · rcases h with h | h <;> simp_all
    · split_ifs <;> exact ⟨_, _, _, _, _, rfl⟩
    · split_ifs <;> exact ⟨_, _, _, _, _, rfl⟩
    · exact ⟨_, _, _, _, _, rfl⟩
  | MouseButtonPressed a b => exact ⟨_, _, _, _, _, rfl⟩
  | Other => exact ⟨_, _, _, _, _, rfl⟩

/-- Event polling in GAME or HIT mode: same frame as a single event. -/
theorem pollEvents_game (A : Assets) (now : ℚ) (evs : List Event) (w : World)
    (h : w.gameState = GameState.GAME ∨ w.gameState = GameState.HIT) :
    ∃ wo ww wh pl ln, pollEvents A now evs w =
      { w with windowOpen := wo, winW := ww, winH := wh, player := pl, playerLane := ln } := by
  induction evs generalizing w with
  | nil => exact ⟨_, _, _, _, _, rfl⟩
  | cons ev rest ih =>
    obtain ⟨wo, ww, wh, pl, ln, e1⟩ := handleEvent_game A now w ev h
    obtain ⟨wo2, ww2, wh2, pl2, ln2, e2⟩ := ih (handleEvent A now w ev) (by rw [e1]; exact h)
    refine ⟨wo2, ww2, wh2, pl2, ln2, ?_⟩
    simp only [pollEvents, List.foldl_cons] at e2 ⊢
    rw [e2, e1]

/-- State handling in GAME or HIT mode is the game frame. -/
theorem stateStep_game (A : Assets) (inp : Input) (dt : ℚ) (w : World)
    (h : w.gameState = GameState.GAME ∨ w.gameState = GameState.HIT) :
    stateStep A inp dt w = gameFrame A inp dt w := by
  unfold stateStep
  rcases h with h | h <;> simp only [h]

/-- A main-loop iteration from GAME or HIT is a game frame on the state left
by event polling, which differs from the start state only in the window, the
player sprite, the lane and the delta clock. -/
theorem iteration_game (A : Assets) (inp : Input) (w : World)
    (hg : w.gameState = GameState.GAME ∨ w.gameState = GameState.HIT)
    (ho : w.windowOpen = true) (hf : w.inFinishLoop = false) :
    ∃ wo ww wh pl ln,
      iteration A inp w = gameFrame A inp (inp.now - w.deltaClock)
        { w with deltaClock := inp.now, windowOpen := wo, winW := ww, winH := wh, player := pl,
                 playerLane := ln } := by
  obtain ⟨wo, ww, wh, pl, ln, e⟩ := pollEvents_game A inp.now inp.events
    { w with deltaClock := inp.now } hg
  refine ⟨wo, ww, wh, pl, ln, ?_⟩
  have hg2 : (pollEvents A inp.now inp.events { w with deltaClock := inp.now }).gameState =
      GameState.GAME ∨ (pollEvents A inp.now inp.events { w with deltaClock := inp.now }).gameState =
      GameState.HIT := by
    rw [e]
    exact hg
  unfold iteration
  rw [if_neg (by simp [ho]), if_neg (by simp [hf])]
  dsimp only
  rw [stateStep_game A inp _ _ hg2, e]

/-- The tired flag and the tired counter after a game frame are those left by
the boost block. -/
theorem gameFrame_tired (A : Assets) (inp : Input) (dt : ℚ) (w : World) :
    (gameFrame A inp dt w).triedWhileExhausted = (boostStep inp dt w).triedWhileExhausted ∧
      (gameFrame A inp dt w).tiredCount = (boostStep inp dt w).tiredCount := by
  unfold gameFrame postObstacle preObstacle
  simp

/-- The boost block: the counter moves by at most one, and only from a clear
flag with the key down and too little stamina; the flag ends clear exactly
when the key is up or the boost succeeded. -/
theorem boostStep_tired (inp : Input) (dt : ℚ) (w : World) :
    ((boostStep inp dt w).tiredCount =
        if boostKeyDown inp = true ∧ w.stamina < MIN_STAMINA_TO_BOOST ∧
            w.triedWhileExhausted = false
        then w.tiredCount + 1 else w.tiredCount) ∧
      ((boostStep inp dt w).triedWhileExhausted = false ↔
        (boostKeyDown inp = false ∨ MIN_STAMINA_TO_BOOST ≤ w.stamina)) := by
  unfold boostStep
  by_cases hb : boostKeyDown inp = true
  · by_cases hs : MIN_STAMINA_TO_BOOST ≤ w.stamina
    · simp [hb, hs, not_lt.mpr hs]
    · by_cases ht : w.triedWhileExhausted = true
      · simp [hb, hs, ht, not_le.mp hs]
      · simp [hb, hs, ht, not_le.mp hs]
  · simp [hb]

/-- One step of a held-and-exhausted run sets the flag and plays the tired
sound exactly when the flag was clear. -/
theorem heldExhausted_step (A : Assets) (inp : Input) (rest : List Input) (w : World)
    (h : heldExhausted A (inp :: rest) w = true) :
    (iteration A inp w).triedWhileExhausted = true ∧
      (iteration A inp w).tiredCount =
        (if w.triedWhileExhausted = false then w.tiredCount + 1 else w.tiredCount) ∧
      heldExhausted A rest (iteration A inp w) = true := by
  simp only [heldExhausted, Bool.and_eq_true, Bool.or_eq_true, decide_eq_true_eq,
    Bool.not_eq_true'] at h
  obtain ⟨⟨⟨⟨⟨ho, hf⟩, hg⟩, hb⟩, hs⟩, hr⟩ := h
  obtain ⟨wo, ww, wh, pl, ln, e⟩ := iteration_game A inp w hg ho hf
  obtain ⟨t1, t2⟩ := gameFrame_tired A inp (inp.now - w.deltaClock)
    { w with deltaClock := inp.now, windowOpen := wo, winW := ww, winH := wh, player := pl,
             playerLane := ln }
  obtain ⟨b1, b2⟩ := boostStep_tired inp (inp.now - w.deltaClock)
    { w with deltaClock := inp.now, windowOpen := wo, winW := ww, winH := wh, player := pl,
             playerLane := ln }
  refine ⟨?_, ?_, hr⟩
  · rw [e, t1]
    by_contra hne
    have hfalse := (b2.mp (by simpa using hne))
    rcases hfalse with h1 | h1
    · rw [hb] at h1
      exact absurd h1 (by decide)
    · exact absurd hs (not_lt.mpr h1)
  · rw [e, t2, b1]
    simp [hb, hs]

/-- With the flag already set, a held-and-exhausted run plays no tired sound. -/
theorem heldExhausted_silent (A : Assets) (inps : List Input) (w : World)
    (h : heldExhausted A inps w = true) (ht : w.triedWhileExhausted = true) :
    (run A inps w).tiredCount = w.tiredCount := by
  induction inps generalizing w with
  | nil => rfl
  | cons inp rest ih =>
    obtain ⟨s1, s2, s3⟩ := heldExhausted_step A inp rest w h
    simp only [run]
    rw [ih _ s3 s1, s2]
    simp [ht]

/-! ## The finish sequence -/

/-- An event of the main loop cannot lead into GAME, HIT or FINISH, and it
either keeps the three finish flags or clears them all. -/
theorem handleEvent_mode_flags (A : Assets) (now : ℚ) (w : World) (ev : Event) :
    (∀ g, (g = GameState.GAME ∨ g = GameState.HIT ∨ g = GameState.FINISH) →
        (handleEvent A now w ev).gameState = g → w.gameState = g) ∧
      (((handleEvent A now w ev).finishLineSpawned = w.finishLineSpawned ∧
          (handleEvent A now w ev).finishTriggered = w.finishTriggered ∧
          (handleEvent A now w ev).raceFinished = w.raceFinished) ∨
        ((handleEvent A now w ev).finishLineSpawned = false ∧
          (handleEvent A now w ev).finishTriggered = false ∧
          (handleEvent A now w ev).raceFinished = false)) := by
  cases ev with
  | Closed => exact ⟨fun g _ h => h, Or.inl ⟨rfl, rfl, rfl⟩⟩
  | Resized a b => exact ⟨fun g _ h => by simpa [handleEvent] using h, Or.inl (by simp [handleEvent])⟩
  | KeyPressed code =>
    simp only [handleEvent]
    unfold handleKey
    split
    · split
      · exact ⟨fun g _ h => h, Or.inl ⟨rfl, rfl, rfl⟩⟩
      · exact ⟨fun g _ h => h, Or.inl ⟨rfl, rfl, rfl⟩⟩
      · dsimp only
        split_ifs
        · refine ⟨fun g hg h => ?_, Or.inr ⟨rfl, rfl, rfl⟩⟩
          simp only at h
          subst h
          simp at hg
        · refine ⟨fun g hg h => ?_, Or.inl ⟨rfl, rfl, rfl⟩⟩
          simp only at h
          subst h
          simp at hg
        · exact ⟨fun g _ h => h, Or.inl ⟨rfl, rfl, rfl⟩⟩
        · exact ⟨fun g _ h => h, Or.inl ⟨rfl, rfl, rfl⟩⟩
      · exact ⟨fun g _ h => h, Or.inl ⟨rfl, rfl, rfl⟩⟩
    · split
      · refine ⟨fun g hg h => ?_, Or.inl ⟨rfl, rfl, rfl⟩⟩
        simp only at h
        subst h
        simp at hg
      · exact ⟨fun g _ h => h, Or.inl ⟨rfl, rfl, rfl⟩⟩
    · split_ifs
      · exact ⟨fun g _ h => by simpa using h, Or.inl (by simp)⟩
      · exact ⟨fun g _ h => by simpa using h, Or.inl (by simp)⟩
      · exact ⟨fun g _ h => h, Or.inl ⟨rfl, rfl, rfl⟩⟩
    · split_ifs
      · exact ⟨fun g _ h => by simpa using h, Or.inl (by simp)⟩
      · exact ⟨fun g _ h => by simpa using h, Or.inl (by simp)⟩
      · exact ⟨fun g _ h => h, Or.inl ⟨rfl, rfl, rfl⟩⟩
    · exact ⟨fun g _ h => h, Or.inl ⟨rfl, rfl, rfl⟩⟩
  | MouseButtonPressed a b => exact ⟨fun g _ h => h, Or.inl ⟨rfl, rfl, rfl⟩⟩
  | Other => exact ⟨fun g _ h => h, Or.inl ⟨rfl, rfl, rfl⟩⟩

/-- Event polling cannot lead into GAME, HIT or FINISH, and it either keeps
the three finish flags or clears them all. -/
theorem pollEvents_mode_flags (A : Assets) (now : ℚ) (evs : List Event) (w : World) :
    (∀ g, (g = GameState.GAME ∨ g = GameState.HIT ∨ g = GameState.FINISH) →
        (pollEvents A now evs w).gameState = g → w.gameState = g) ∧
      (((pollEvents A now evs w).finishLineSpawned = w.finishLineSpawned ∧
          (pollEvents A now evs w).finishTriggered = w.finishTriggered ∧
          (pollEvents A now evs w).raceFinished = w.raceFinished) ∨
        ((pollEvents A now evs w).finishLineSpawned = false ∧
          (pollEvents A now evs w).finishTriggered = false ∧
          (pollEvents A now evs w).raceFinished = false)) := by
  induction evs generalizing w with
  | nil => exact ⟨fun g _ h => h, Or.inl ⟨rfl, rfl, rfl⟩⟩
  | cons ev rest ih =>
    obtain ⟨m1, f1⟩ := handleEvent_mode_flags A now w ev
    obtain ⟨m2, f2⟩ := ih (handleEvent A now w ev)
    simp only [pollEvents, List.foldl_cons] at m2 f2 ⊢
    refine ⟨fun g hg h => m1 g hg (m2 g hg h), ?_⟩
    rcases f2 with f2 | f2
    · rcases f1 with f1 | f1
      · exact Or.inl ⟨f2.1.trans f1.1, f2.2.1.trans f1.2.1, f2.2.2.trans f1.2.2⟩
      · exact Or.inr ⟨f2.1.trans f1.1, f2.2.1.trans f1.2.1, f2.2.2.trans f1.2.2⟩
    · exact Or.inr f2

/-- The finish-line block of a frame (lines 819–844), run on a state `c`. -/
theorem finishBlock_spec (A : Assets) (now : ℚ) (c : World) :
    ((finishTrack now (finishSpawn A c)).finishLineSpawned =
        (c.finishLineSpawned || decide (FINISH_SPAWN_AT A ≤ c.distanceTraveled))) ∧
      (c.finishLineSpawned = true →
        (finishTrack now (finishSpawn A c)).finishLine =
          c.finishLine.move 0 c.playerWorldSpeed) ∧
      (c.finishTriggered = false → (finishTrack now (finishSpawn A c)).finishTriggered = true →
        (finishTrack now (finishSpawn A c)).finishLineSpawned = true ∧
        c.player.getGlobalBounds.intersects
          (finishTrack now (finishSpawn A c)).finishLine.getGlobalBounds = true ∧
        (finishTrack now (finishSpawn A c)).finishTriggerClock = now) ∧
      ((finishTrack now (finishSpawn A c)).finishTriggerClock ≠ c.finishTriggerClock →
        c.finishTriggered = false ∧ (finishTrack now (finishSpawn A c)).finishTriggered = true ∧
        (finishTrack now (finishSpawn A c)).finishTriggerClock = now) ∧
      ((((finishTrack now (finishSpawn A c)).gameState = GameState.FINISH ∧
            c.gameState ≠ GameState.FINISH) ∨
          ((finishTrack now (finishSpawn A c)).raceFinished = true ∧ c.raceFinished = false)) →
        (finishTrack now (finishSpawn A c)).finishTriggered = true ∧
        (finishTrack now (finishSpawn A c)).raceFinished = true ∧
        (finishTrack now (finishSpawn A c)).gameState = GameState.FINISH ∧
        FINISH_DELAY ≤ now - (finishTrack now (finishSpawn A c)).finishTriggerClock) ∧
      (FlagsOK c → FlagsOK (finishTrack now (finishSpawn A c))) := by
  unfold finishTrack finishSpawn FlagsOK
  cases hs : c.finishLineSpawned <;> cases ht : c.finishTriggered <;>
    cases hr : c.raceFinished <;>
    by_cases hd : FINISH_SPAWN_AT A ≤ c.distanceTraveled <;>
    simp only [hs, ht, hr, hd, Bool.not_false, Bool.not_true, Bool.true_and, Bool.false_and,
      decide_True, decide_False, if_true, if_false, Bool.false_eq_true] <;>
    (try split_ifs) <;> simp_all

/-- The obstacle loop keeps the mode, or leaves GAME for MENU or HIT. -/
theorem obstacleLoop_mode (isBraking : Bool) (now : ℚ) (l : List Sprite) (w : World) :
    (obstacleLoop isBraking now l w).2.gameState = w.gameState ∨
      (w.gameState = GameState.GAME ∧
        ((obstacleLoop isBraking now l w).2.gameState = GameState.MENU ∨
          (obstacleLoop isBraking now l w).2.gameState = GameState.HIT)) := by
  by_cases hg : w.gameState = GameState.GAME
  · by_cases hex : ∃ o ∈ l, hitsPlayer w.player isBraking o = true
    · obtain ⟨pre, o, post, hsplit, hpre, ho⟩ := exists_first_split _ _ hex
      have := (obstacleLoop_first_crash isBraking now pre post o w hg hpre ho).2.2.2.1
      rw [← hsplit] at this
      refine Or.inr ⟨hg, ?_⟩
      rw [this]
      split_ifs
      · exact Or.inl rfl
      · exact Or.inr rfl
    · refine Or.inl (obstacleLoop_no_crash isBraking now l w (Or.inr ?_)).2.2.2.1
      intro o ho
      by_contra hne
      exact hex ⟨o, ho, by simpa using hne⟩
  · exact Or.inl (obstacleLoop_no_crash isBraking now l w (Or.inl hg)).2.2.2.1

/-- The blink check neither enters nor leaves FINISH. -/
theorem hitBlink_finish (now : ℚ) (w : World) :
    (hitBlink now w).gameState = GameState.FINISH ↔ w.gameState = GameState.FINISH := by
  unfold hitBlink
  dsimp only
  split_ifs with h1 h2
  · rfl
  · simp [h1]
  · rfl

/-- The finish-sequence variables after a game frame are those left by the
finish-line block run after the controller; the controller leaves them alone. -/
theorem gameFrame_finish (A : Assets) (inp : Input) (dt : ℚ) (w : World) :
    (gameFrame A inp dt w).finishLine =
        (finishTrack inp.now (finishSpawn A (afterControl inp dt w))).finishLine ∧
      (gameFrame A inp dt w).finishLineSpawned =
        (finishTrack inp.now (finishSpawn A (afterControl inp dt w))).finishLineSpawned ∧
      (gameFrame A inp dt w).finishTriggered =
        (finishTrack inp.now (finishSpawn A (afterControl inp dt w))).finishTriggered ∧
      (gameFrame A inp dt w).raceFinished =
        (finishTrack inp.now (finishSpawn A (afterControl inp dt w))).raceFinished ∧
      (gameFrame A inp dt w).finishTriggerClock =
        (finishTrack inp.now (finishSpawn A (afterControl inp dt w))).finishTriggerClock ∧
      (gameFrame A inp dt w).distanceTraveled = (afterControl inp dt w).distanceTraveled ∧
      (gameFrame A inp dt w).playerWorldSpeed = (afterControl inp dt w).playerWorldSpeed ∧
      ((gameFrame A inp dt w).gameState = GameState.FINISH ↔
        (finishTrack inp.now (finishSpawn A (afterControl inp dt w))).gameState =
          GameState.FINISH) ∧
      (afterControl inp dt w).finishLine = w.finishLine ∧
      (afterControl inp dt w).finishLineSpawned = w.finishLineSpawned ∧
      (afterControl inp dt w).finishTriggered = w.finishTriggered ∧
      (afterControl inp dt w).raceFinished = w.raceFinished ∧
      (afterControl inp dt w).finishTriggerClock = w.finishTriggerClock ∧
      (afterControl inp dt w).gameState = w.gameState ∧
      (afterControl inp dt w).player = w.player := by
  have hpre : preObstacle A inp dt w = spawnObstacle A inp (updateTrees (spawnTree A inp
      (finishTrack inp.now (finishSpawn A (afterControl inp dt w))))) := rfl
  have hmode : (gameFrame A inp dt w).gameState = GameState.FINISH ↔
      (finishTrack inp.now (finishSpawn A (afterControl inp dt w))).gameState =
        GameState.FINISH := by
    have h1 : (preObstacle A inp dt w).gameState =
        (finishTrack inp.now (finishSpawn A (afterControl inp dt w))).gameState := by
      rw [hpre]
      simp
    have h2 := obstacleLoop_mode (braking inp) inp.now (preObstacle A inp dt w).obstacles
      (preObstacle A inp dt w)
    have h3 : (obstaclePass (braking inp) inp.now (preObstacle A inp dt w)).gameState =
        (obstacleLoop (braking inp) inp.now (preObstacle A inp dt w).obstacles
          (preObstacle A inp dt w)).2.gameState := rfl
    have h4 : (gameFrame A inp dt w).gameState =
        (hitBlink inp.now (smoothLane A
          (obstaclePass (braking inp) inp.now (preObstacle A inp dt w)))).gameState := by
      unfold gameFrame postObstacle
      simp
    rw [h4, hitBlink_finish, (smoothLane_keeps A _).1, h3, ← h1]
    rcases h2 with h2 | ⟨hg, h2 | h2⟩
    · rw [h2]
    · rw [h2, hg]
      simp
    · rw [h2, hg]
      simp
  refine ⟨?_, ?_, ?_, ?_, ?_, ?_, ?_, hmode, ?_, ?_, ?_, ?_, ?_, ?_, ?_⟩
  all_goals first
    | (unfold gameFrame postObstacle; rw [hpre]; simp)
    | (unfold afterControl; simp)

/-- The nested finish loop makes no finish progress. -/
theorem finishLoopIteration_noProgress (evs : List Event) (w : World) :
    NoFinishProgress w (finishLoopIteration evs w) := by
  refine ⟨by simp, by simp, Or.inl (by simp), ?_⟩
  intro h
  by_contra hne
  unfold finishLoopIteration at h
  rw [if_neg hne] at h
  exact hne h

/-- A main-loop iteration whose state handling is not the game frame makes no
finish progress. -/
theorem stateStep_noProgress (A : Assets) (inp : Input) (dt : ℚ) (w : World)
    (h : ¬(w.gameState = GameState.GAME ∨ w.gameState = GameState.HIT)) :
    NoFinishProgress w (stateStep A inp dt w) := by
  unfold stateStep
  split
  · rename_i hl
    unfold loadingStep
    dsimp only
    split_ifs
    · exact ⟨by simp, by simp, Or.inr (by simp), by simp⟩
    · exact ⟨rfl, rfl, Or.inl ⟨rfl, rfl, rfl⟩, fun h => h⟩
  · exact ⟨rfl, rfl, Or.inl ⟨rfl, rfl, rfl⟩, fun h => h⟩
  · exact ⟨rfl, rfl, Or.inl ⟨rfl, rfl, rfl⟩, fun h => h⟩
  · rename_i hfin
    exact ⟨by simp, by simp, Or.inl (by simp), fun _ => hfin⟩
  · rename_i h1 h2 h3 h4
    exfalso
    apply h
    cases hg : w.gameState <;> simp_all

/-- A program step that is not a game frame makes no finish progress. -/
theorem iteration_noProgress (A : Assets) (inp : Input) (w : World)
    (h : ¬(w.windowOpen = true ∧ w.inFinishLoop = false ∧
      (w.gameState = GameState.GAME ∨ w.gameState = GameState.HIT))) :
    NoFinishProgress w (iteration A inp w) := by
  unfold iteration
  by_cases ho : w.windowOpen = true
  · by_cases hf : w.inFinishLoop = false
    · rw [if_neg (by simp [ho]), if_neg (by simp [hf])]
      dsimp only
      have hmode : ¬(w.gameState = GameState.GAME ∨ w.gameState = GameState.HIT) :=
        fun hg => h ⟨ho, hf, hg⟩
      obtain ⟨m, f⟩ := pollEvents_mode_flags A inp.now inp.events { w with deltaClock := inp.now }
      have hmode1 : ¬((pollEvents A inp.now inp.events { w with deltaClock := inp.now }).gameState =
          GameState.GAME ∨
          (pollEvents A inp.now inp.events { w with deltaClock := inp.now }).gameState =
          GameState.HIT) := by
        intro hg
        rcases hg with hg | hg
        · exact hmode (Or.inl (m _ (Or.inl rfl) hg))
        · exact hmode (Or.inr (m _ (Or.inr (Or.inl rfl)) hg))
      obtain ⟨n1, n2, n3, n4⟩ := stateStep_noProgress A inp (inp.now - w.deltaClock) _ hmode1
      refine ⟨?_, ?_, ?_, ?_⟩
      · rw [n1]
        simp
      · rw [n2]
        simp
      · rcases n3 with n3 | n3
        · rcases f with f | f
          · exact Or.inl ⟨n3.1.trans f.1, n3.2.1.trans f.2.1, n3.2.2.trans f.2.2⟩
          · exact Or.inr ⟨n3.1.trans f.1, n3.2.1.trans f.2.1, n3.2.2.trans f.2.2⟩
        · exact Or.inr n3
      · intro hfin
        exact m _ (Or.inr (Or.inr rfl)) (n4 hfin)
    · rw [if_neg (by simp [ho]), if_pos (by simpa using hf)]
      exact finishLoopIteration_noProgress inp.events w
  · rw [if_pos (by simpa using ho)]
    exact ⟨rfl, rfl, Or.inl ⟨rfl, rfl, rfl⟩, fun h => h⟩

/-- A main-loop iteration from GAME or HIT is the game frame run on the state
left by event polling. -/
theorem iteration_game_eq (A : Assets) (inp : Input) (w : World)
    (hg : w.gameState = GameState.GAME ∨ w.gameState = GameState.HIT)
    (ho : w.windowOpen = true) (hf : w.inFinishLoop = false) :
    iteration A inp w = gameFrame A inp (inp.now - w.deltaClock)
      (pollEvents A inp.now inp.events { w with deltaClock := inp.now }) := by
  obtain ⟨wo, ww, wh, pl, ln, e⟩ := pollEvents_game A inp.now inp.events
    { w with deltaClock := inp.now } hg
  have hg2 : (pollEvents A inp.now inp.events { w with deltaClock := inp.now }).gameState =
      GameState.GAME ∨ (pollEvents A inp.now inp.events { w with deltaClock := inp.now }).gameState =
      GameState.HIT := by
    rw [e]
    exact hg
  unfold iteration
  rw [if_neg (by simp [ho]), if_neg (by simp [hf])]
  exact stateStep_game A inp _ _ hg2

/-- The finish-sequence properties of a game frame, stated on the frame's
start state `w1` (the state left by event polling). -/
theorem gameFrame_finish_props (A : Assets) (inp : Input) (dt : ℚ) (w1 : World) :
    ((gameFrame A inp dt w1).finishLineSpawned =
        (w1.finishLineSpawned ||
          decide (FINISH_SPAWN_AT A ≤ (gameFrame A inp dt w1).distanceTraveled))) ∧
      (w1.finishLineSpawned = true →
        (gameFrame A inp dt w1).finishLine =
          w1.finishLine.move 0 (gameFrame A inp dt w1).playerWorldSpeed) ∧
      (w1.finishTriggered = false → (gameFrame A inp dt w1).finishTriggered = true →
        (gameFrame A inp dt w1).finishLineSpawned = true ∧
        w1.player.getGlobalBounds.intersects
          (gameFrame A inp dt w1).finishLine.getGlobalBounds = true ∧
        (gameFrame A inp dt w1).finishTriggerClock = inp.now) ∧
      ((gameFrame A inp dt w1).finishTriggerClock ≠ w1.finishTriggerClock →
        w1.finishTriggered = false ∧ (gameFrame A inp dt w1).finishTriggered = true ∧
        (gameFrame A inp dt w1).finishTriggerClock = inp.now) ∧
      ((((gameFrame A inp dt w1).gameState = GameState.FINISH ∧
            w1.gameState ≠ GameState.FINISH) ∨
          ((gameFrame A inp dt w1).raceFinished = true ∧ w1.raceFinished = false)) →
        (gameFrame A inp dt w1).finishTriggered = true ∧
        (gameFrame A inp dt w1).raceFinished = true ∧
        (gameFrame A inp dt w1).gameState = GameState.FINISH ∧
        FINISH_DELAY ≤ inp.now - (gameFrame A inp dt w1).finishTriggerClock) ∧
      (FlagsOK w1 → FlagsOK (gameFrame A inp dt w1)) := by
  obtain ⟨g1, g2, g3, g4, g5, g6, g7, g8, c1, c2, c3, c4, c5, c6, c7⟩ :=
    gameFrame_finish A inp dt w1
  obtain ⟨f1, f2, f3, f4, f5, f6⟩ := finishBlock_spec A inp.now (afterControl inp dt w1)
  rw [c2, c1] at f2
  rw [c3, c7] at f3
  rw [c5, c3] at f4
  rw [c6, c4] at f5
  rw [c2] at f1
  refine ⟨?_, ?_, ?_, ?_, ?_, ?_⟩
  · rw [g2, g6, f1]
  · rw [g1, g7]
    exact f2
  · rw [g3, g2, g1, g5]
    exact f3
  · rw [g5, g3]
    exact f4
  · rw [g8, g4, g3, g5]
    exact f5
  · intro h
    have hc : FlagsOK (afterControl inp dt w1) := by
      unfold FlagsOK at h ⊢
      rw [c4, c3, c2]
      exact h
    have := f6 hc
    unfold FlagsOK at this ⊢
    rw [g4, g3, g2]
    exact this

/-- Event polling in GAME or HIT mode keeps every finish-sequence variable. -/
theorem pollEvents_game_finish (A : Assets) (now : ℚ) (evs : List Event) (w : World)
    (h : w.gameState = GameState.GAME ∨ w.gameState = GameState.HIT) :
    (pollEvents A now evs w).finishLineSpawned = w.finishLineSpawned ∧
      (pollEvents A now evs w).finishTriggered = w.finishTriggered ∧
      (pollEvents A now evs w).raceFinished = w.raceFinished ∧
      (pollEvents A now evs w).finishLine = w.finishLine ∧
      (pollEvents A now evs w).finishTriggerClock = w.finishTriggerClock ∧
      (pollEvents A now evs w).gameState = w.gameState := by
  obtain ⟨wo, ww, wh, pl, ln, e⟩ := pollEvents_game A now evs w h
  rw [e]
  exact ⟨rfl, rfl, rfl, rfl, rfl, rfl⟩

/-- Every program step keeps the order of the finish flags. -/
theorem iteration_flagsOK (A : Assets) (inp : Input) (w : World) (h : FlagsOK w) :
    FlagsOK (iteration A inp w) := by
  by_cases hgame : w.windowOpen = true ∧ w.inFinishLoop = false ∧
      (w.gameState = GameState.GAME ∨ w.gameState = GameState.HIT)
  · obtain ⟨ho, hf, hg⟩ := hgame
    rw [iteration_game_eq A inp w hg ho hf]
    apply (gameFrame_finish_props A inp _ _).2.2.2.2.2
    obtain ⟨p1, p2, p3, -, -, -⟩ := pollEvents_game_finish A inp.now inp.events
      { w with deltaClock := inp.now } hg
    dsimp only at p1 p2 p3
    unfold FlagsOK at h ⊢
    rw [p1, p2, p3]
    exact h
  · obtain ⟨-, -, n3, -⟩ := iteration_noProgress A inp w hgame
    unfold FlagsOK at h ⊢
    rcases n3 with ⟨a, b, c⟩ | ⟨a, b, c⟩
    · rw [a, b, c]
      exact h
    · rw [a, b, c]
      simp

/-! ## Spawn spacing -/

/-- When the back-element gate passes on an ordered vector, every element is
beyond the limit, and appending an entry at or above the limit keeps the order. -/
theorem sortedUp_gate (l : List Sprite) (e : Sprite) (limit : ℚ) (hs : SortedUp l)
    (hb : backBelow l limit = true) (he : e.y ≤ limit) :
    (∀ x ∈ l, limit < x.y) ∧ SortedUp (l ++ [e]) := by
  have hall : ∀ x ∈ l, limit < x.y := by
    rcases List.eq_nil_or_concat l with rfl | ⟨ys, a, hl⟩
    · simp
    · rw [List.concat_eq_append] at hl
      subst hl
      have hlast : limit < a.y := by
        simpa [backBelow] using hb
      intro x hx
      rcases List.mem_append.mp hx with hx | hx
      · have := (List.pairwise_append.mp hs).2.2 x hx a (by simp)
        exact lt_of_lt_of_le hlast this
      · have : x = a := by simpa using hx
        rw [this]
        exact hlast
  refine ⟨hall, ?_⟩
  unfold SortedUp
  rw [List.pairwise_append]
  refine ⟨hs, List.pairwise_singleton _ _, ?_⟩
  intro a ha b hb2
  have : b = e := by simpa using hb2
  rw [this]
  exact le_trans he (le_of_lt (hall a ha))

/-- The tree loop is a move of every tree followed by a stable prune. -/
theorem treeLoop_eq (worldSpeed : ℚ) (winH : ℕ) (l : List Sprite) :
    treeLoop worldSpeed winH l =
      (l.map (fun t => t.move 0 worldSpeed)).filter (fun t => !decide ((winH : ℚ) < t.y)) := by
  induction l with
  | nil => rfl
  | cons t rest ih =>
    simp only [treeLoop, List.map_cons]
    split_ifs with h
    · rw [List.filter_cons_of_neg (by simpa using h), ih]
    · rw [List.filter_cons_of_pos (by simpa using h), ih]

/-- Moving every entry by the same amount keeps the order. -/
theorem sortedUp_map_move (l : List Sprite) (dy : ℚ) (hs : SortedUp l) :
    SortedUp (l.map (fun t => t.move 0 dy)) := by
  unfold SortedUp at hs ⊢
  rw [List.pairwise_map]
  refine hs.imp ?_
  intro a b hab
  simp only [Sprite.move]
  linarith

theorem treeLoop_sorted (worldSpeed : ℚ) (winH : ℕ) (l : List Sprite) (hs : SortedUp l) :
    SortedUp (treeLoop worldSpeed winH l) := by
  rw [treeLoop_eq]
  exact (sortedUp_map_move l worldSpeed hs).filter _

/-- What survives the obstacle loop is a sublist of the moved vector. -/
theorem obstacleLoop_sublist (isBraking : Bool) (now : ℚ) (l : List Sprite) (w : World) :
    List.Sublist (obstacleLoop isBraking now l w).1 (l.map (movedObstacle isBraking)) := by
  induction l generalizing w with
  | nil => simp [obstacleLoop]
  | cons o rest ih =>
    simp only [obstacleLoop, List.map_cons]
    split_ifs
    · exact List.Sublist.cons _ (ih _)
    · exact List.Sublist.cons _ (ih _)
    · exact List.Sublist.cons _ (ih _)
    · exact List.Sublist.cons₂ _ (ih _)

theorem obstaclePass_sorted (isBraking : Bool) (now : ℚ) (w : World) (hs : SortedUp w.obstacles) :
    SortedUp (obstaclePass isBraking now w).obstacles := by
  have h1 : SortedUp (w.obstacles.map (movedObstacle isBraking)) :=
    sortedUp_map_move w.obstacles _ hs
  exact List.Pairwise.sublist (obstacleLoop_sublist isBraking now w.obstacles w) h1

theorem treeCandidate_y (A : Assets) (inp : Input) (w : World) :
    (treeCandidate A inp w).y ≤ 0 := by
  simp only [treeCandidate]
  exact neg_nonpos.mpr (Nat.cast_nonneg _)

theorem obstacleCandidate_y (A : Assets) (inp : Input) (w : World) :
    (obstacleCandidate A inp w).y ≤ -50 := by
  simp only [obstacleCandidate]
  have h1 : (0 : ℚ) ≤ (A.eplayerH (inp.rObsTex % 5) : ℚ) * (1 / 5) :=
    mul_nonneg (Nat.cast_nonneg _) (by norm_num)
  have h2 : (50 : ℚ) ≤ ((inp.rObsY % 101 + 50 : ℕ) : ℚ) := by
    have : (50 : ℕ) ≤ inp.rObsY % 101 + 50 := Nat.le_add_left _ _
    exact_mod_cast this
  linarith

theorem spawnTree_sorted (A : Assets) (inp : Input) (w : World) (hs : SortedUp w.trees) :
    SortedUp (spawnTree A inp w).trees := by
  unfold spawnTree
  split_ifs with h
  · simp only [Bool.and_eq_true] at h
    exact (sortedUp_gate w.trees _ 200 hs h.2
      (le_trans (treeCandidate_y A inp w) (by norm_num))).2
  · exact hs

theorem spawnObstacle_sorted (A : Assets) (inp : Input) (w : World)
    (hs : SortedUp w.obstacles) : SortedUp (spawnObstacle A inp w).obstacles := by
  unfold spawnObstacle
  split_ifs with h
  · simp only [Bool.and_eq_true] at h
    exact (sortedUp_gate w.obstacles _ 150 hs h.2
      (le_trans (obstacleCandidate_y A inp w) (by norm_num))).2
  · exact hs

/-- A game frame keeps both vectors ordered. -/
theorem gameFrame_sorted (A : Assets) (inp : Input) (dt : ℚ) (w : World)
    (ht : SortedUp w.trees) (hob : SortedUp w.obstacles) :
    SortedUp (gameFrame A inp dt w).trees ∧ SortedUp (gameFrame A inp dt w).obstacles := by
  have hpre : preObstacle A inp dt w = spawnObstacle A inp (updateTrees (spawnTree A inp
      (finishTrack inp.now (finishSpawn A (afterControl inp dt w))))) := rfl
  have h1 : SortedUp (finishTrack inp.now (finishSpawn A (afterControl inp dt w))).trees := by
    unfold afterControl
    simpa using ht
  have h2 : SortedUp (updateTrees (spawnTree A inp
      (finishTrack inp.now (finishSpawn A (afterControl inp dt w))))).trees :=
    treeLoop_sorted _ _ _ (spawnTree_sorted A inp _ h1)
  have h3 : SortedUp (updateTrees (spawnTree A inp
      (finishTrack inp.now (finishSpawn A (afterControl inp dt w))))).obstacles := by
    unfold afterControl
    simpa using hob
  have h4 : SortedUp (preObstacle A inp dt w).obstacles := by
    rw [hpre]
    exact spawnObstacle_sorted A inp _ h3
  have h5 := obstaclePass_sorted (braking inp) inp.now _ h4
  refine ⟨?_, ?_⟩
  · have e : (gameFrame A inp dt w).trees = (updateTrees (spawnTree A inp
        (finishTrack inp.now (finishSpawn A (afterControl inp dt w))))).trees := by
      unfold gameFrame postObstacle
      rw [hpre]
      simp
    rw [e]
    exact h2
  · have e : (gameFrame A inp dt w).obstacles =
        (obstaclePass (braking inp) inp.now (preObstacle A inp dt w)).obstacles := by
      unfold gameFrame postObstacle
      simp
    rw [e]
    exact h5

/-- Every program step keeps both vectors ordered. -/
theorem iteration_sorted (A : Assets) (inp : Input) (w : World)
    (h : SortedUp w.trees ∧ SortedUp w.obstacles) :
    SortedUp (iteration A inp w).trees ∧ SortedUp (iteration A inp w).obstacles := by
  unfold iteration
  split_ifs
  · exact h
  · simpa using h
  · dsimp only
    have h1 : SortedUp (pollEvents A inp.now inp.events { w with deltaClock := inp.now }).trees ∧
        SortedUp (pollEvents A inp.now inp.events { w with deltaClock := inp.now }).obstacles := by
      simpa using h
    generalize pollEvents A inp.now inp.events { w with deltaClock := inp.now } = w1 at h1 ⊢
    unfold stateStep
    split
    · unfold loadingStep
      dsimp only
      split_ifs
      · simp [SortedUp]
      · exact h1
    · exact h1
    · exact h1
    · simpa using h1
    · exact gameFrame_sorted A inp _ w1 h1.1 h1.2

/-! ## Claims -/

/-- C1. Stamina invariant: the program starts with stamina = MAX_STAMINA = 5,
and in every state reachable through loop iterations with non-negative frame
deltas (any key states, events, random draws, pickups and Loading resets)
stamina lies in [0, MAX_STAMINA]. -/
theorem C1_stamina_in_range (A : Assets) :
    (initWorld A).stamina = MAX_STAMINA ∧
      ∀ w, Reachable A w → 0 ≤ w.stamina ∧ w.stamina ≤ MAX_STAMINA := by
  refine ⟨by simp [initWorld], ?_⟩
  intro w h
  induction h with
  | init => norm_num [initWorld, MAX_STAMINA]
  | step w inp _ hdt ih => exact iteration_staminaOK A inp w hdt ih

/-- Witness for C1: one boosted frame of one second after the race start. -/
theorem C1_stamina_in_range_witness :
    (run demoAssets [{ idleInput 6 with keyW := true }] raceStart).stamina = 5 / 2 ∧
      0 ≤ (run demoAssets [{ idleInput 6 with keyW := true }] raceStart).stamina ∧
      (run demoAssets [{ idleInput 6 with keyW := true }] raceStart).stamina ≤ MAX_STAMINA :=
  ⟨by decide!, (C1_stamina_in_range demoAssets).2 _
    (Reachable.run_of demoAssets _ _ raceStart_reachable (by decide!))⟩

/-- C2. World-speed invariant: the program starts with playerWorldSpeed =
DEFAULT_SPEED = 4, and in every reachable state (any key states, events,
random draws and Loading resets) playerWorldSpeed lies in [0, MAX_SPEED] =
[0, 12]. -/
theorem C2_speed_in_range (A : Assets) :
    (initWorld A).playerWorldSpeed = DEFAULT_SPEED ∧ DEFAULT_SPEED = 4 ∧ MAX_SPEED = 12 ∧
      ∀ w, Reachable A w → 0 ≤ w.playerWorldSpeed ∧ w.playerWorldSpeed ≤ MAX_SPEED := by
  refine ⟨by simp [initWorld], rfl, rfl, ?_⟩
  intro w h
  induction h with
  | init => norm_num [initWorld, MAX_SPEED, DEFAULT_SPEED]
  | step w inp _ _ ih => exact iteration_speedOK A inp w ih

/-- Witness for C2: a braking frame after the race start stops the world. -/
theorem C2_speed_in_range_witness :
    (run demoAssets [{ idleInput 6 with keyS := true }] raceStart).playerWorldSpeed = 0 ∧
      0 ≤ (run demoAssets [{ idleInput 6 with keyS := true }] raceStart).playerWorldSpeed ∧
      (run demoAssets [{ idleInput 6 with keyS := true }] raceStart).playerWorldSpeed ≤ MAX_SPEED :=
  ⟨by decide!, (C2_speed_in_range demoAssets).2.2.2 _
    (Reachable.run_of demoAssets _ _ raceStart_reachable (by decide!))⟩

/-- C3. Obstacle collision: in a frame whose obstacle pass starts in GAME mode
with at least one obstacle whose moved, shrunk bounds intersect the shrunk
player bounds, the obstacle vector splits at the first such obstacle; after the
frame that obstacle is gone and all others are only moved and pruned, lives has
dropped by exactly 1 and exactly one crash was processed, whatever the number
of overlapping obstacles; the mode is HIT when lives remain and MENU when lives
was 1. -/
theorem C3_obstacle_collision (A : Assets) (inp : Input) (dt : ℚ) (w : World)
    (hmode : (preObstacle A inp dt w).gameState = GameState.GAME)
    (hhit : ∃ o ∈ (preObstacle A inp dt w).obstacles,
      hitsPlayer w.player (braking inp) o = true) :
    ∃ pre o post,
      (preObstacle A inp dt w).obstacles = pre ++ o :: post ∧
      (∀ p ∈ pre, hitsPlayer w.player (braking inp) p = false) ∧
      hitsPlayer w.player (braking inp) o = true ∧
      (gameFrame A inp dt w).obstacles =
        survivors (braking inp) w.winH pre ++ survivors (braking inp) w.winH post ∧
      (gameFrame A inp dt w).lives = w.lives - 1 ∧
      (gameFrame A inp dt w).crashCount = w.crashCount + 1 ∧
      (0 < (gameFrame A inp dt w).lives → (gameFrame A inp dt w).gameState = GameState.HIT) ∧
      (w.lives = 1 → (gameFrame A inp dt w).gameState = GameState.MENU ∧
        (gameFrame A inp dt w).gameState ≠ GameState.HIT) := by
  obtain ⟨pre, o, post, hsplit, hpre, ho⟩ := exists_first_split _ _ hhit
  obtain ⟨hlv, hcc, hpl, hwh⟩ := preObstacle_before_pass A inp dt w
  have hloop := obstacleLoop_first_crash (braking inp) inp.now pre post o
    (preObstacle A inp dt w) hmode (by rw [hpl]; exact hpre) (by rw [hpl]; exact ho)
  rw [← hsplit, hlv, hcc, hwh] at hloop
  obtain ⟨h1, h2, h3, h4, h5⟩ := hloop
  obtain ⟨q1, q2, q3, q4, q5⟩ := postObstacle_after_pass A inp
    (obstaclePass (braking inp) inp.now (preObstacle A inp dt w))
  have e1 : (obstaclePass (braking inp) inp.now (preObstacle A inp dt w)).obstacles =
      (obstacleLoop (braking inp) inp.now (preObstacle A inp dt w).obstacles
        (preObstacle A inp dt w)).1 := rfl
  have e3 : (obstaclePass (braking inp) inp.now (preObstacle A inp dt w)).lives =
      (obstacleLoop (braking inp) inp.now (preObstacle A inp dt w).obstacles
        (preObstacle A inp dt w)).2.lives := rfl
  have e4 : (obstaclePass (braking inp) inp.now (preObstacle A inp dt w)).crashCount =
      (obstacleLoop (braking inp) inp.now (preObstacle A inp dt w).obstacles
        (preObstacle A inp dt w)).2.crashCount := rfl
  have e5 : (obstaclePass (braking inp) inp.now (preObstacle A inp dt w)).gameState =
      (obstacleLoop (braking inp) inp.now (preObstacle A inp dt w).obstacles
        (preObstacle A inp dt w)).2.gameState := rfl
  have e6 : (obstaclePass (braking inp) inp.now (preObstacle A inp dt w)).fadeClock =
      (obstacleLoop (braking inp) inp.now (preObstacle A inp dt w).obstacles
        (preObstacle A inp dt w)).2.fadeClock := rfl
  refine ⟨pre, o, post, hsplit, hpre, ho, ?_, ?_, ?_, ?_, ?_⟩
  · show (postObstacle A inp _).obstacles = _
    rw [q1, e1, h1]
  · show (postObstacle A inp _).lives = _
    rw [q2, e3, h2]
  · show (postObstacle A inp _).crashCount = _
    rw [q3, e4, h3]
  · intro hpos
    have hpos2 : 0 < w.lives - 1 := by
      have : (gameFrame A inp dt w).lives = w.lives - 1 := by
        show (postObstacle A inp _).lives = _
        rw [q2, e3, h2]
      rw [this] at hpos
      exact hpos
    apply q5
    · rw [e5, h4, if_neg (not_le.mpr hpos2)]
    · rw [e6]
      exact h5 hpos2
  · intro hone
    have hm : (gameFrame A inp dt w).gameState = GameState.MENU := by
      apply q4
      rw [e5, h4, if_pos (by rw [hone]; norm_num)]
    exact ⟨hm, by rw [hm]; decide⟩

/-- Witness for C3: with one life left and two obstacles on the player, the
frame removes only the first of them, ends in MENU with no life left, and one
crash was processed. -/
theorem C3_obstacle_collision_witness :
    ∃ pre o post,
      (preObstacle demoAssets (idleInput 6) 1 crashWorld).obstacles = pre ++ o :: post ∧
      (∀ p ∈ pre, hitsPlayer crashWorld.player (braking (idleInput 6)) p = false) ∧
      hitsPlayer crashWorld.player (braking (idleInput 6)) o = true ∧
      (gameFrame demoAssets (idleInput 6) 1 crashWorld).obstacles =
        survivors (braking (idleInput 6)) crashWorld.winH pre ++
          survivors (braking (idleInput 6)) crashWorld.winH post ∧
      (gameFrame demoAssets (idleInput 6) 1 crashWorld).lives = crashWorld.lives - 1 ∧
      (gameFrame demoAssets (idleInput 6) 1 crashWorld).crashCount = crashWorld.crashCount + 1 ∧
      (0 < (gameFrame demoAssets (idleInput 6) 1 crashWorld).lives →
        (gameFrame demoAssets (idleInput 6) 1 crashWorld).gameState = GameState.HIT) ∧
      (crashWorld.lives = 1 →
        (gameFrame demoAssets (idleInput 6) 1 crashWorld).gameState = GameState.MENU ∧
        (gameFrame demoAssets (idleInput 6) 1 crashWorld).gameState ≠ GameState.HIT) :=
  C3_obstacle_collision demoAssets (idleInput 6) 1 crashWorld (by decide!)
    ⟨⟨345, 480, 40, 80⟩, by decide!, by decide!⟩

/-- The score after `updateCoins` is the entry score plus 100 per picked coin. -/
theorem updateCoins_score (worldSpeed : ℚ) (winH : ℕ) (player : Sprite) (l : List Sprite)
    (sc : ℤ) :
    (updateCoins worldSpeed winH player l sc).score =
      sc + 100 * (l.countP (coinPicked worldSpeed player) : ℤ) := by
  induction l generalizing sc with
  | nil => simp [updateCoins]
  | cons c rest ih =>
    by_cases hc : coinPicked worldSpeed player c = true
    · have hc2 := hc
      simp only [coinPicked] at hc2
      simp only [updateCoins, hc2, if_true, List.countP_cons_of_pos _ _ hc, ih]
      push_cast
      ring
    · have hc2 := hc
      simp only [coinPicked] at hc2
      simp only [updateCoins, hc2, Bool.false_eq_true, if_false, List.countP_cons_of_neg _ _ hc]
      split_ifs <;> exact ih sc

/-- Stamina never drops in `updateBottles` when it enters at most MAX_STAMINA. -/
theorem updateBottles_stamina_mono (worldSpeed : ℚ) (winH : ℕ) (player : Sprite)
    (l : List Sprite) (s : ℚ) (h1 : s ≤ MAX_STAMINA) :
    s ≤ (updateBottles worldSpeed winH player l s).stamina := by
  induction l generalizing s with
  | nil => exact le_refl _
  | cons b rest ih =>
    simp only [updateBottles]
    split_ifs
    · refine le_trans (le_min h1 ?_) (ih _ (min_le_left _ _))
      norm_num [BOTTLE_STAMINA]
    · exact ih s h1
    · exact ih s h1

/-- C4. Pickup effects: for every bottle list, player box and entry stamina at
most MAX_STAMINA, `updateBottles` returns a stamina not below the entry value,
and its call leaves the score alone; for every coin list and player box,
`updateCoins` returns the entry score plus exactly 100 per coin whose moved
bounds intersect the player bounds, and its call leaves stamina alone. -/
theorem C4_pickup_effects :
    (∀ (worldSpeed : ℚ) (winH : ℕ) (player : Sprite) (l : List Sprite) (s : ℚ),
        s ≤ MAX_STAMINA → s ≤ (updateBottles worldSpeed winH player l s).stamina) ∧
      (∀ w : World, (updateBottlesCall w).score = w.score) ∧
      (∀ (worldSpeed : ℚ) (winH : ℕ) (player : Sprite) (l : List Sprite) (sc : ℤ),
        (updateCoins worldSpeed winH player l sc).score =
          sc + 100 * (l.countP (coinPicked worldSpeed player) : ℤ)) ∧
      (∀ w : World, (updateCoinsCall w).stamina = w.stamina) :=
  ⟨updateBottles_stamina_mono, fun w => by simp, updateCoins_score, fun w => by simp⟩

/-- Witness for C4: one bottle lifts stamina from 9/2 to the cap 5, two of the
three coins are picked for 200 points. -/
theorem C4_pickup_effects_witness :
    (updateBottlesCall pickupWorld).stamina = 5 ∧
      pickupWorld.stamina ≤ (updateBottlesCall pickupWorld).stamina ∧
      (updateCoinsCall pickupWorld).score = pickupWorld.score + 200 :=
  ⟨by decide!,
    C4_pickup_effects.1 pickupWorld.playerWorldSpeed pickupWorld.winH pickupWorld.player
      pickupWorld.bottles pickupWorld.stamina (by decide!),
    by decide!⟩

/-- C5 (the code departs from the claim). After a race lost by three
collisions, confirming "Jouer" again and waiting out the loading delay enters
GAME with three lives but with the distance of the lost race: the state before
the last step is LOADING with distanceTraveled = 432, the state after it is
GAME with distanceTraveled = 432. The LOADING branch never writes
distanceTraveled. -/
theorem C5_restart_keeps_stale_distance :
    Reachable demoAssets (run demoAssets deathRestartInputs (initWorld demoAssets)) ∧
      ((run demoAssets deathRestartInputs.dropLast (initWorld demoAssets)).gameState =
          GameState.LOADING ∧
        (run demoAssets deathRestartInputs.dropLast (initWorld demoAssets)).distanceTraveled = 432 ∧
        (run demoAssets deathRestartInputs (initWorld demoAssets)).gameState = GameState.GAME ∧
        (run demoAssets deathRestartInputs (initWorld demoAssets)).lives = 3 ∧
        (run demoAssets deathRestartInputs (initWorld demoAssets)).distanceTraveled = 432) ∧
      ∀ (A : Assets) (now : ℚ) (w : World),
        (loadingStep A now w).distanceTraveled = w.distanceTraveled :=
  ⟨Reachable.run_of demoAssets _ _ Reachable.init (by decide!), by decide!,
    fun A now w => by simp⟩

/-- C6. Race restart resets the rest of the world: in MENU with selected = 0 an
Enter key press sets the mode to LOADING; whenever a program step leads from
LOADING to GAME, the resulting state has lives = 3, score = 0, stamina =
MAX_STAMINA, playerWorldSpeed = DEFAULT_SPEED, playerLane = 1, empty trees,
obstacles, bottles and coins, and finishLineSpawned, finishTriggered and
raceFinished all false, whatever the state before; and the step does lead to
GAME once the loading clock reads more than 3 s. -/
theorem C6_restart_resets_world (A : Assets) (inp : Input) (w : World) :
    (∀ now, w.gameState = GameState.MENU → w.selected = 0 →
        (handleEvent A now w (Event.KeyPressed Key.Enter)).gameState = GameState.LOADING) ∧
      (w.gameState = GameState.LOADING → (iteration A inp w).gameState = GameState.GAME →
        (iteration A inp w).lives = 3 ∧ (iteration A inp w).score = 0 ∧
        (iteration A inp w).stamina = MAX_STAMINA ∧
        (iteration A inp w).playerWorldSpeed = DEFAULT_SPEED ∧
        (iteration A inp w).playerLane = 1 ∧
        (iteration A inp w).trees = [] ∧ (iteration A inp w).obstacles = [] ∧
        (iteration A inp w).bottles = [] ∧ (iteration A inp w).coins = [] ∧
        (iteration A inp w).finishLineSpawned = false ∧
        (iteration A inp w).finishTriggered = false ∧
        (iteration A inp w).raceFinished = false) ∧
      (w.gameState = GameState.LOADING → w.windowOpen = true → w.inFinishLoop = false →
        3 < inp.now - w.loadingClock → (iteration A inp w).gameState = GameState.GAME) := by
  refine ⟨?_, ?_, ?_⟩
  · intro now hm hs
    simp only [handleEvent]
    unfold handleKey
    simp [hm, hs]
  · intro hl hg
    by_cases ho : w.windowOpen = true
    · by_cases hf : w.inFinishLoop = false
      · obtain ⟨w1, h1, _, _, e⟩ := iteration_loading A inp w hl ho hf
        rw [e] at hg ⊢
        unfold loadingStep at hg ⊢
        dsimp only at hg ⊢
        split_ifs at hg ⊢ with h3
        · simp
        · rw [h1] at hg
          exact absurd hg (by decide)
      · exfalso
        unfold iteration finishLoopIteration at hg
        simp [ho, hf, hl] at hg
    · exfalso
      unfold iteration at hg
      simp [ho, hl] at hg
  · intro hl ho hf ht
    obtain ⟨w1, h1, h2, _, e⟩ := iteration_loading A inp w hl ho hf
    rw [e]
    unfold loadingStep
    simp [h2, ht]

/-- Witness for C6: the program start, Enter on "Jouer" at t = 1, and the
loading delay over at t = 5. -/
theorem C6_restart_resets_world_witness :
    (handleEvent demoAssets 1 (initWorld demoAssets) (Event.KeyPressed Key.Enter)).gameState =
        GameState.LOADING ∧
      (iteration demoAssets (idleInput 5)
        (iteration demoAssets { idleInput 1 with events := [Event.KeyPressed Key.Enter] }
          (initWorld demoAssets))).lives = 3 ∧
      (iteration demoAssets (idleInput 5)
        (iteration demoAssets { idleInput 1 with events := [Event.KeyPressed Key.Enter] }
          (initWorld demoAssets))).gameState = GameState.GAME :=
  ⟨(C6_restart_resets_world demoAssets (idleInput 5) (initWorld demoAssets)).1 1
      (by decide!) (by decide!),
    ((C6_restart_resets_world demoAssets (idleInput 5)
      (iteration demoAssets { idleInput 1 with events := [Event.KeyPressed Key.Enter] }
        (initWorld demoAssets))).2.1 (by decide!) (by decide!)).1,
    (C6_restart_resets_world demoAssets (idleInput 5)
      (iteration demoAssets { idleInput 1 with events := [Event.KeyPressed Key.Enter] }
        (initWorld demoAssets))).2.2 (by decide!) (by decide!) (by decide!) (by decide!)⟩

/-- C7 as stated fails: from GAME with stamina 0 and the boost key held through
three consecutive frames half a second apart, the tired sound is played twice.
The first frame plays it and regenerates stamina to 1/2, the second frame
boosts (which clears the flag) and leaves stamina at 1/4, the third frame plays
it again. -/
theorem C7_counterexample_two_signals :
    exhaustedStart.gameState = GameState.GAME ∧ exhaustedStart.stamina = 0 ∧
      boostHold.all boostKeyDown = true ∧ timeOK demoAssets boostHold exhaustedStart = true ∧
      (run demoAssets (boostHold.take 1) exhaustedStart).gameState = GameState.GAME ∧
      (run demoAssets (boostHold.take 2) exhaustedStart).gameState = GameState.GAME ∧
      (run demoAssets (boostHold.take 1) exhaustedStart).tiredCount =
        exhaustedStart.tiredCount + 1 ∧
      (run demoAssets boostHold exhaustedStart).tiredCount = exhaustedStart.tiredCount + 2 := by
  decide!

/-- C7, amended. Over any run of consecutive GAME / HIT frames in which the
boost key stays held and stamina at the start of each frame is below
MIN_STAMINA_TO_BOOST, the tired sound is played exactly once when the flag
starts clear and not at all when it starts set. In any frame the sound is
played at most once, and only with the key down, stamina below the threshold
and the flag clear at the start of the frame; the flag is clear after a frame
exactly when in that frame the key was up or the boost succeeded (stamina at
least MIN_STAMINA_TO_BOOST), so these are the only frames after which a further
sound can occur. -/
theorem C7_tired_signal_edge_triggered (A : Assets) :
    (∀ inps w, heldExhausted A inps w = true → inps ≠ [] → w.triedWhileExhausted = false →
        (run A inps w).tiredCount = w.tiredCount + 1) ∧
      (∀ inps w, heldExhausted A inps w = true → w.triedWhileExhausted = true →
        (run A inps w).tiredCount = w.tiredCount) ∧
      (∀ inp dt w,
        ((gameFrame A inp dt w).tiredCount = w.tiredCount ∨
          ((gameFrame A inp dt w).tiredCount = w.tiredCount + 1 ∧
            w.triedWhileExhausted = false ∧ boostKeyDown inp = true ∧
            w.stamina < MIN_STAMINA_TO_BOOST)) ∧
        ((gameFrame A inp dt w).triedWhileExhausted = false ↔
          (boostKeyDown inp = false ∨ MIN_STAMINA_TO_BOOST ≤ w.stamina))) := by
  refine ⟨?_, heldExhausted_silent A, ?_⟩
  · intro inps w h hne ht
    cases inps with
    | nil => exact absurd rfl hne
    | cons inp rest =>
      obtain ⟨s1, s2, s3⟩ := heldExhausted_step A inp rest w h
      simp only [run]
      rw [heldExhausted_silent A rest _ s3 s1, s2]
      simp [ht]
  · intro inp dt w
    obtain ⟨t1, t2⟩ := gameFrame_tired A inp dt w
    obtain ⟨b1, b2⟩ := boostStep_tired inp dt w
    rw [t1, t2, b1]
    refine ⟨?_, b2⟩
    split_ifs with hc
    · exact Or.inr ⟨rfl, hc.2.2, hc.1, hc.2.1⟩
    · exact Or.inl rfl

/-- Witness for C7, amended: two frames a tenth of a second apart with the key
held from stamina 0 play the tired sound once. -/
theorem C7_tired_signal_edge_triggered_witness :
    (run demoAssets shortHold exhaustedStart).tiredCount = exhaustedStart.tiredCount + 1 :=
  (C7_tired_signal_edge_triggered demoAssets).1 shortHold exhaustedStart (by decide!)
    (by decide) (by decide!)

/-- C8. Finish sequence, for every program step from `w` to `iteration A inp w`:
(1) the finish line becomes spawned only in a GAME / HIT frame whose distance
has reached RACE_DISTANCE - 500, and (2) it does become spawned in the first
such frame; (3) while it stays spawned the line is either untouched or scrolled
by the world speed, and (4) a GAME / HIT state never loses the flag, so the line
is placed once per race; (5) finishTriggered becomes true only in a step after
which the line is spawned and in which the player bounds at the check intersect
the line bounds, and that step restarts the trigger clock; (6) the trigger
clock is restarted in no other step; (7) the mode becomes FINISH, or
raceFinished becomes true, only in a step after which finishTriggered holds,
both have happened, and the trigger clock reads at least FINISH_DELAY = 2.
In every reachable state raceFinished implies finishTriggered implies
finishLineSpawned. -/
theorem C8_finish_sequence (A : Assets) :
    (∀ (inp : Input) (w : World),
      (w.finishLineSpawned = false → (iteration A inp w).finishLineSpawned = true →
        (w.gameState = GameState.GAME ∨ w.gameState = GameState.HIT) ∧
        RACE_DISTANCE A - 500 ≤ (iteration A inp w).distanceTraveled) ∧
      (w.windowOpen = true → w.inFinishLoop = false →
        (w.gameState = GameState.GAME ∨ w.gameState = GameState.HIT) →
        w.finishLineSpawned = false →
        RACE_DISTANCE A - 500 ≤ (iteration A inp w).distanceTraveled →
        (iteration A inp w).finishLineSpawned = true) ∧
      (w.finishLineSpawned = true → (iteration A inp w).finishLineSpawned = true →
        (iteration A inp w).finishLine = w.finishLine ∨
        (iteration A inp w).finishLine =
          w.finishLine.move 0 (iteration A inp w).playerWorldSpeed) ∧
      (w.finishLineSpawned = true →
        (w.gameState = GameState.GAME ∨ w.gameState = GameState.HIT) →
        (iteration A inp w).finishLineSpawned = true) ∧
      (w.finishTriggered = false → (iteration A inp w).finishTriggered = true →
        (iteration A inp w).finishLineSpawned = true ∧
        (pollEvents A inp.now inp.events
          { w with deltaClock := inp.now }).player.getGlobalBounds.intersects
            (iteration A inp w).finishLine.getGlobalBounds = true ∧
        (iteration A inp w).finishTriggerClock = inp.now) ∧
      ((iteration A inp w).finishTriggerClock ≠ w.finishTriggerClock →
        w.finishTriggered = false ∧ (iteration A inp w).finishTriggered = true ∧
        (iteration A inp w).finishTriggerClock = inp.now) ∧
      ((((iteration A inp w).gameState = GameState.FINISH ∧ w.gameState ≠ GameState.FINISH) ∨
          ((iteration A inp w).raceFinished = true ∧ w.raceFinished = false)) →
        (iteration A inp w).finishTriggered = true ∧
        (iteration A inp w).raceFinished = true ∧
        (iteration A inp w).gameState = GameState.FINISH ∧
        FINISH_DELAY ≤ inp.now - (iteration A inp w).finishTriggerClock ∧ FINISH_DELAY = 2)) ∧
    (∀ w, Reachable A w →
      (w.raceFinished = true → w.finishTriggered = true) ∧
      (w.finishTriggered = true → w.finishLineSpawned = true)) := by
  refine ⟨?_, ?_⟩
  · intro inp w
    by_cases hgame : w.windowOpen = true ∧ w.inFinishLoop = false ∧
        (w.gameState = GameState.GAME ∨ w.gameState = GameState.HIT)
    · obtain ⟨ho, hf, hg⟩ := hgame
      obtain ⟨p1, p2, p3, p4, p5, p6⟩ := pollEvents_game_finish A inp.now inp.events
        { w with deltaClock := inp.now } hg
      dsimp only at p1 p2 p3 p4 p5 p6
      obtain ⟨q1, q2, q3, q4, q5, -⟩ := gameFrame_finish_props A inp (inp.now - w.deltaClock)
        (pollEvents A inp.now inp.events { w with deltaClock := inp.now })
      rw [p1] at q1
      rw [p1, p4] at q2
      rw [p2] at q3
      rw [p5, p2] at q4
      rw [p6, p3] at q5
      rw [iteration_game_eq A inp w hg ho hf]
      refine ⟨?_, ?_, ?_, ?_, ?_, q4, ?_⟩
      · intro h0 h1
        have h2 := q1.symm.trans h1
        rw [Bool.or_eq_true] at h2
        rcases h2 with h2 | h2
        · rw [h0] at h2
          exact absurd h2 (by decide)
        · exact ⟨hg, of_decide_eq_true h2⟩
      · intro _ _ _ _ hd
        rw [q1, Bool.or_eq_true]
        exact Or.inr (decide_eq_true hd)
      · intro h0 _
        exact Or.inr (q2 h0)
      · intro h0 _
        rw [q1, h0]
        rfl
      · exact q3
      · intro h
        have hne : w.gameState ≠ GameState.FINISH := by
          rcases hg with hg | hg <;> rw [hg] <;> decide
        obtain ⟨r1, r2, r3, r4⟩ := q5 (by
          rcases h with h | h
          · exact Or.inl ⟨h.1, hne⟩
          · exact Or.inr h)
        exact ⟨r1, r2, r3, r4, rfl⟩
    · obtain ⟨n1, n2, n3, n4⟩ := iteration_noProgress A inp w hgame
      refine ⟨?_, ?_, ?_, ?_, ?_, ?_, ?_⟩
      · intro h0 h1
        rcases n3 with n3 | n3
        · rw [n3.1, h0] at h1
          exact absurd h1 (by decide)
        · rw [n3.1] at h1
          exact absurd h1 (by decide)
      · intro ho hf hg
        exact absurd ⟨ho, hf, hg⟩ hgame
      · intro _ _
        exact Or.inl n1
      · intro h0 hg
        have hkeep : w.windowOpen = false ∨ w.inFinishLoop = true := by
          by_contra hcon
          push_neg at hcon
          exact hgame ⟨by simpa using hcon.1, by simpa using hcon.2, hg⟩
        unfold iteration
        rcases hkeep with hk | hk
        · rw [if_pos (by simp [hk])]
          exact h0
        · by_cases ho : w.windowOpen = true
          · rw [if_neg (by simp [ho]), if_pos hk]
            simpa using h0
          · rw [if_pos (by simpa using ho)]
            exact h0
      · intro h0 h1
        rcases n3 with n3 | n3
        · rw [n3.2.1, h0] at h1
          exact absurd h1 (by decide)
        · rw [n3.2.1] at h1
          exact absurd h1 (by decide)
      · intro h
        exact absurd n2 h
      · intro h
        rcases h with h | h
        · exact absurd (n4 h.1) h.2
        · rcases n3 with n3 | n3
          · rw [n3.2.2, h.2] at h
            exact absurd h.1 (by decide)
          · rw [n3.2.2] at h
            exact absurd h.1 (by decide)
  · intro w h
    have : FlagsOK w := by
      induction h with
      | init => simp [FlagsOK, initWorld]
      | step w inp _ _ ih => exact iteration_flagsOK A inp w ih
    exact this

/-- Witness for C8: in the sprint race the line is spawned in frame 25, the
trigger latches in frame 47 at t = 9.7, and frame 67 at t = 11.7 enters FINISH
with the trigger clock reading 2 s. -/
theorem C8_finish_sequence_witness :
    ((iteration sprintAssets (idleInput (117 / 10))
        (run sprintAssets (sprintInputs 66) (initWorld sprintAssets))).finishTriggered = true ∧
      (iteration sprintAssets (idleInput (117 / 10))
        (run sprintAssets (sprintInputs 66) (initWorld sprintAssets))).raceFinished = true ∧
      (iteration sprintAssets (idleInput (117 / 10))
        (run sprintAssets (sprintInputs 66) (initWorld sprintAssets))).gameState =
          GameState.FINISH ∧
      FINISH_DELAY ≤ (idleInput (117 / 10)).now -
        (iteration sprintAssets (idleInput (117 / 10))
          (run sprintAssets (sprintInputs 66) (initWorld sprintAssets))).finishTriggerClock ∧
      FINISH_DELAY = 2) ∧
    (run sprintAssets (sprintInputs 66) (initWorld sprintAssets)).finishTriggerClock = 97 / 10 :=
  ⟨((C8_finish_sequence sprintAssets).1 (idleInput (117 / 10))
      (run sprintAssets (sprintInputs 66) (initWorld sprintAssets))).2.2.2.2.2.2
      (Or.inl (by decide!)),
    by decide!⟩

/-- C9. Same-type spawn spacing against all live entities. In every reachable
state the tree and obstacle vectors are ordered with the newest entry
uppermost. Whenever the tree spawner appends a tree to the tree vector of a
reachable state, every live tree is at least 200 away vertically; whenever the
obstacle spawner appends an obstacle to the obstacle vector of a reachable
state, every live obstacle is at least 150 away; whenever `spawnBottle`
(`spawnScoreCoin`) appends a bottle (coin), every live bottle (coin) is at
least 100 away, for any vectors. -/
theorem C9_spawn_spacing (A : Assets) :
    (∀ w, Reachable A w → SortedUp w.trees ∧ SortedUp w.obstacles) ∧
      (∀ w, Reachable A w → ∀ (inp : Input) (w2 : World) (e : Sprite), w2.trees = w.trees →
        (spawnTree A inp w2).trees = w2.trees ++ [e] →
        ∀ x ∈ w2.trees, 200 ≤ |x.y - e.y|) ∧
      (∀ w, Reachable A w → ∀ (inp : Input) (w2 : World) (e : Sprite),
        w2.obstacles = w.obstacles →
        (spawnObstacle A inp w2).obstacles = w2.obstacles ++ [e] →
        ∀ x ∈ w2.obstacles, 150 ≤ |x.y - e.y|) ∧
      (∀ (winW rGate rLane rY : ℕ) (bottles obstacles coins : List Sprite) (e : Sprite),
        spawnBottle A winW rGate rLane rY bottles obstacles coins = bottles ++ [e] →
        ∀ x ∈ bottles, 100 ≤ |x.y - e.y|) ∧
      (∀ (winW rGate rLane rY : ℕ) (coins obstacles bottles : List Sprite) (e : Sprite),
        spawnScoreCoin A winW rGate rLane rY coins obstacles bottles = coins ++ [e] →
        ∀ x ∈ coins, 100 ≤ |x.y - e.y|) := by
  have hinv : ∀ w, Reachable A w → SortedUp w.trees ∧ SortedUp w.obstacles := by
    intro w h
    induction h with
    | init => simp [initWorld, SortedUp]
    | step w inp _ _ ih => exact iteration_sorted A inp w ih
  have hrej : ∀ (cand : Sprite) (same o1 o2 : List Sprite),
      spawnRejected cand same o1 o2 = false → ∀ x ∈ same, 100 ≤ |x.y - cand.y| := by
    intro cand same o1 o2 h x hx
    simp only [spawnRejected, Bool.or_eq_false_iff, List.any_eq_false, decide_eq_true_eq,
      not_lt] at h
    exact h.1.1 x hx
  refine ⟨hinv, ?_, ?_, ?_, ?_⟩
  · intro w hw inp w2 e htr happ x hx
    have hs : SortedUp w2.trees := by
      rw [htr]
      exact (hinv w hw).1
    unfold spawnTree at happ
    split_ifs at happ with hgate
    · simp only [Bool.and_eq_true] at hgate
      have he : e = treeCandidate A inp w2 := by
        have := List.append_cancel_left happ
        simpa using this.symm
      have h1 := (sortedUp_gate w2.trees e 200 hs hgate.2
        (by rw [he]; exact le_trans (treeCandidate_y A inp w2) (by norm_num))).1 x hx
      have h2 : e.y ≤ 0 := by
        rw [he]
        exact treeCandidate_y A inp w2
      rw [abs_of_nonneg (by linarith)]
      linarith
    · have := congrArg List.length happ
      simp at this
  · intro w hw inp w2 e hob happ x hx
    have hs : SortedUp w2.obstacles := by
      rw [hob]
      exact (hinv w hw).2
    unfold spawnObstacle at happ
    split_ifs at happ with hgate
    · simp only [Bool.and_eq_true] at hgate
      have he : e = obstacleCandidate A inp w2 := by
        have := List.append_cancel_left happ
        simpa using this.symm
      have h2 : e.y ≤ -50 := by
        rw [he]
        exact obstacleCandidate_y A inp w2
      have h1 := (sortedUp_gate w2.obstacles e 150 hs hgate.2 (by linarith)).1 x hx
      rw [abs_of_nonneg (by linarith)]
      linarith
    · have := congrArg List.length happ
      simp at this
  · intro winW rGate rLane rY bottles obstacles coins e happ x hx
    unfold spawnBottle at happ
    dsimp only at happ
    split_ifs at happ with hgate hr
    · have := congrArg List.length happ
      simp at this
    · have he : e = bottleCandidate A winW rLane rY := by
        have := List.append_cancel_left happ
        simpa using this.symm
      rw [he]
      exact hrej _ _ _ _ (by simpa using hr) x hx
    · have := congrArg List.length happ
      simp at this
  · intro winW rGate rLane rY coins obstacles bottles e happ x hx
    unfold spawnScoreCoin at happ
    dsimp only at happ
    split_ifs at happ with hgate hr
    · have := congrArg List.length happ
      simp at this
    · have he : e = coinCandidate A winW rLane rY := by
        have := List.append_cancel_left happ
        simpa using this.symm
      rw [he]
      exact hrej _ _ _ _ (by simpa using hr) x hx
    · have := congrArg List.length happ
      simp at this

/-- Witness for C9: 101 frames after a tree was spawned it has scrolled to
y = 204; the spawner then appends a second tree at y = -200, and the live
tree is at least 200 away from it. -/
theorem C9_spawn_spacing_witness :
    (run demoAssets treeInputs raceStart).trees = [⟨0, 204, 100, 200⟩] ∧
      ∀ x ∈ (run demoAssets treeInputs raceStart).trees,
        200 ≤ |x.y - (treeCandidate demoAssets (spawnTreeInput 16)
          (run demoAssets treeInputs raceStart)).y| :=
  ⟨by decide!,
    (C9_spawn_spacing demoAssets).2.1 _
      (Reachable.run_of demoAssets _ _ raceStart_reachable (by decide!))
      (spawnTreeInput 16) (run demoAssets treeInputs raceStart) _ rfl (by decide!)⟩

/-- Two boxes of heights between 0 and 100 whose tops are at least 100 apart
do not intersect. -/
theorem no_overlap_of_spacing (a b : Sprite) (ha0 : 0 ≤ a.h) (ha1 : a.h ≤ 100)
    (hb0 : 0 ≤ b.h) (hb1 : b.h ≤ 100) (h : 100 ≤ |a.y - b.y|) :
    a.getGlobalBounds.intersects b.getGlobalBounds = false := by
  have e1 : min a.y (a.y + a.h) = a.y := min_eq_left (by linarith)
  have e2 : min b.y (b.y + b.h) = b.y := min_eq_left (by linarith)
  have e3 : max a.y (a.y + a.h) = a.y + a.h := max_eq_right (by linarith)
  have e4 : max b.y (b.y + b.h) = b.y + b.h := max_eq_right (by linarith)
  have hv : ¬(max (min a.y (a.y + a.h)) (min b.y (b.y + b.h)) <
      min (max a.y (a.y + a.h)) (max b.y (b.y + b.h))) := by
    rw [e1, e2, e3, e4]
    intro hlt
    rcases le_abs.mp h with h1 | h1
    · have := lt_of_le_of_lt (le_max_left a.y b.y) (lt_of_lt_of_le hlt (min_le_right _ _))
      linarith
    · have := lt_of_le_of_lt (le_max_right a.y b.y) (lt_of_lt_of_le hlt (min_le_left _ _))
      linarith
  simp only [FloatRect.intersects, Sprite.getGlobalBounds, Bool.and_eq_false_iff,
    decide_eq_false_iff_not]
  exact Or.inr hv

/-- C10 as stated fails for obstacles: one frame after a bottle was spawned in
lane 1, the obstacle spawner appends an obstacle in lane 1 whose bounding box
intersects the bounding box of that live bottle; at the end of the frame both
are still there. -/
theorem C10_counterexample_obstacle_over_bottle :
    timeOK demoAssets
        [{ idleInput (51 / 10) with rBottleGate := 0, rBottleLane := 1, rBottleY := 37 },
          spawnObs (52 / 10)] raceStart = true ∧
      bottleAhead.gameState = GameState.GAME ∧ bottleAhead.obstacles = [] ∧
      bottleAhead.bottles = [⟨707 / 2, -56, 23, 23⟩] ∧
      (preObstacle demoAssets (spawnObs (52 / 10)) (1 / 10) bottleAhead).obstacles =
        bottleAhead.obstacles ++ [⟨345, -130, 40, 80⟩] ∧
      (preObstacle demoAssets (spawnObs (52 / 10)) (1 / 10) bottleAhead).bottles =
        bottleAhead.bottles ∧
      (⟨345, -130, 40, 80⟩ : Sprite).getGlobalBounds.intersects
        (⟨707 / 2, -56, 23, 23⟩ : Sprite).getGlobalBounds = true ∧
      (iteration demoAssets (spawnObs (52 / 10)) bottleAhead).obstacles =
        [⟨345, -126, 40, 80⟩] ∧
      (iteration demoAssets (spawnObs (52 / 10)) bottleAhead).bottles =
        [⟨707 / 2, -52, 23, 23⟩] := by
  decide!

/-- C10, amended. Whenever `spawnBottle` appends a bottle, its bounding box
intersects the box of no live obstacle and of no live coin, and of no live
bottle when both sprites are between 0 and 100 high; a bottle candidate that
overlaps an obstacle or a coin is rejected (vector unchanged). Whenever
`spawnScoreCoin` appends a coin, its box intersects the box of no live obstacle
and of no live bottle, and of no live coin when both sprites are between 0 and
100 high; a coin candidate that overlaps an obstacle or a bottle is rejected.
The obstacle spawner does not look at the bottle and coin vectors. -/
theorem C10_cross_type_overlap (A : Assets) :
    (∀ (winW rGate rLane rY : ℕ) (bottles obstacles coins : List Sprite) (e : Sprite),
        spawnBottle A winW rGate rLane rY bottles obstacles coins = bottles ++ [e] →
        (∀ o ∈ obstacles, e.getGlobalBounds.intersects o.getGlobalBounds = false) ∧
        (∀ c ∈ coins, e.getGlobalBounds.intersects c.getGlobalBounds = false) ∧
        (∀ b ∈ bottles, 0 ≤ b.h → b.h ≤ 100 → 0 ≤ e.h → e.h ≤ 100 →
          e.getGlobalBounds.intersects b.getGlobalBounds = false)) ∧
      (∀ (winW rGate rLane rY : ℕ) (bottles obstacles coins : List Sprite),
        (∃ o ∈ obstacles ++ coins, (bottleCandidate A winW rLane rY).getGlobalBounds.intersects
          o.getGlobalBounds = true) →
        spawnBottle A winW rGate rLane rY bottles obstacles coins = bottles) ∧
      (∀ (winW rGate rLane rY : ℕ) (coins obstacles bottles : List Sprite) (e : Sprite),
        spawnScoreCoin A winW rGate rLane rY coins obstacles bottles = coins ++ [e] →
        (∀ o ∈ obstacles, e.getGlobalBounds.intersects o.getGlobalBounds = false) ∧
        (∀ b ∈ bottles, e.getGlobalBounds.intersects b.getGlobalBounds = false) ∧
        (∀ c ∈ coins, 0 ≤ c.h → c.h ≤ 100 → 0 ≤ e.h → e.h ≤ 100 →
          e.getGlobalBounds.intersects c.getGlobalBounds = false)) ∧
      (∀ (winW rGate rLane rY : ℕ) (coins obstacles bottles : List Sprite),
        (∃ o ∈ obstacles ++ bottles, (coinCandidate A winW rLane rY).getGlobalBounds.intersects
          o.getGlobalBounds = true) →
        spawnScoreCoin A winW rGate rLane rY coins obstacles bottles = coins) ∧
      (∀ (inp : Input) (w : World) (bs cs : List Sprite),
        (spawnObstacle A inp { w with bottles := bs, coins := cs }).obstacles =
          (spawnObstacle A inp w).obstacles) := by
  have hrej : ∀ (cand : Sprite) (same o1 o2 : List Sprite),
      spawnRejected cand same o1 o2 = false →
      (∀ o ∈ o1, cand.getGlobalBounds.intersects o.getGlobalBounds = false) ∧
      (∀ o ∈ o2, cand.getGlobalBounds.intersects o.getGlobalBounds = false) ∧
      (∀ x ∈ same, 0 ≤ x.h → x.h ≤ 100 → 0 ≤ cand.h → cand.h ≤ 100 →
        cand.getGlobalBounds.intersects x.getGlobalBounds = false) := by
    intro cand same o1 o2 h
    simp only [spawnRejected, Bool.or_eq_false_iff, List.any_eq_false, decide_eq_true_eq,
      not_lt, Bool.not_eq_true] at h
    refine ⟨h.1.2, h.2, ?_⟩
    intro x hx h0 h1 h2 h3
    refine no_overlap_of_spacing cand x h2 h3 h0 h1 ?_
    rw [abs_sub_comm]
    exact h.1.1 x hx
  have hacc : ∀ (cand : Sprite) (same o1 o2 : List Sprite),
      (∃ o ∈ o1 ++ o2, cand.getGlobalBounds.intersects o.getGlobalBounds = true) →
      spawnRejected cand same o1 o2 = true := by
    intro cand same o1 o2 h
    obtain ⟨o, ho, hi⟩ := h
    simp only [spawnRejected, Bool.or_eq_true, List.any_eq_true]
    rcases List.mem_append.mp ho with ho | ho
    · exact Or.inl (Or.inr ⟨o, ho, hi⟩)
    · exact Or.inr ⟨o, ho, hi⟩
  refine ⟨?_, ?_, ?_, ?_, ?_⟩
  · intro winW rGate rLane rY bottles obstacles coins e happ
    unfold spawnBottle at happ
    dsimp only at happ
    split_ifs at happ with hgate hr
    · have := congrArg List.length happ
      simp at this
    · have he : e = bottleCandidate A winW rLane rY := by
        have := List.append_cancel_left happ
        simpa using this.symm
      rw [he]
      exact hrej _ _ _ _ (by simpa using hr)
    · have := congrArg List.length happ
      simp at this
  · intro winW rGate rLane rY bottles obstacles coins h
    unfold spawnBottle
    dsimp only
    rw [hacc _ bottles _ _ h]
    simp
  · intro winW rGate rLane rY coins obstacles bottles e happ
    unfold spawnScoreCoin at happ
    dsimp only at happ
    split_ifs at happ with hgate hr
    · have := congrArg List.length happ
      simp at this
    · have he : e = coinCandidate A winW rLane rY := by
        have := List.append_cancel_left happ
        simpa using this.symm
      rw [he]
      exact hrej _ _ _ _ (by simpa using hr)
    · have := congrArg List.length happ
      simp at this
  · intro winW rGate rLane rY coins obstacles bottles h
    unfold spawnScoreCoin
    dsimp only
    rw [hacc _ coins _ _ h]
    simp
  · intro inp w bs cs
    unfold spawnObstacle
    dsimp only
    split_ifs <;> rfl

/-- Witness for C10, amended: with an obstacle on the spawn spot of lane 1 the
bottle candidate is rejected; with the obstacle far below, the bottle is
appended and its box intersects neither the obstacle nor the live coin. -/
theorem C10_cross_type_overlap_witness :
    spawnBottle demoAssets 800 0 1 37 [] [⟨345, -130, 40, 80⟩] [] = [] ∧
      ((∀ o ∈ [(⟨345, 300, 40, 80⟩ : Sprite)],
          (bottleCandidate demoAssets 800 1 37).getGlobalBounds.intersects
            o.getGlobalBounds = false) ∧
        (∀ c ∈ [(⟨357, 100, 16, 16⟩ : Sprite)],
          (bottleCandidate demoAssets 800 1 37).getGlobalBounds.intersects
            c.getGlobalBounds = false) ∧
        (∀ b ∈ [(⟨707 / 2, 200, 23, 23⟩ : Sprite)], 0 ≤ b.h → b.h ≤ 100 →
          0 ≤ (bottleCandidate demoAssets 800 1 37).h →
          (bottleCandidate demoAssets 800 1 37).h ≤ 100 →
          (bottleCandidate demoAssets 800 1 37).getGlobalBounds.intersects
            b.getGlobalBounds = false)) :=
  ⟨(C10_cross_type_overlap demoAssets).2.1 800 0 1 37 [] [⟨345, -130, 40, 80⟩] []
      ⟨⟨345, -130, 40, 80⟩, by simp, by decide!⟩,
    (C10_cross_type_overlap demoAssets).1 800 0 1 37 [⟨707 / 2, 200, 23, 23⟩]
      [⟨345, 300, 40, 80⟩] [⟨357, 100, 16, 16⟩] _ (by decide!)⟩

/-- C11. Lane-centre mapping is monotone: `resetPlayer` puts the player at
`laneTargetX`, and for a positive road width, any viewport width and any
player width, the target of lane `a` is strictly left of the target of lane
`b` whenever 0 <= a < b <= LANES - 1; in particular lane 0 is left of lane
LANES - 1 = 3. -/
theorem C11_lane_target_monotone (A : Assets) (w : World) :
    (resetPlayer A w).player.x =
        laneTargetX (A.roadW : ℚ) w.winW w.playerLane w.player.w ∧
      (∀ (rw : ℚ) (winW : ℕ) (pw : ℚ) (a b : ℤ), 0 < rw → 0 ≤ a → a < b → b ≤ LANES - 1 →
        laneTargetX rw winW a pw < laneTargetX rw winW b pw) ∧
      (∀ (rw : ℚ) (winW : ℕ) (pw : ℚ), 0 < rw →
        laneTargetX rw winW 0 pw < laneTargetX rw winW (LANES - 1) pw) ∧
      LANES - 1 = 3 := by
  have hmono : ∀ (rw : ℚ) (winW : ℕ) (pw : ℚ) (a b : ℤ), 0 < rw → a < b →
      laneTargetX rw winW a pw < laneTargetX rw winW b pw := by
    intro rw winW pw a b hrw hab
    have hab2 : (a : ℚ) < (b : ℚ) := by exact_mod_cast hab
    simp only [laneTargetX, padLeft, padRight, LANES]
    have hw : 0 < (rw - (3 / 20 + 3 / 20) * rw) / ((4 : ℤ) : ℚ) := by
      norm_num
      linarith
    have := mul_lt_mul_of_pos_left (add_lt_add_right hab2 (1 / 2)) hw
    linarith
  refine ⟨rfl, fun rw winW pw a b hrw _ hab _ => hmono rw winW pw a b hrw hab, ?_, rfl⟩
  intro rw winW pw hrw
  exact hmono rw winW pw 0 (LANES - 1) hrw (by decide)

/-- Witness for C11: with the 400 px road in the 800 px window, the target of
lane 1 (x = 340) is left of the target of lane 2 (x = 410). -/
theorem C11_lane_target_monotone_witness :
    laneTargetX 400 800 1 50 = 340 ∧ laneTargetX 400 800 2 50 = 410 ∧
      laneTargetX 400 800 1 50 < laneTargetX 400 800 2 50 :=
  ⟨by decide!, by decide!,
    (C11_lane_target_monotone demoAssets raceStart).2.1 400 800 50 1 2 (by norm_num)
      (by decide) (by decide) (by decide)⟩

/-- The speed update writes `nextSpeed` of the previous speed. -/
theorem speedStep_speed (b c : Bool) (w : World) :
    (speedStep b c w).playerWorldSpeed = nextSpeed b c w.playerWorldSpeed := by
  unfold speedStep nextSpeed
  split_ifs <;> rfl

/-- The world speed after a game frame is `nextSpeed` of the speed at the
start of the frame: nothing after the speed update writes it. -/
theorem gameFrame_speed (A : Assets) (inp : Input) (dt : ℚ) (w : World) :
    (gameFrame A inp dt w).playerWorldSpeed =
      nextSpeed (boosting inp w) (braking inp) w.playerWorldSpeed := by
  rw [(gameFrame_finish A inp dt w).2.2.2.2.2.2.1]
  unfold afterControl
  rw [speedStep_speed]
  simp

/-- C12 as stated fails: at the race start with W (boost) and S (brake) both
held, boost is active and the frame leaves the world speed at 21/5, not 0. -/
theorem C12_counterexample_boost_beats_brake :
    braking { idleInput 6 with keyW := true, keyS := true } = true ∧
      raceStart.gameState = GameState.GAME ∧ raceStart.playerWorldSpeed = 4 ∧
      (gameFrame demoAssets { idleInput 6 with keyW := true, keyS := true } 1
        raceStart).playerWorldSpeed = 21 / 5 ∧
      (iteration demoAssets { idleInput 6 with keyW := true, keyS := true }
        raceStart).playerWorldSpeed = 21 / 5 := by
  decide!

/-- C12, amended. In every GAME / HIT frame in which a brake key is down and
boost is not active (boost key up, or stamina below MIN_STAMINA_TO_BOOST at the
start of the frame), the world speed is exactly 0 after the frame, whatever its
previous value; when boost is active it takes precedence and the speed becomes
min(speed + ACCEL, MAX_SPEED), brake or not. -/
theorem C12_brake_forces_zero (A : Assets) (inp : Input) (dt : ℚ) (w : World) :
    (braking inp = true → boosting inp w = false →
        (gameFrame A inp dt w).playerWorldSpeed = 0 ∧
        (speedStep (boosting inp w) (braking inp) w).playerWorldSpeed = 0) ∧
      (boosting inp w = true →
        (gameFrame A inp dt w).playerWorldSpeed = min (w.playerWorldSpeed + ACCEL) MAX_SPEED) ∧
      (boosting inp w = (boostKeyDown inp && decide (MIN_STAMINA_TO_BOOST ≤ w.stamina))) := by
  refine ⟨?_, ?_, rfl⟩
  · intro hb hn
    rw [gameFrame_speed, speedStep_speed, hb, hn]
    simp [nextSpeed]
  · intro hb
    rw [gameFrame_speed, hb]
    simp [nextSpeed]

/-- Witness for C12, amended: braking without boost at the race start stops the
world. -/
theorem C12_brake_forces_zero_witness :
    (gameFrame demoAssets { idleInput 6 with keyS := true } 1 raceStart).playerWorldSpeed = 0 ∧
      (speedStep (boosting { idleInput 6 with keyS := true } raceStart)
        (braking { idleInput 6 with keyS := true }) raceStart).playerWorldSpeed = 0 :=
  (C12_brake_forces_zero demoAssets { idleInput 6 with keyS := true } 1 raceStart).1
    (by decide) (by decide!)

/-- The finish tracker keeps the mode or enters FINISH. -/
theorem finishTrack_mode (now : ℚ) (w : World) :
    (finishTrack now w).gameState = w.gameState ∨
      (finishTrack now w).gameState = GameState.FINISH := by
  unfold finishTrack
  dsimp only
  split_ifs <;> simp

/-- The blink check keeps the mode or returns from HIT to GAME. -/
theorem hitBlink_mode (now : ℚ) (w : World) :
    (hitBlink now w).gameState = w.gameState ∨
      (w.gameState = GameState.HIT ∧ (hitBlink now w).gameState = GameState.GAME) := by
  unfold hitBlink
  dsimp only
  split_ifs with h1 h2
  · exact Or.inl rfl
  · exact Or.inr ⟨h1, rfl⟩
  · exact Or.inl rfl

/-- The mode after a game frame, in terms of the mode at its start. -/
theorem gameFrame_mode (A : Assets) (inp : Input) (dt : ℚ) (w : World) :
    (gameFrame A inp dt w).gameState = w.gameState ∨
      (gameFrame A inp dt w).gameState = GameState.FINISH ∨
      (w.gameState = GameState.GAME ∧ ((gameFrame A inp dt w).gameState = GameState.MENU ∨
        (gameFrame A inp dt w).gameState = GameState.HIT)) ∨
      (w.gameState = GameState.HIT ∧ (gameFrame A inp dt w).gameState = GameState.GAME) := by
  have hpre : preObstacle A inp dt w = spawnObstacle A inp (updateTrees (spawnTree A inp
      (finishTrack inp.now (finishSpawn A (afterControl inp dt w))))) := rfl
  have h1 : (preObstacle A inp dt w).gameState =
      (finishTrack inp.now (finishSpawn A (afterControl inp dt w))).gameState := by
    rw [hpre]
    simp
  have h0 : (finishSpawn A (afterControl inp dt w)).gameState = w.gameState := by
    unfold afterControl
    simp
  have m1 := finishTrack_mode inp.now (finishSpawn A (afterControl inp dt w))
  rw [← h1, h0] at m1
  have m2 := obstacleLoop_mode (braking inp) inp.now (preObstacle A inp dt w).obstacles
    (preObstacle A inp dt w)
  have h3 : (obstaclePass (braking inp) inp.now (preObstacle A inp dt w)).gameState =
      (obstacleLoop (braking inp) inp.now (preObstacle A inp dt w).obstacles
        (preObstacle A inp dt w)).2.gameState := rfl
  rw [← h3] at m2
  have m3 := hitBlink_mode inp.now (smoothLane A
    (obstaclePass (braking inp) inp.now (preObstacle A inp dt w)))
  rw [(smoothLane_keeps A _).1] at m3
  have h4 : (gameFrame A inp dt w).gameState =
      (hitBlink inp.now (smoothLane A
        (obstaclePass (braking inp) inp.now (preObstacle A inp dt w)))).gameState := by
    unfold gameFrame postObstacle
    simp
  rw [← h4] at m3
  generalize (gameFrame A inp dt w).gameState = g3 at m3 ⊢
  generalize (obstaclePass (braking inp) inp.now (preObstacle A inp dt w)).gameState = g2 at m2 m3
  generalize (preObstacle A inp dt w).gameState = g1 at m1 m2
  generalize w.gameState = g0 at m1 ⊢
  rcases m1 with a | a <;> rcases m2 with b | ⟨b, c | c⟩ <;>
    rcases m3 with d | ⟨d, e⟩ <;> simp_all

/-- C13 as stated fails: a reachable state in HIT mode (the trigger latched at
t = 9.7, a collision at t = 10.5) steps to FINISH at t = 11.7, and HIT to
FINISH is not among the listed transitions. -/
theorem C13_counterexample_hit_to_finish :
    timeOK sprintAssets (hitFinishInputs ++ [idleInput (117 / 10)]) (initWorld sprintAssets) =
        true ∧
      (run sprintAssets hitFinishInputs (initWorld sprintAssets)).gameState = GameState.HIT ∧
      (iteration sprintAssets (idleInput (117 / 10))
        (run sprintAssets hitFinishInputs (initWorld sprintAssets))).gameState =
          GameState.FINISH ∧
      (GameState.HIT, GameState.FINISH) ∉ legalTransitions := by
  decide!

/-- C13, amended. For every state, a main-loop event keeps the mode or moves
along MENU to LOADING, MENU to APROPOS or APROPOS to MENU; an iteration of the
finish-screen loop keeps the mode or moves from FINISH to MENU; the state
handling of a main-loop iteration keeps the mode or moves along LOADING to
GAME, GAME to HIT, GAME to MENU, GAME to FINISH, HIT to GAME or HIT to FINISH.
Hence every step keeps the mode or follows a listed transition or HIT to
FINISH, and FINISH is entered only from GAME or HIT. -/
theorem C13_mode_transitions (A : Assets) :
    (∀ (now : ℚ) (w : World) (ev : Event),
        (handleEvent A now w ev).gameState = w.gameState ∨
        (w.gameState, (handleEvent A now w ev).gameState) ∈
          [(GameState.MENU, GameState.LOADING), (GameState.MENU, GameState.APROPOS),
            (GameState.APROPOS, GameState.MENU)]) ∧
      (∀ (evs : List Event) (w : World),
        (finishLoopIteration evs w).gameState = w.gameState ∨
        (w.gameState, (finishLoopIteration evs w).gameState) =
          (GameState.FINISH, GameState.MENU)) ∧
      (∀ (inp : Input) (dt : ℚ) (w : World),
        (stateStep A inp dt w).gameState = w.gameState ∨
        (w.gameState, (stateStep A inp dt w).gameState) ∈
          [(GameState.LOADING, GameState.GAME), (GameState.GAME, GameState.HIT),
            (GameState.GAME, GameState.MENU), (GameState.GAME, GameState.FINISH),
            (GameState.HIT, GameState.GAME), (GameState.HIT, GameState.FINISH)]) ∧
      (∀ (inp : Input) (dt : ℚ) (w : World),
        (stateStep A inp dt w).gameState = GameState.FINISH →
        w.gameState = GameState.FINISH ∨ w.gameState = GameState.GAME ∨
          w.gameState = GameState.HIT) ∧
      (∀ p ∈ [(GameState.MENU, GameState.LOADING), (GameState.MENU, GameState.APROPOS),
          (GameState.APROPOS, GameState.MENU), (GameState.FINISH, GameState.MENU),
          (GameState.LOADING, GameState.GAME), (GameState.GAME, GameState.HIT),
          (GameState.GAME, GameState.MENU), (GameState.GAME, GameState.FINISH),
          (GameState.HIT, GameState.GAME), (GameState.HIT, GameState.FINISH)],
        p ∈ programTransitions) := by
  have hstate : ∀ (inp : Input) (dt : ℚ) (w : World),
      (stateStep A inp dt w).gameState = w.gameState ∨
      (w.gameState, (stateStep A inp dt w).gameState) ∈
        [(GameState.LOADING, GameState.GAME), (GameState.GAME, GameState.HIT),
          (GameState.GAME, GameState.MENU), (GameState.GAME, GameState.FINISH),
          (GameState.HIT, GameState.GAME), (GameState.HIT, GameState.FINISH)] := by
    intro inp dt w
    cases hg : w.gameState with
    | MENU => left; unfold stateStep; simp only [hg]
    | APROPOS => left; unfold stateStep; simp only [hg]
    | LOADING =>
      rw [stateStep_loading A inp dt w hg]
      unfold loadingStep
      dsimp only
      split_ifs
      · right; simp
      · left; exact hg
    | FINISH =>
      left
      unfold stateStep
      simp only [hg]
      simp [hg]
    | GAME =>
      rw [stateStep_game A inp dt w (Or.inl hg)]
      have := gameFrame_mode A inp dt w
      rw [hg] at this
      rcases this with h | h | ⟨_, h | h⟩ | ⟨h, _⟩
      · left; exact h
      · right; simp [h]
      · right; simp [h]
      · right; simp [h]
      · exact absurd h (by decide)
    | HIT =>
      rw [stateStep_game A inp dt w (Or.inr hg)]
      have := gameFrame_mode A inp dt w
      rw [hg] at this
      rcases this with h | h | ⟨h, _⟩ | ⟨_, h⟩
      · left; exact h
      · right; simp [h]
      · exact absurd h (by decide)
      · right; simp [h]
  refine ⟨?_, ?_, hstate, ?_, by decide⟩
  · intro now w ev
    cases ev with
    | Closed => left; rfl
    | Resized a b => left; simp [handleEvent]
    | KeyPressed code =>
      simp only [handleEvent]
      unfold handleKey
      split
      · rename_i hm
        split
        · left; rfl
        · left; rfl
        · dsimp only
          split_ifs
          · right; simp [hm]
          · right; simp [hm]
          · left; rfl
          · left; rfl
        · left; rfl
      · rename_i hm
        split
        · right; simp [hm]
        · left; rfl
      · split_ifs <;> (left; simp)
      · split_ifs <;> (left; simp)
      · left; rfl
    | MouseButtonPressed a b => left; rfl
    | Other => left; rfl
  · intro evs w
    by_cases hf : w.gameState = GameState.FINISH
    · have : ∀ (l : List Event) (w2 : World),
          w2.gameState = GameState.FINISH ∨ w2.gameState = GameState.MENU →
          (finishPollEvents l w2).gameState = GameState.FINISH ∨
            (finishPollEvents l w2).gameState = GameState.MENU := by
        intro l
        induction l with
        | nil => intro w2 h; exact h
        | cons ev rest ih =>
          intro w2 h
          unfold finishPollEvents
          split
          · exact h
          · exact ih _ (Or.inr rfl)
          · split_ifs
            · exact ih _ (Or.inr rfl)
            · exact ih _ h
          · exact ih _ h
      unfold finishLoopIteration
      rw [if_pos hf]
      dsimp only
      rcases this evs w (Or.inl hf) with h | h
      · left; rw [h, hf]
      · right; rw [h, hf]
    · left
      unfold finishLoopIteration
      rw [if_neg hf]
  · intro inp dt w h
    rcases hstate inp dt w with h2 | h2
    · left; rw [← h2]; exact h
    · rw [h] at h2
      simp at h2
      rcases h2 with h2 | h2
      · right; left; exact h2
      · right; right; exact h2

/-- Witness for C13, amended: the step into FINISH at t = 11.7 starts in HIT. -/
theorem C13_mode_transitions_witness :
    (run sprintAssets hitFinishInputs (initWorld sprintAssets)).gameState =
        GameState.FINISH ∨
      (run sprintAssets hitFinishInputs (initWorld sprintAssets)).gameState = GameState.GAME ∨
      (run sprintAssets hitFinishInputs (initWorld sprintAssets)).gameState = GameState.HIT :=
  (C13_mode_transitions sprintAssets).2.2.2.1 (idleInput (117 / 10)) (1 / 10)
    (run sprintAssets hitFinishInputs (initWorld sprintAssets)) (by decide!)

/-- The lane written by a key press of the main loop. -/
theorem handleKey_lane (A : Assets) (now : ℚ) (code : Key) (w : World) :
    (handleKey A now code w).playerLane = laneAfterKey w.gameState code w.playerLane := by
  by_cases hg : w.gameState = GameState.GAME ∨ w.gameState = GameState.HIT
  · have e : handleKey A now code w =
        (if (code = Key.A ∨ code = Key.Left) ∧ 0 < w.playerLane then
          resetPlayer A { w with playerLane := w.playerLane - 1 }
        else if (code = Key.D ∨ code = Key.Right) ∧ w.playerLane < LANES - 1 then
          resetPlayer A { w with playerLane := w.playerLane + 1 }
        else w) := by
      unfold handleKey
      split
      · rename_i hm
        rcases hg with h | h <;> rw [hm] at h <;> exact absurd h (by decide)
      · rename_i hm
        rcases hg with h | h <;> rw [hm] at h <;> exact absurd h (by decide)
      · rfl
      · rfl
      · rename_i h1 h2 h3 h4
        rcases hg with h | h
        · exact absurd h h3
        · exact absurd h h4
    rw [e]
    unfold laneAfterKey
    split_ifs <;> simp_all
  · have e : (handleKey A now code w).playerLane = w.playerLane := by
      unfold handleKey
      split
      · split <;> first | rfl | (dsimp only; split_ifs <;> rfl)
      · split <;> rfl
      · rename_i hm
        exact absurd (Or.inl hm) hg
      · rename_i hm
        exact absurd (Or.inr hm) hg
      · rfl
    rw [e]
    unfold laneAfterKey
    rw [if_neg (fun h => hg h.1), if_neg (fun h => hg h.1)]

/-- A key press keeps the lane valid. -/
theorem laneAfterKey_range (g : GameState) (code : Key) (lane : ℤ)
    (h : 0 ≤ lane ∧ lane ≤ LANES - 1) :
    0 ≤ laneAfterKey g code lane ∧ laneAfterKey g code lane ≤ LANES - 1 := by
  unfold laneAfterKey
  simp only [LANES] at *
  split_ifs with h1 h2
  · omega
  · omega
  · exact h

theorem handleEvent_laneOK (A : Assets) (now : ℚ) (w : World) (ev : Event) (h : LaneOK w) :
    LaneOK (handleEvent A now w ev) := by
  cases ev with
  | Closed => exact h
  | Resized a b => simpa [LaneOK, handleEvent] using h
  | KeyPressed code =>
    unfold LaneOK
    simp only [handleEvent]
    rw [handleKey_lane]
    exact laneAfterKey_range _ _ _ h
  | MouseButtonPressed a b => exact h
  | Other => exact h

theorem pollEvents_laneOK (A : Assets) (now : ℚ) (evs : List Event) (w : World)
    (h : LaneOK w) : LaneOK (pollEvents A now evs w) := by
  induction evs generalizing w with
  | nil => exact h
  | cons ev rest ih => exact ih _ (handleEvent_laneOK A now w ev h)

/-- A game frame keeps the lane index. -/
theorem gameFrame_lane (A : Assets) (inp : Input) (dt : ℚ) (w : World) :
    (gameFrame A inp dt w).playerLane = w.playerLane := by
  unfold gameFrame postObstacle preObstacle
  simp

theorem iteration_laneOK (A : Assets) (inp : Input) (w : World) (h : LaneOK w) :
    LaneOK (iteration A inp w) := by
  unfold iteration
  split_ifs
  · exact h
  · simpa [LaneOK] using h
  · dsimp only
    have h1 : LaneOK (pollEvents A inp.now inp.events { w with deltaClock := inp.now }) :=
      pollEvents_laneOK A inp.now inp.events _ h
    generalize pollEvents A inp.now inp.events { w with deltaClock := inp.now } = w1 at h1 ⊢
    unfold stateStep
    split
    · unfold loadingStep
      dsimp only
      split_ifs
      · simp [LaneOK, LANES]
      · exact h1
    · exact h1
    · exact h1
    · simpa [LaneOK] using h1
    · unfold LaneOK
      rw [gameFrame_lane]
      exact h1

/-- C14. Lane index stays in range: in every reachable state
0 <= playerLane <= LANES - 1 = 3; a key press of the main loop changes
playerLane by exactly 1 only when the mode is GAME or HIT, the key is a left
(A, Left) or right (D, Right) key and the result stays in range, and otherwise
(boundary lane, other key, or MENU, APROPOS, LOADING, FINISH) leaves it
unchanged. -/
theorem C14_lane_in_range (A : Assets) :
    (∀ w, Reachable A w → 0 ≤ w.playerLane ∧ w.playerLane ≤ LANES - 1) ∧ LANES - 1 = 3 ∧
      (∀ (now : ℚ) (w : World) (code : Key),
        (handleEvent A now w (Event.KeyPressed code)).playerLane =
          (if (w.gameState = GameState.GAME ∨ w.gameState = GameState.HIT) ∧
              (code = Key.A ∨ code = Key.Left) ∧ 0 < w.playerLane
            then w.playerLane - 1
            else if (w.gameState = GameState.GAME ∨ w.gameState = GameState.HIT) ∧
              (code = Key.D ∨ code = Key.Right) ∧ w.playerLane < LANES - 1
            then w.playerLane + 1
            else w.playerLane)) := by
  refine ⟨?_, rfl, ?_⟩
  · intro w h
    induction h with
    | init => simp [initWorld, LANES]
    | step w inp _ _ ih => exact iteration_laneOK A inp w ih
  · intro now w code
    simp only [handleEvent]
    rw [handleKey_lane]
    rfl

/-- Witness for C14: after a Right key press at the race start the lane is 2,
within range. -/
theorem C14_lane_in_range_witness :
    (iteration demoAssets { idleInput 6 with events := [Event.KeyPressed Key.Right] }
        raceStart).playerLane = 2 ∧
      0 ≤ (iteration demoAssets { idleInput 6 with events := [Event.KeyPressed Key.Right] }
        raceStart).playerLane ∧
      (iteration demoAssets { idleInput 6 with events := [Event.KeyPressed Key.Right] }
        raceStart).playerLane ≤ LANES - 1 :=
  ⟨by decide!, (C14_lane_in_range demoAssets).1 _
    (Reachable.step _ _ raceStart_reachable (by decide!))⟩

/-- The obstacle pass either processes no crash, or (from GAME only) exactly
one crash that costs one life and leaves MENU when no life remains. -/
theorem obstaclePass_lives (isBraking : Bool) (now : ℚ) (w : World) :
    ((obstaclePass isBraking now w).lives = w.lives ∧
        (obstaclePass isBraking now w).crashCount = w.crashCount ∧
        (obstaclePass isBraking now w).gameState = w.gameState) ∨
      (w.gameState = GameState.GAME ∧
        (obstaclePass isBraking now w).lives = w.lives - 1 ∧
        (obstaclePass isBraking now w).crashCount = w.crashCount + 1 ∧
        (w.lives - 1 ≤ 0 → (obstaclePass isBraking now w).gameState = GameState.MENU)) := by
  have e1 : (obstaclePass isBraking now w).lives =
      (obstacleLoop isBraking now w.obstacles w).2.lives := rfl
  have e2 : (obstaclePass isBraking now w).crashCount =
      (obstacleLoop isBraking now w.obstacles w).2.crashCount := rfl
  have e3 : (obstaclePass isBraking now w).gameState =
      (obstacleLoop isBraking now w.obstacles w).2.gameState := rfl
  rw [e1, e2, e3]
  by_cases hg : w.gameState = GameState.GAME
  · by_cases hex : ∃ o ∈ w.obstacles, hitsPlayer w.player isBraking o = true
    · obtain ⟨pre, o, post, hsplit, hpre, ho⟩ := exists_first_split _ _ hex
      have := obstacleLoop_first_crash isBraking now pre post o w hg hpre ho
      rw [← hsplit] at this
      refine Or.inr ⟨hg, this.2.1, this.2.2.1, ?_⟩
      intro hle
      rw [this.2.2.2.1, if_pos hle]
    · have := obstacleLoop_no_crash isBraking now w.obstacles w (Or.inr (by
        intro o ho
        by_contra hne
        exact hex ⟨o, ho, by simpa using hne⟩))
      exact Or.inl ⟨this.2.1, this.2.2.1, this.2.2.2.1⟩
  · have := obstacleLoop_no_crash isBraking now w.obstacles w (Or.inl hg)
    exact Or.inl ⟨this.2.1, this.2.2.1, this.2.2.2.1⟩

/-- Lives over a game frame: unchanged with no crash counted, or (only when the
frame starts in GAME) one less with one crash counted, ending in MENU when no
life remains. -/
theorem gameFrame_lives (A : Assets) (inp : Input) (dt : ℚ) (w : World) :
    ((gameFrame A inp dt w).lives = w.lives ∧
        (gameFrame A inp dt w).crashCount = w.crashCount) ∨
      (w.gameState = GameState.GAME ∧
        (gameFrame A inp dt w).lives = w.lives - 1 ∧
        (gameFrame A inp dt w).crashCount = w.crashCount + 1 ∧
        (w.lives - 1 ≤ 0 → (gameFrame A inp dt w).gameState = GameState.MENU)) := by
  obtain ⟨hlv, hcc, -, -⟩ := preObstacle_before_pass A inp dt w
  obtain ⟨-, q2, q3, q4, -⟩ := postObstacle_after_pass A inp
    (obstaclePass (braking inp) inp.now (preObstacle A inp dt w))
  have hg : (gameFrame A inp dt w) = postObstacle A inp
      (obstaclePass (braking inp) inp.now (preObstacle A inp dt w)) := rfl
  have hmode : (preObstacle A inp dt w).gameState = GameState.GAME →
      w.gameState = GameState.GAME := by
    intro h
    have hpre : preObstacle A inp dt w = spawnObstacle A inp (updateTrees (spawnTree A inp
        (finishTrack inp.now (finishSpawn A (afterControl inp dt w))))) := rfl
    have h1 : (preObstacle A inp dt w).gameState =
        (finishTrack inp.now (finishSpawn A (afterControl inp dt w))).gameState := by
      rw [hpre]
      simp
    have h0 : (finishSpawn A (afterControl inp dt w)).gameState = w.gameState := by
      unfold afterControl
      simp
    rcases finishTrack_mode inp.now (finishSpawn A (afterControl inp dt w)) with m | m
    · rw [← h0, ← m, ← h1]
      exact h
    · rw [h1, m] at h
      exact absurd h (by decide)
  rcases obstaclePass_lives (braking inp) inp.now (preObstacle A inp dt w) with
    ⟨a, b, -⟩ | ⟨g, a, b, c⟩
  · left
    rw [hg, q2, q3, a, b, hlv, hcc]
    exact ⟨rfl, rfl⟩
  · right
    rw [hlv] at a c
    rw [hcc] at b
    refine ⟨hmode g, ?_, ?_, ?_⟩
    · rw [hg, q2, a]
    · rw [hg, q3, b]
    · intro hle
      rw [hg]
      exact q4 (c hle)

/-- The event loop of the finish screen keeps the lives or resets them to 3,
and ends in the mode it started in or in MENU. -/
theorem finishPollEvents_lives (evs : List Event) (w : World) :
    ((finishPollEvents evs w).lives = w.lives ∧
        (finishPollEvents evs w).gameState = w.gameState) ∨
      ((finishPollEvents evs w).lives = 3 ∧
        (finishPollEvents evs w).gameState = GameState.MENU) := by
  have hback : ∀ (l : List Event) (w2 : World), w2.lives = 3 →
      w2.gameState = GameState.MENU →
      (finishPollEvents l w2).lives = 3 ∧ (finishPollEvents l w2).gameState = GameState.MENU := by
    intro l
    induction l with
    | nil => intro w2 h1 h2; exact ⟨h1, h2⟩
    | cons ev rest ih =>
      intro w2 h1 h2
      unfold finishPollEvents
      split
      · exact ⟨h1, h2⟩
      · exact ih _ rfl rfl
      · split_ifs
        · exact ih _ rfl rfl
        · exact ih _ h1 h2
      · exact ih _ h1 h2
  induction evs generalizing w with
  | nil => exact Or.inl ⟨rfl, rfl⟩
  | cons ev rest ih =>
    unfold finishPollEvents
    split
    · exact Or.inl ⟨rfl, rfl⟩
    · exact Or.inr (hback rest (backToMenu w) rfl rfl)
    · split_ifs
      · exact Or.inr (hback rest (backToMenu w) rfl rfl)
      · exact ih w
    · exact ih w

/-- A program step that runs no game frame keeps the lives together with the
mode, or keeps the lives and ends outside GAME and HIT, or sets the lives
to 3. -/
theorem iteration_nongame_lives (A : Assets) (inp : Input) (w : World)
    (h : ¬(w.windowOpen = true ∧ w.inFinishLoop = false ∧
      (w.gameState = GameState.GAME ∨ w.gameState = GameState.HIT))) :
    ((iteration A inp w).lives = w.lives ∧ (iteration A inp w).crashCount = w.crashCount ∧
        ((iteration A inp w).gameState = w.gameState ∨
          ¬((iteration A inp w).gameState = GameState.GAME ∨
            (iteration A inp w).gameState = GameState.HIT))) ∨
      ((iteration A inp w).lives = 3 ∧ (iteration A inp w).crashCount = w.crashCount) := by
  unfold iteration
  by_cases ho : w.windowOpen = true
  · by_cases hf : w.inFinishLoop = false
    · rw [if_neg (by simp [ho]), if_neg (by simp [hf])]
      dsimp only
      have hmode : ¬(w.gameState = GameState.GAME ∨ w.gameState = GameState.HIT) :=
        fun hg => h ⟨ho, hf, hg⟩
      obtain ⟨m, -⟩ := pollEvents_mode_flags A inp.now inp.events { w with deltaClock := inp.now }
      have hl : (pollEvents A inp.now inp.events { w with deltaClock := inp.now }).lives =
          w.lives := by simp
      have hc : (pollEvents A inp.now inp.events { w with deltaClock := inp.now }).crashCount =
          w.crashCount := by simp
      have hmode1 : ¬((pollEvents A inp.now inp.events { w with deltaClock := inp.now }).gameState =
          GameState.GAME ∨
          (pollEvents A inp.now inp.events { w with deltaClock := inp.now }).gameState =
          GameState.HIT) := by
        intro hg
        rcases hg with hg | hg
        · exact hmode (Or.inl (m _ (Or.inl rfl) hg))
        · exact hmode (Or.inr (m _ (Or.inr (Or.inl rfl)) hg))
      generalize pollEvents A inp.now inp.events { w with deltaClock := inp.now } = w1
        at hl hc hmode1 ⊢
      unfold stateStep
      split
      · unfold loadingStep
        dsimp only
        split_ifs
        · exact Or.inr ⟨by simp, by simpa using hc⟩
        · exact Or.inl ⟨hl, hc, Or.inr hmode1⟩
      · exact Or.inl ⟨hl, hc, Or.inr hmode1⟩
      · exact Or.inl ⟨hl, hc, Or.inr hmode1⟩
      · refine Or.inl ⟨by simpa using hl, by simpa using hc, Or.inr ?_⟩
        simpa using hmode1
      · rename_i h1 h2 h3 h4
        exfalso
        apply hmode1
        cases hg : w1.gameState <;> simp_all
    · rw [if_neg (by simp [ho]), if_pos (by simpa using hf)]
      unfold finishLoopIteration
      split_ifs with hfin
      · dsimp only
        have hcc : (finishPollEvents inp.events w).crashCount = w.crashCount := by
          obtain ⟨_, _, _, _, _, _, _, e⟩ := finishPollEvents_frame inp.events w
          rw [e]
        rcases finishPollEvents_lives inp.events w with ⟨a, b⟩ | ⟨a, b⟩
        · exact Or.inl ⟨a, hcc, Or.inl b⟩
        · exact Or.inr ⟨a, hcc⟩
      · exact Or.inl ⟨rfl, rfl, Or.inl rfl⟩
  · rw [if_pos (by simpa using ho)]
    exact Or.inl ⟨rfl, rfl, Or.inl rfl⟩

/-- Every program step keeps the lives within range. -/
theorem iteration_livesOK (A : Assets) (inp : Input) (w : World) (h : LivesOK w) :
    LivesOK (iteration A inp w) := by
  obtain ⟨h0, h3, h1⟩ := h
  by_cases hgame : w.windowOpen = true ∧ w.inFinishLoop = false ∧
      (w.gameState = GameState.GAME ∨ w.gameState = GameState.HIT)
  · obtain ⟨ho, hf, hg⟩ := hgame
    obtain ⟨wo, ww, wh, pl, ln, e⟩ := iteration_game A inp w hg ho hf
    rw [e]
    have hone := h1 hg
    rcases gameFrame_lives A inp (inp.now - w.deltaClock)
        { w with deltaClock := inp.now, windowOpen := wo, winW := ww, winH := wh, player := pl,
                 playerLane := ln } with ⟨a, -⟩ | ⟨-, a, -, c⟩
    · dsimp only at a
      unfold LivesOK
      rw [a]
      exact ⟨h0, h3, fun _ => hone⟩
    · dsimp only at a c
      unfold LivesOK
      rw [a]
      refine ⟨by linarith, by linarith, ?_⟩
      intro hm
      by_contra hlt
      have hle : w.lives - 1 ≤ 0 := by linarith
      have := c hle
      rw [this] at hm
      rcases hm with hm | hm <;> exact absurd hm (by decide)
  · rcases iteration_nongame_lives A inp w hgame with ⟨a, -, b⟩ | ⟨a, -⟩
    · unfold LivesOK
      rw [a]
      refine ⟨h0, h3, ?_⟩
      intro hm
      rcases b with b | b
      · rw [b] at hm
        exact h1 hm
      · exact absurd hm b
    · unfold LivesOK
      rw [a]
      exact ⟨by norm_num, le_refl _, fun _ => by norm_num⟩

/-- C15. Lives stay in range: in every reachable state 0 <= lives <= 3, and
lives >= 1 whenever the mode is GAME or HIT (so whenever a frame starts in
Playing or Hit). Over any program step lives is unchanged with no crash
counted, or drops by exactly 1 with exactly one crash counted in a step that
starts in GAME, or is reset to 3; a step that starts in HIT never changes
lives. -/
theorem C15_lives_in_range (A : Assets) :
    (∀ w, Reachable A w → 0 ≤ w.lives ∧ w.lives ≤ 3 ∧
        ((w.gameState = GameState.GAME ∨ w.gameState = GameState.HIT) → 1 ≤ w.lives)) ∧
      (∀ (inp : Input) (w : World),
        ((iteration A inp w).lives = w.lives ∧ (iteration A inp w).crashCount = w.crashCount) ∨
        (w.gameState = GameState.GAME ∧ (iteration A inp w).lives = w.lives - 1 ∧
          (iteration A inp w).crashCount = w.crashCount + 1) ∨
        ((iteration A inp w).lives = 3 ∧ (iteration A inp w).crashCount = w.crashCount)) ∧
      (∀ (inp : Input) (w : World), w.gameState = GameState.HIT →
        (iteration A inp w).lives = w.lives) := by
  have hstep : ∀ (inp : Input) (w : World),
      ((iteration A inp w).lives = w.lives ∧ (iteration A inp w).crashCount = w.crashCount) ∨
      (w.gameState = GameState.GAME ∧ (iteration A inp w).lives = w.lives - 1 ∧
        (iteration A inp w).crashCount = w.crashCount + 1) ∨
      ((iteration A inp w).lives = 3 ∧ (iteration A inp w).crashCount = w.crashCount) := by
    intro inp w
    by_cases hgame : w.windowOpen = true ∧ w.inFinishLoop = false ∧
        (w.gameState = GameState.GAME ∨ w.gameState = GameState.HIT)
    · obtain ⟨ho, hf, hg⟩ := hgame
      obtain ⟨wo, ww, wh, pl, ln, e⟩ := iteration_game A inp w hg ho hf
      rw [e]
      rcases gameFrame_lives A inp (inp.now - w.deltaClock)
          { w with deltaClock := inp.now, windowOpen := wo, winW := ww, winH := wh, player := pl,
                   playerLane := ln } with ⟨a, b⟩ | ⟨g, a, b, -⟩
      · exact Or.inl ⟨a, b⟩
      · exact Or.inr (Or.inl ⟨g, a, b⟩)
    · rcases iteration_nongame_lives A inp w hgame with ⟨a, b, -⟩ | ⟨a, b⟩
      · exact Or.inl ⟨a, b⟩
      · exact Or.inr (Or.inr ⟨a, b⟩)
  refine ⟨?_, hstep, ?_⟩
  · intro w h
    have : LivesOK w := by
      induction h with
      | init => simp [LivesOK, initWorld]
      | step w inp _ _ ih => exact iteration_livesOK A inp w ih
    exact this
  · intro inp w hhit
    by_cases hgame : w.windowOpen = true ∧ w.inFinishLoop = false ∧
        (w.gameState = GameState.GAME ∨ w.gameState = GameState.HIT)
    · obtain ⟨ho, hf, hg⟩ := hgame
      obtain ⟨wo, ww, wh, pl, ln, e⟩ := iteration_game A inp w hg ho hf
      rw [e]
      rcases gameFrame_lives A inp (inp.now - w.deltaClock)
          { w with deltaClock := inp.now, windowOpen := wo, winW := ww, winH := wh, player := pl,
                   playerLane := ln } with ⟨a, -⟩ | ⟨g, -, -, -⟩
      · exact a
      · dsimp only at g
        rw [hhit] at g
        exact absurd g (by decide)
    · unfold iteration
      by_cases ho : w.windowOpen = true
      · have hf : w.inFinishLoop = true := by
          by_contra hcon
          exact hgame ⟨ho, by simpa using hcon, Or.inr hhit⟩
        rw [if_neg (by simp [ho]), if_pos hf]
        unfold finishLoopIteration
        rw [if_neg (by rw [hhit]; decide)]
      · rw [if_pos (by simpa using ho)]

/-- Witness for C15: the frame at t = 10.5 of the HIT-to-FINISH race starts in
GAME with 3 lives and ends with 2 lives and one crash counted. -/
theorem C15_lives_in_range_witness :
    (run sprintAssets (hitFinishInputs.take 57) (initWorld sprintAssets)).lives = 2 ∧
      0 ≤ (run sprintAssets (hitFinishInputs.take 57) (initWorld sprintAssets)).lives ∧
      (run sprintAssets (hitFinishInputs.take 57) (initWorld sprintAssets)).lives ≤ 3 ∧
      (((run sprintAssets (hitFinishInputs.take 57) (initWorld sprintAssets)).gameState =
          GameState.GAME ∨
        (run sprintAssets (hitFinishInputs.take 57) (initWorld sprintAssets)).gameState =
          GameState.HIT) →
        1 ≤ (run sprintAssets (hitFinishInputs.take 57) (initWorld sprintAssets)).lives) :=
  ⟨by decide!, (C15_lives_in_range sprintAssets).1 _
    (Reachable.run_of sprintAssets _ _ Reachable.init (by decide!))⟩

/-- C16 (the code departs from the claim). At the race start the player is in
lane 1 at x = 340. A Right key press is accepted, sets the lane to 2 and, by
its call of `resetPlayer`, moves the player to x = 410 at the moment of the
event: a jump of 70, not a step of at most 5. The frame of the same loop
iteration finds the player on its target and the smoothing block changes
nothing. `resetPlayer` always writes the lane target. -/
theorem C16_lane_key_snaps_player :
    (raceStart.gameState = GameState.GAME ∧ raceStart.playerLane = 1 ∧
        raceStart.player.x = 340 ∧
        (handleEvent demoAssets 6 raceStart (Event.KeyPressed Key.Right)).playerLane = 2 ∧
        (handleEvent demoAssets 6 raceStart (Event.KeyPressed Key.Right)).player.x = 410 ∧
        (smoothLane demoAssets
          (handleEvent demoAssets 6 raceStart (Event.KeyPressed Key.Right))).player.x = 410 ∧
        (iteration demoAssets { idleInput 6 with events := [Event.KeyPressed Key.Right] }
          raceStart).player.x = 410) ∧
      ∀ (A : Assets) (w : World),
        (resetPlayer A w).player.x = laneTargetX (A.roadW : ℚ) w.winW w.playerLane w.player.w :=
  ⟨by decide!, fun _ _ => rfl⟩

/-- One smoothing step never increases the distance to the target. -/
theorem smoothX_dist (x t : ℚ) : |smoothX x t - t| ≤ |x - t| := by
  unfold smoothX
  split_ifs with h1 h2
  · rw [abs_of_neg (by linarith), abs_of_neg (by linarith)]
    linarith
  · rw [abs_of_pos (by linarith), abs_of_pos (by linarith)]
    linarith
  · simp

/-- After `n` smoothing steps the player is on the target, provided the start
is within `5 * n` of it. -/
theorem smoothX_iterate (t : ℚ) (n : ℕ) (x : ℚ) (h : |x - t| ≤ 5 * (n : ℚ)) :
    (fun y => smoothX y t)^[n] x = t := by
  induction n generalizing x with
  | zero =>
    have h0 : |x - t| = 0 := le_antisymm (by simpa using h) (abs_nonneg _)
    have : x - t = 0 := abs_eq_zero.mp h0
    simp only [Function.iterate_zero, id_eq]
    linarith
  | succ n ih =>
    rw [Function.iterate_succ, Function.comp_apply]
    apply ih
    push_cast at h
    unfold smoothX
    split_ifs with h1 h2
    · rw [abs_of_neg (by linarith)] at h
      rw [abs_of_neg (by linarith)]
      linarith
    · rw [abs_of_pos (by linarith)] at h
      rw [abs_of_pos (by linarith)]
      linarith
    · simp

/-- C17. Smoothing step converges without overshoot: the smoothing block sets
the player x to `smoothX x t` for the lane target t; `smoothX x t` is x + 5 if
x + 5 < t, x - 5 if x - 5 > t, and exactly t otherwise; hence the distance to
t never grows, x' never lies on the other side of t, t is a fixed point, and
with a fixed target the position equals t after any number of steps that is at
least ceil(|x - t| / 5), so it is reached after at most that many and then
kept. -/
theorem C17_smoothing_converges :
    (∀ (A : Assets) (w : World),
        (smoothLane A w).player.x =
          smoothX w.player.x (laneTargetX (A.roadW : ℚ) w.winW w.playerLane w.player.w)) ∧
      (∀ x t : ℚ, smoothX x t =
        if x + 5 < t then x + 5 else if x - 5 > t then x - 5 else t) ∧
      (∀ x t : ℚ, |smoothX x t - t| ≤ |x - t|) ∧
      (∀ x t : ℚ, (x ≤ t → smoothX x t ≤ t) ∧ (t ≤ x → t ≤ smoothX x t)) ∧
      (∀ t : ℚ, smoothX t t = t) ∧
      (∀ (x t : ℚ) (n : ℕ), ⌈|x - t| / 5⌉₊ ≤ n → (fun y => smoothX y t)^[n] x = t) := by
  refine ⟨fun _ _ => rfl, fun _ _ => rfl, smoothX_dist, ?_, ?_, ?_⟩
  · intro x t
    unfold smoothX
    refine ⟨fun h => ?_, fun h => ?_⟩
    · split_ifs <;> linarith
    · split_ifs <;> linarith
  · intro t
    unfold smoothX
    rw [if_neg (by linarith), if_neg (by linarith)]
  · intro x t n hn
    apply smoothX_iterate
    have h1 : |x - t| / 5 ≤ (⌈|x - t| / 5⌉₊ : ℚ) := Nat.le_ceil _
    have h2 : (⌈|x - t| / 5⌉₊ : ℚ) ≤ (n : ℚ) := by exact_mod_cast hn
    linarith

/-- Witness for C17: from x = 340 the target 410 is 70 away, reached after
ceil(70 / 5) = 14 steps. -/
theorem C17_smoothing_converges_witness :
    (fun y => smoothX y 410)^[14] 340 = 410 ∧ smoothX 340 410 = 345 :=
  ⟨C17_smoothing_converges.2.2.2.2.2 340 410 14 (by
      norm_num [Nat.ceil_le]), by decide!⟩

/-- The speed update without boost and brake, in closed form. -/
theorem nextSpeed_coast (s : ℚ) :
    nextSpeed false false s =
      if s < 4 then min (s + 1 / 5) 4 else if 4 < s then max (s - 1 / 2) 4 else 4 := by
  unfold nextSpeed
  simp only [ACCEL, DEFAULT_SPEED, BRAKE_FORCE, Bool.false_eq_true, if_false]
  split_ifs with h1 h2
  · rfl
  · rfl
  · linarith [not_lt.mp h1, not_lt.mp h2]

/-- From below, `n` coasting steps reach the cruising speed when the gap is at
most `n / 5`. -/
theorem nextSpeed_iterate_below (n : ℕ) (s : ℚ) (hs : s ≤ 4) (h : 4 - s ≤ (n : ℚ) * (1 / 5)) :
    (nextSpeed false false)^[n] s = 4 := by
  induction n generalizing s with
  | zero =>
    simp only [Function.iterate_zero, id_eq]
    simp only [Nat.cast_zero, zero_mul] at h
    linarith
  | succ n ih =>
    rw [Function.iterate_succ, Function.comp_apply]
    push_cast at h
    rw [nextSpeed_coast]
    split_ifs with h1 h2
    · exact ih _ (min_le_right _ _) (by
        rcases le_total (s + 1 / 5) 4 with hc | hc
        · rw [min_eq_left hc]
          linarith
        · rw [min_eq_right hc]
          have : (0 : ℚ) ≤ (n : ℚ) := Nat.cast_nonneg n
          linarith)
    · linarith
    · exact ih 4 (le_refl _) (by
        have : (0 : ℚ) ≤ (n : ℚ) := Nat.cast_nonneg n
        linarith)

/-- From above, `n` coasting steps reach the cruising speed when the gap is at
most `n / 2`. -/
theorem nextSpeed_iterate_above (n : ℕ) (s : ℚ) (hs : 4 ≤ s) (h : s - 4 ≤ (n : ℚ) * (1 / 2)) :
    (nextSpeed false false)^[n] s = 4 := by
  have h4 : ∀ m : ℕ, (nextSpeed false false)^[m] 4 = 4 := by
    intro m
    induction m with
    | zero => rfl
    | succ m ihm =>
      rw [Function.iterate_succ, Function.comp_apply, nextSpeed_coast]
      simpa using ihm
  induction n generalizing s with
  | zero =>
    simp only [Function.iterate_zero, id_eq]
    simp only [Nat.cast_zero, zero_mul] at h
    linarith
  | succ n ih =>
    rw [Function.iterate_succ, Function.comp_apply]
    push_cast at h
    rw [nextSpeed_coast]
    split_ifs with h1 h2
    · linarith
    · exact ih _ (le_max_right _ _) (by
        rcases le_total 4 (s - 1 / 2) with hc | hc
        · rw [max_eq_left hc]
          linarith
        · rw [max_eq_right hc]
          have : (0 : ℚ) ≤ (n : ℚ) := Nat.cast_nonneg n
          linarith)
    · exact h4 n

/-- Over a coasting run the world speed is the iterated coasting update. -/
theorem coasting_speed (A : Assets) (inps : List Input) (w : World)
    (h : coasting A inps w = true) :
    (run A inps w).playerWorldSpeed =
      (nextSpeed false false)^[inps.length] w.playerWorldSpeed := by
  induction inps generalizing w with
  | nil => rfl
  | cons inp rest ih =>
    simp only [coasting, Bool.and_eq_true, Bool.or_eq_true, decide_eq_true_eq,
      Bool.not_eq_true'] at h
    obtain ⟨⟨⟨⟨⟨ho, hf⟩, hg⟩, hb⟩, hbr⟩, hr⟩ := h
    have e := iteration_game_eq A inp w hg ho hf
    have p1 : (pollEvents A inp.now inp.events { w with deltaClock := inp.now }).stamina =
        w.stamina := by simp
    have p2 : (pollEvents A inp.now inp.events
        { w with deltaClock := inp.now }).playerWorldSpeed = w.playerWorldSpeed := by simp
    have hs : (iteration A inp w).playerWorldSpeed =
        nextSpeed false false w.playerWorldSpeed := by
      have hb2 : ∀ w2 : World, w2.stamina = w.stamina → boosting inp w2 = boosting inp w := by
        intro w2 h2
        unfold boosting
        rw [h2]
      rw [e, gameFrame_speed, hb2 _ p1, p2, hb, hbr]
    simp only [run, List.length_cons, Function.iterate_succ, Function.comp_apply]
    rw [ih _ hr, hs]

/-- C18. Asymmetric return to cruise: in a frame with neither boost active nor
a brake key down the world speed s becomes min(s + 0.2, 4) if s < 4,
max(s - 0.5, 4) if s > 4, and stays 4 if s = 4; the speed never crosses
DEFAULT_SPEED = 4, its distance to 4 never grows, 4 is a fixed point, and over
a run of such frames the speed is exactly 4 after any number of frames that is
at least ceil((4 - s) / 0.2) from below and ceil((s - 4) / 0.5) from above. -/
theorem C18_return_to_cruise (A : Assets) :
    (∀ (inp : Input) (dt : ℚ) (w : World), boosting inp w = false → braking inp = false →
        (gameFrame A inp dt w).playerWorldSpeed =
          (if w.playerWorldSpeed < 4 then min (w.playerWorldSpeed + 1 / 5) 4
            else if 4 < w.playerWorldSpeed then max (w.playerWorldSpeed - 1 / 2) 4 else 4)) ∧
      (∀ s : ℚ, (s ≤ 4 → nextSpeed false false s ≤ 4) ∧ (4 ≤ s → 4 ≤ nextSpeed false false s) ∧
        |nextSpeed false false s - 4| ≤ |s - 4|) ∧
      nextSpeed false false 4 = 4 ∧ DEFAULT_SPEED = 4 ∧
      (∀ (inps : List Input) (w : World), coasting A inps w = true →
        w.playerWorldSpeed ≤ 4 → ⌈(4 - w.playerWorldSpeed) / (1 / 5)⌉₊ ≤ inps.length →
        (run A inps w).playerWorldSpeed = 4) ∧
      (∀ (inps : List Input) (w : World), coasting A inps w = true →
        4 ≤ w.playerWorldSpeed → ⌈(w.playerWorldSpeed - 4) / (1 / 2)⌉₊ ≤ inps.length →
        (run A inps w).playerWorldSpeed = 4) := by
  refine ⟨?_, ?_, ?_, rfl, ?_, ?_⟩
  · intro inp dt w hb hbr
    rw [gameFrame_speed, hb, hbr, nextSpeed_coast]
  · intro s
    rw [nextSpeed_coast]
    refine ⟨fun h => ?_, fun h => ?_, ?_⟩
    · split_ifs
      · exact min_le_right _ _
      · linarith
      · exact le_refl _
    · split_ifs
      · linarith
      · exact le_max_right _ _
      · exact le_refl _
    · split_ifs with h1 h2
      · rw [abs_of_nonpos (by linarith [min_le_right (s + 1 / 5) 4]), abs_of_neg (by linarith)]
        have : s ≤ min (s + 1 / 5) 4 := le_min (by linarith) (by linarith)
        linarith
      · rw [abs_of_nonneg (by linarith [le_max_right (s - 1 / 2) 4]), abs_of_pos (by linarith)]
        have : max (s - 1 / 2) 4 ≤ s := max_le (by linarith) (by linarith)
        linarith
      · simp
  · rw [nextSpeed_coast]
    simp
  · intro inps w hc hs hn
    rw [coasting_speed A inps w hc]
    apply nextSpeed_iterate_below _ _ hs
    have h1 : (4 - w.playerWorldSpeed) / (1 / 5) ≤
        (⌈(4 - w.playerWorldSpeed) / (1 / 5)⌉₊ : ℚ) := Nat.le_ceil _
    have h2 : (⌈(4 - w.playerWorldSpeed) / (1 / 5)⌉₊ : ℚ) ≤ (inps.length : ℚ) := by
      exact_mod_cast hn
    have h3 := le_trans h1 h2
    rw [div_le_iff₀ (by norm_num)] at h3
    exact h3
  · intro inps w hc hs hn
    rw [coasting_speed A inps w hc]
    apply nextSpeed_iterate_above _ _ hs
    have h1 : (w.playerWorldSpeed - 4) / (1 / 2) ≤
        (⌈(w.playerWorldSpeed - 4) / (1 / 2)⌉₊ : ℚ) := Nat.le_ceil _
    have h2 : (⌈(w.playerWorldSpeed - 4) / (1 / 2)⌉₊ : ℚ) ≤ (inps.length : ℚ) := by
      exact_mod_cast hn
    have h3 := le_trans h1 h2
    rw [div_le_iff₀ (by norm_num)] at h3
    exact h3

/-- Witness for C18: after three boosted frames the speed is 23/5; two frames
without boost and brake, ceil(0.6 / 0.5) = 2, bring it back to exactly 4. -/
theorem C18_return_to_cruise_witness :
    boostedStart.playerWorldSpeed = 23 / 5 ∧
      (run demoAssets (framesFrom (53 / 10) 2 idleInput) boostedStart).playerWorldSpeed = 4 :=
  ⟨by decide!,
    (C18_return_to_cruise demoAssets).2.2.2.2.2 (framesFrom (53 / 10) 2 idleInput) boostedStart
      (by decide!) (by decide!) (by decide!)⟩

/-- C19. Per-frame stamina update with double regeneration: for every stamina s
at the start of a frame (in particular every s in [0, 5]) and dt >= 0, the
controller (before pickups) leaves min(5, max(0, s - 3 dt) + 0.5 dt) when boost
is active (boost key down and s >= MIN_STAMINA_TO_BOOST = 0.5) and
min(5, s + 2 * 0.5 * dt) when boost is not active, whether or not a brake key is
down; nothing between the controller and the bottle update writes stamina. -/
theorem C19_stamina_update (A : Assets) (inp : Input) (dt : ℚ) (w : World) (hdt : 0 ≤ dt) :
    (boosting inp w = true →
        (afterControl inp dt w).stamina = min 5 (max 0 (w.stamina - 3 * dt) + 1 / 2 * dt)) ∧
      (boosting inp w = false →
        (afterControl inp dt w).stamina = min 5 (w.stamina + 2 * (1 / 2) * dt)) ∧
      (boosting inp w = (boostKeyDown inp && decide (MIN_STAMINA_TO_BOOST ≤ w.stamina))) ∧
      MIN_STAMINA_TO_BOOST = 1 / 2 ∧
      (spawnBottleCall A inp (hitBlink inp.now (smoothLane A
        (obstaclePass (braking inp) inp.now (preObstacle A inp dt w))))).stamina =
          (afterControl inp dt w).stamina := by
  refine ⟨?_, ?_, rfl, rfl, ?_⟩
  · intro hb
    have hb2 := hb
    simp only [boosting, Bool.and_eq_true, decide_eq_true_eq] at hb2
    unfold afterControl regenStep boostStep
    simp only [hb, hb2.1, hb2.2, speedStep_keeps, if_true, Bool.not_true, Bool.false_eq_true,
      if_false]
    split_ifs <;> simp [MAX_STAMINA, STAMINA_REGEN, STAMINA_DRAIN]
  · intro hb
    have hval : min MAX_STAMINA (min MAX_STAMINA (w.stamina + STAMINA_REGEN * dt) +
        STAMINA_REGEN * dt) = min 5 (w.stamina + 2 * (1 / 2) * dt) := by
      simp only [MAX_STAMINA, STAMINA_REGEN]
      rcases le_total (w.stamina + 1 / 2 * dt) 5 with hc | hc
      · rw [min_eq_right hc]
        congr 1
        ring
      · rw [min_eq_left hc, min_eq_left (by linarith), min_eq_left (by linarith)]
    have hst : (boostStep inp dt w).stamina = w.stamina := by
      have hb2 := hb
      simp only [boosting, Bool.and_eq_false_iff, decide_eq_false_iff_not] at hb2
      unfold boostStep
      rcases hb2 with hk | hs
      · simp [hk]
      · split_ifs <;> rfl
    unfold afterControl regenStep
    simp only [hb, speedStep_keeps, Bool.not_false, if_true]
    split_ifs <;> simp only [hst] <;> exact hval
  · have hpre : preObstacle A inp dt w = spawnObstacle A inp (updateTrees (spawnTree A inp
        (finishTrack inp.now (finishSpawn A (afterControl inp dt w))))) := rfl
    rw [hpre]
    simp

/-- Witness for C19: at the race start (stamina 5) a boosted frame of 0.1 s
leaves 5 - 0.3 + 0.05 = 4.75, and an idle frame of 0.1 s from stamina 4.75
leaves 4.75 + 2 * 0.05 = 4.85. -/
theorem C19_stamina_update_witness :
    (afterControl { idleInput 5 with keyW := true } (1 / 10) raceStart).stamina = 19 / 4 ∧
      (afterControl (idleInput 5) (1 / 10) { raceStart with stamina := 19 / 4 }).stamina =
        97 / 20 :=
  ⟨((C19_stamina_update demoAssets { idleInput 5 with keyW := true } (1 / 10) raceStart
      (by norm_num)).1 (by decide!)).trans (by decide!),
    ((C19_stamina_update demoAssets (idleInput 5) (1 / 10) { raceStart with stamina := 19 / 4 }
      (by norm_num)).2.1 (by decide!)).trans (by decide!)⟩

/-- The iterator-level bottle loop with `it` at the end of `pre` and `rest` still
ahead terminates within `rest.length + 1` loop tests, keeps `pre` and processes
`rest` front to back. -/
theorem updateBottlesIter_append (worldSpeed : ℚ) (winH : ℕ) (player : Sprite)
    (rest : List Sprite) : ∀ (fuel : ℕ) (pre : List Sprite) (stamina : ℚ) (drinks : ℕ),
    rest.length < fuel →
    updateBottlesIter worldSpeed winH player fuel pre.length (pre ++ rest) stamina drinks =
      some { bottles := pre ++ (updateBottles worldSpeed winH player rest stamina).bottles
             stamina := (updateBottles worldSpeed winH player rest stamina).stamina
             drinks := drinks + (updateBottles worldSpeed winH player rest stamina).drinks } := by
  induction rest with
  | nil =>
    intro fuel pre stamina drinks hf
    obtain ⟨n, rfl⟩ : ∃ n, fuel = n + 1 := ⟨fuel - 1, by omega⟩
    simp [updateBottlesIter, updateBottles]
  | cons b rest ih =>
    intro fuel pre stamina drinks hf
    obtain ⟨n, rfl⟩ : ∃ n, fuel = n + 1 := ⟨fuel - 1, by omega⟩
    have hn : rest.length < n := by
      rw [List.length_cons] at hf
      omega
    have hlt : pre.length < (pre ++ b :: rest).length := by simp
    have hget : (pre ++ b :: rest)[pre.length] = b := by
      rw [List.getElem_append_right (le_refl _)]
      simp
    have hset : (pre ++ b :: rest).set pre.length (b.move 0 worldSpeed) =
        pre ++ b.move 0 worldSpeed :: rest := by simp
    have herase : (pre ++ b.move 0 worldSpeed :: rest).eraseIdx pre.length = pre ++ rest := by
      rw [List.eraseIdx_append_of_length_le (le_refl _)]
      simp
    have hnext : pre ++ b.move 0 worldSpeed :: rest = (pre ++ [b.move 0 worldSpeed]) ++ rest := by
      simp
    have hlen : pre.length + 1 = (pre ++ [b.move 0 worldSpeed]).length := by simp
    rw [updateBottlesIter]
    simp only [hlt, dite_true, hget, hset, herase]
    rw [updateBottles]
    dsimp only
    split_ifs
    · rw [ih _ _ _ _ hn]
      simp only [Option.some.injEq]
      congr 1
      omega
    · rw [ih _ _ _ _ hn]
    · rw [hnext, hlen, ih _ _ _ _ hn]
      simp

/-- The iterator-level coin loop with `it` at the end of `pre` and `rest` still
ahead terminates within `rest.length + 1` loop tests, keeps `pre` and processes
`rest` front to back. -/
theorem updateCoinsIter_append (worldSpeed : ℚ) (winH : ℕ) (player : Sprite)
    (rest : List Sprite) : ∀ (fuel : ℕ) (pre : List Sprite) (score : ℤ) (plays : ℕ),
    rest.length < fuel →
    updateCoinsIter worldSpeed winH player fuel pre.length (pre ++ rest) score plays =
      some { coins := pre ++ (updateCoins worldSpeed winH player rest score).coins
             score := (updateCoins worldSpeed winH player rest score).score
             plays := plays + (updateCoins worldSpeed winH player rest score).plays } := by
  induction rest with
  | nil =>
    intro fuel pre score plays hf
    obtain ⟨n, rfl⟩ : ∃ n, fuel = n + 1 := ⟨fuel - 1, by omega⟩
    simp [updateCoinsIter, updateCoins]
  | cons b rest ih =>
    intro fuel pre score plays hf
    obtain ⟨n, rfl⟩ : ∃ n, fuel = n + 1 := ⟨fuel - 1, by omega⟩
    have hn : rest.length < n := by
      rw [List.length_cons] at hf
      omega
    have hlt : pre.length < (pre ++ b :: rest).length := by simp
    have hget : (pre ++ b :: rest)[pre.length] = b := by
      rw [List.getElem_append_right (le_refl _)]
      simp
    have hset : (pre ++ b :: rest).set pre.length (b.move 0 worldSpeed) =
        pre ++ b.move 0 worldSpeed :: rest := by simp
    have herase : (pre ++ b.move 0 worldSpeed :: rest).eraseIdx pre.length = pre ++ rest := by
      rw [List.eraseIdx_append_of_length_le (le_refl _)]
      simp
    have hnext : pre ++ b.move 0 worldSpeed :: rest = (pre ++ [b.move 0 worldSpeed]) ++ rest := by
      simp
    have hlen : pre.length + 1 = (pre ++ [b.move 0 worldSpeed]).length := by simp
    rw [updateCoinsIter]
    simp only [hlt, dite_true, hget, hset, herase]
    rw [updateCoins]
    dsimp only
    split_ifs
    · rw [ih _ _ _ _ hn]
      simp only [Option.some.injEq]
      congr 1
      omega
    · rw [ih _ _ _ _ hn]
    · rw [hnext, hlen, ih _ _ _ _ hn]
      simp

/-- The bottle loop returns the specified sub-list and counts the pickups. -/
theorem updateBottles_prune (worldSpeed : ℚ) (winH : ℕ) (player : Sprite) (l : List Sprite) :
    ∀ stamina : ℚ,
      (updateBottles worldSpeed winH player l stamina).bottles =
          pruneSpec worldSpeed winH player l ∧
        (updateBottles worldSpeed winH player l stamina).drinks =
          pickedSpec worldSpeed player l := by
  induction l with
  | nil => intro stamina; simp [updateBottles, pruneSpec, pickedSpec]
  | cons b rest ih =>
    intro stamina
    rw [updateBottles]
    dsimp only
    simp only [pruneSpec, pickedSpec, List.map_cons, List.filter_cons, List.countP_cons] at ih ⊢
    split_ifs with h1 h2 <;> simp_all

/-- The coin loop returns the specified sub-list and counts the pickups. -/
theorem updateCoins_prune (worldSpeed : ℚ) (winH : ℕ) (player : Sprite) (l : List Sprite) :
    ∀ score : ℤ,
      (updateCoins worldSpeed winH player l score).coins =
          pruneSpec worldSpeed winH player l ∧
        (updateCoins worldSpeed winH player l score).plays =
          pickedSpec worldSpeed player l := by
  induction l with
  | nil => intro score; simp [updateCoins, pruneSpec, pickedSpec]
  | cons b rest ih =>
    intro score
    rw [updateCoins]
    dsimp only
    simp only [pruneSpec, pickedSpec, List.map_cons, List.filter_cons, List.countP_cons] at ih ⊢
    split_ifs with h1 h2 <;> simp_all

/-- The coin loop adds 100 to the score per pickup. -/
theorem updateCoins_score_picked (worldSpeed : ℚ) (winH : ℕ) (player : Sprite) (l : List Sprite) :
    ∀ score : ℤ, (updateCoins worldSpeed winH player l score).score =
      score + 100 * (pickedSpec worldSpeed player l : ℤ) := by
  induction l with
  | nil => intro score; simp [updateCoins, pickedSpec]
  | cons b rest ih =>
    intro score
    rw [updateCoins]
    dsimp only
    simp only [pickedSpec, List.map_cons, List.countP_cons] at ih ⊢
    split_ifs with h1 h2
    · rw [ih]
      push_cast
      ring
    · rw [ih]
      simp
    · rw [ih]
      simp

/-- Every element is either kept, picked up, or dropped below the window. -/
theorem pruneSpec_length (worldSpeed : ℚ) (winH : ℕ) (player : Sprite) (l : List Sprite) :
    l.length = (pruneSpec worldSpeed winH player l).length + pickedSpec worldSpeed player l +
      (l.map (fun e => e.move 0 worldSpeed)).countP (fun e =>
        !player.getGlobalBounds.intersects e.getGlobalBounds && decide ((winH : ℚ) < e.y)) := by
  induction l with
  | nil => simp [pruneSpec, pickedSpec]
  | cons b rest ih =>
    simp only [pruneSpec, pickedSpec, List.map_cons, List.filter_cons, List.countP_cons,
      List.length_cons] at ih ⊢
    by_cases h1 : player.getGlobalBounds.intersects (b.move 0 worldSpeed).getGlobalBounds = true
    · simp only [h1, Bool.not_true, Bool.false_and, Bool.false_eq_true, if_false, if_true]
      omega
    · by_cases h2 : (winH : ℚ) < (b.move 0 worldSpeed).y
      · simp only [h1, h2, Bool.not_false, Bool.true_and, decide_True, Bool.not_true,
          Bool.false_eq_true, if_false, if_true]
        omega
      · simp only [h1, h2, Bool.not_false, Bool.true_and, decide_False, Bool.not_false,
          Bool.false_eq_true, if_false, if_true, List.length_cons]
        omega

/-- C20. Stable single-pass prune: for every input list, the iterator loops of
updateBottles and updateCoins terminate within length + 1 loop tests and return
exactly what the element-by-element pass returns; the vector left is the list,
in original order, of the elements moved once by worldSpeed that neither
intersect the player's bounds nor have y > window height (a sub-list of the
moved input); the number of pickup sounds equals the number of moved elements
intersecting the player; every input element is kept, picked up or dropped
exactly once; and the two calls in the frame leave that list in the state. -/
theorem C20_stable_prune (worldSpeed : ℚ) (winH : ℕ) (player : Sprite) (l : List Sprite)
    (stamina : ℚ) (score : ℤ) (k : ℕ) :
    updateBottlesIter worldSpeed winH player (l.length + 1 + k) 0 l stamina 0 =
        some (updateBottles worldSpeed winH player l stamina) ∧
      (updateBottles worldSpeed winH player l stamina).bottles =
        pruneSpec worldSpeed winH player l ∧
      (updateBottles worldSpeed winH player l stamina).drinks = pickedSpec worldSpeed player l ∧
      updateCoinsIter worldSpeed winH player (l.length + 1 + k) 0 l score 0 =
        some (updateCoins worldSpeed winH player l score) ∧
      (updateCoins worldSpeed winH player l score).coins = pruneSpec worldSpeed winH player l ∧
      (updateCoins worldSpeed winH player l score).plays = pickedSpec worldSpeed player l ∧
      (pruneSpec worldSpeed winH player l).Sublist (l.map (fun e => e.move 0 worldSpeed)) ∧
      l.length = (pruneSpec worldSpeed winH player l).length + pickedSpec worldSpeed player l +
        (l.map (fun e => e.move 0 worldSpeed)).countP (fun e =>
          !player.getGlobalBounds.intersects e.getGlobalBounds && decide ((winH : ℚ) < e.y)) ∧
      (∀ w : World,
        (updateBottlesCall w).bottles = pruneSpec w.playerWorldSpeed w.winH w.player w.bottles ∧
        (updateBottlesCall w).drinkCount =
          w.drinkCount + pickedSpec w.playerWorldSpeed w.player w.bottles ∧
        (updateCoinsCall w).coins = pruneSpec w.playerWorldSpeed w.winH w.player w.coins ∧
        (updateCoinsCall w).coinCount =
          w.coinCount + pickedSpec w.playerWorldSpeed w.player w.coins ∧
        (updateCoinsCall w).score =
          w.score + 100 * (pickedSpec w.playerWorldSpeed w.player w.coins : ℤ)) := by
  refine ⟨?_, (updateBottles_prune worldSpeed winH player l stamina).1,
    (updateBottles_prune worldSpeed winH player l stamina).2, ?_,
    (updateCoins_prune worldSpeed winH player l score).1,
    (updateCoins_prune worldSpeed winH player l score).2, List.filter_sublist _,
    pruneSpec_length worldSpeed winH player l, ?_⟩
  · have h := updateBottlesIter_append worldSpeed winH player l (l.length + 1 + k) [] stamina 0
      (by omega)
    simpa using h
  · have h := updateCoinsIter_append worldSpeed winH player l (l.length + 1 + k) [] score 0
      (by omega)
    simpa using h
  · intro w
    refine ⟨(updateBottles_prune _ _ _ _ _).1, ?_, (updateCoins_prune _ _ _ _ _).1, ?_, ?_⟩
    · exact congrArg (fun n => w.drinkCount + n) (updateBottles_prune _ _ _ _ _).2
    · exact congrArg (fun n => w.coinCount + n) (updateCoins_prune _ _ _ _ _).2
    · exact updateCoins_score_picked _ _ _ _ _

/-- An event of the main loop never touches the entity collections. -/
theorem handleEvent_entities (A : Assets) (now : ℚ) (w : World) (ev : Event) :
    entities (handleEvent A now w ev) = entities w := by
  obtain ⟨_, _, _, _, _, _, _, _, _, _, _, _, e⟩ := handleEvent_frame A now w ev
  rw [e]
  rfl

/-- Event polling never touches the entity collections. -/
theorem pollEvents_entities (A : Assets) (now : ℚ) (evs : List Event) (w : World) :
    entities (pollEvents A now evs w) = entities w := by
  obtain ⟨_, _, _, _, _, _, _, _, _, _, _, _, e⟩ := pollEvents_frame A now evs w
  rw [e]
  rfl

/-- An iteration of the finish-screen loop never touches the entity
collections. -/
theorem finishLoopIteration_entities (evs : List Event) (w : World) :
    entities (finishLoopIteration evs w) = entities w := by
  obtain ⟨_, _, _, _, _, _, _, _, e⟩ := finishLoopIteration_frame evs w
  rw [e]
  rfl

/-- An event that leads into LOADING restarts the loading clock, and an event
in LOADING keeps it. -/
theorem handleEvent_loadingClock (A : Assets) (now : ℚ) (w : World) (ev : Event)
    (h : w.gameState = GameState.LOADING → w.loadingClock = now) :
    (handleEvent A now w ev).gameState = GameState.LOADING →
      (handleEvent A now w ev).loadingClock = now := by
  cases ev with
  | Closed => exact h
  | Resized a b =>
    intro hl
    have h1 : w.gameState = GameState.LOADING := by simpa [handleEvent] using hl
    simpa [handleEvent] using h h1
  | KeyPressed code =>
    simp only [handleEvent]
    unfold handleKey
    split
    · split
      · exact fun hl => by simp_all
      · exact fun hl => by simp_all
      · dsimp only
        split_ifs
        · exact fun _ => rfl
        · exact fun hl => by simp at hl
        · exact fun hl => by simp_all
        · exact fun hl => by simp_all
      · exact fun hl => by simp_all
    · split
      · exact fun hl => by simp at hl
      · exact fun hl => by simp_all
    · split_ifs <;> exact fun hl => by simp_all
    · split_ifs <;> exact fun hl => by simp_all
    · exact h
  | MouseButtonPressed a b => exact h
  | Other => exact h

/-- Event polling that ends in LOADING without having started there leaves the
loading clock at the instant of the poll. -/
theorem pollEvents_loadingClock (A : Assets) (now : ℚ) (evs : List Event) (w : World)
    (h : w.gameState = GameState.LOADING → w.loadingClock = now) :
    (pollEvents A now evs w).gameState = GameState.LOADING →
      (pollEvents A now evs w).loadingClock = now := by
  induction evs generalizing w with
  | nil => exact h
  | cons ev rest ih =>
    simp only [pollEvents, List.foldl_cons] at ih ⊢
    exact ih _ (handleEvent_loadingClock A now w ev h)

/-- The LOADING branch leaves the collections alone until the delay has
passed, then clears them and enters GAME. -/
theorem loadingStep_entities (A : Assets) (now : ℚ) (w : World) :
    (¬ 3 < now - w.loadingClock → entities (loadingStep A now w) = entities w) ∧
      (3 < now - w.loadingClock → entities (loadingStep A now w) = ([], [], [], []) ∧
        (loadingStep A now w).gameState = GameState.GAME) := by
  unfold loadingStep
  dsimp only
  refine ⟨fun h => ?_, fun h => ?_⟩
  · rw [if_neg h]
  · rw [if_pos h]
    simp [entities]

/-- A program step that starts outside GAME, HIT and LOADING leaves the
collections unchanged. -/
theorem iteration_entities_idle (A : Assets) (inp : Input) (w : World)
    (hg : ¬(w.gameState = GameState.GAME ∨ w.gameState = GameState.HIT))
    (hl : w.gameState ≠ GameState.LOADING) :
    entities (iteration A inp w) = entities w := by
  unfold iteration
  by_cases ho : w.windowOpen = true
  · by_cases hf : w.inFinishLoop = false
    · rw [if_neg (by simp [ho]), if_neg (by simp [hf])]
      dsimp only
      obtain ⟨m, -⟩ := pollEvents_mode_flags A inp.now inp.events { w with deltaClock := inp.now }
      have hc := pollEvents_loadingClock A inp.now inp.events { w with deltaClock := inp.now }
        (fun h => absurd h hl)
      have he : entities (pollEvents A inp.now inp.events { w with deltaClock := inp.now }) =
          entities w := pollEvents_entities _ _ _ _
      have hmode1 : ¬((pollEvents A inp.now inp.events { w with deltaClock := inp.now }).gameState =
          GameState.GAME ∨
          (pollEvents A inp.now inp.events { w with deltaClock := inp.now }).gameState =
          GameState.HIT) := by
        intro hg1
        rcases hg1 with hg1 | hg1
        · exact hg (Or.inl (m _ (Or.inl rfl) hg1))
        · exact hg (Or.inr (m _ (Or.inr (Or.inl rfl)) hg1))
      generalize pollEvents A inp.now inp.events { w with deltaClock := inp.now } = w1
        at hc he hmode1 ⊢
      unfold stateStep
      split
      · rename_i hload
        rw [(loadingStep_entities A inp.now w1).1 (by rw [hc hload]; norm_num)]
        exact he
      · exact he
      · exact he
      · exact he
      · exfalso
        apply hmode1
        cases hg1 : w1.gameState <;> simp_all
    · rw [if_neg (by simp [ho]), if_pos (by simpa using hf)]
      exact finishLoopIteration_entities _ _
  · rw [if_pos (by simpa using ho)]

/-- A program step that starts in LOADING leaves the collections unchanged, or
the loading delay has passed and it clears them and enters GAME. -/
theorem iteration_entities_loading (A : Assets) (inp : Input) (w : World)
    (hl : w.gameState = GameState.LOADING) :
    entities (iteration A inp w) = entities w ∨
      (3 < inp.now - w.loadingClock ∧ (iteration A inp w).gameState = GameState.GAME ∧
        entities (iteration A inp w) = ([], [], [], [])) := by
  by_cases ho : w.windowOpen = true
  · by_cases hf : w.inFinishLoop = false
    · obtain ⟨wo, ww, wh, pl, e⟩ := pollEvents_loading A inp.now inp.events
        { w with deltaClock := inp.now } hl
      have hit : iteration A inp w = loadingStep A inp.now
          (pollEvents A inp.now inp.events { w with deltaClock := inp.now }) := by
        have hg : (pollEvents A inp.now inp.events { w with deltaClock := inp.now }).gameState =
            GameState.LOADING := by
          rw [e]
          exact hl
        unfold iteration
        rw [if_neg (by simp [ho]), if_neg (by simp [hf])]
        exact stateStep_loading A inp _ _ hg
      have hck : (pollEvents A inp.now inp.events { w with deltaClock := inp.now }).loadingClock =
          w.loadingClock := by rw [e]
      have he : entities (pollEvents A inp.now inp.events { w with deltaClock := inp.now }) =
          entities w := pollEvents_entities _ _ _ _
      rw [hit]
      by_cases h3 : 3 < inp.now - w.loadingClock
      · right
        have := (loadingStep_entities A inp.now
          (pollEvents A inp.now inp.events { w with deltaClock := inp.now })).2 (by rw [hck]; exact h3)
        exact ⟨h3, this.2, this.1⟩
      · left
        rw [(loadingStep_entities A inp.now
          (pollEvents A inp.now inp.events { w with deltaClock := inp.now })).1 (by rw [hck]; exact h3)]
        exact he
    · left
      unfold iteration
      rw [if_neg (by simp [ho]), if_pos (by simpa using hf)]
      exact finishLoopIteration_entities _ _
  · left
    unfold iteration
    rw [if_pos (by simpa using ho)]

/-- C21 as stated fails, at a statement inside a frame and at a step. In the
frame at t = 15.8 of a reachable race the obstacle loop (statement 8) takes the
last life and sets the mode to MENU; the frame runs on, and with the mode MENU
`spawnBottle` (statement 11) appends a bottle and `updateBottles`
(statement 12) moves it. The bottle is still there when "Jouer" is confirmed
at t = 17, and the step at t = 21, which starts in LOADING, clears the
collections. -/
theorem C21_counterexample_menu_and_loading :
    timeOK demoAssets (lostAndRestarted ++ [idleInput 21]) (initWorld demoAssets) = true ∧
      (lastLifeState.gameState = GameState.GAME ∧
        iteration demoAssets lastFrame lastLifeState = lastFrameBefore 15 ∧
        (lastFrameBefore 8).gameState = GameState.GAME ∧
        (lastFrameBefore 9).gameState = GameState.MENU ∧
        (lastFrameBefore 11).gameState = GameState.MENU ∧
        lastFrameBefore 12 = spawnBottleCall demoAssets lastFrame (lastFrameBefore 11) ∧
        entities (lastFrameBefore 11) = ([], [], [], []) ∧
        entities (lastFrameBefore 12) = ([], [], [⟨847 / 2, -60, 23, 23⟩], []) ∧
        (lastFrameBefore 12).gameState = GameState.MENU ∧
        lastFrameBefore 13 = updateBottlesCall (lastFrameBefore 12) ∧
        entities (lastFrameBefore 13) = ([], [], [⟨847 / 2, -56, 23, 23⟩], [])) ∧
      ((run demoAssets lostAndRestarted (initWorld demoAssets)).gameState = GameState.LOADING ∧
        entities (run demoAssets lostAndRestarted (initWorld demoAssets)) =
          ([], [], [⟨847 / 2, -56, 23, 23⟩], []) ∧
        entities (iteration demoAssets (idleInput 21)
          (run demoAssets lostAndRestarted (initWorld demoAssets))) = ([], [], [], [])) := by
  refine ⟨?_, ⟨?_, ?_, ?_⟩, ?_⟩
  · decide!
  · decide!
  · decide!
  · decide!
  · decide!

/-- C21, amended. An event of the main loop and an iteration of the
finish-screen loop never modify the trees, obstacles, bottles or coins
collections. A program step that starts in MENU, APROPOS or FINISH leaves them
unchanged. A step that starts in LOADING leaves them unchanged, or the loading
delay of 3 s has passed and the step clears all four and enters GAME. Hence the
collections are modified only by that reset or in a frame that starts in GAME
or HIT. Such a frame runs all of its fifteen statements in order, whatever the
mode becomes in between; of these the boost, regeneration, speed, finish-line,
smoothing and blink statements never modify the collections. -/
theorem C21_collections_change_in_frames (A : Assets) :
    (∀ (now : ℚ) (w : World) (ev : Event), entities (handleEvent A now w ev) = entities w) ∧
      (∀ (evs : List Event) (w : World), entities (finishLoopIteration evs w) = entities w) ∧
      (∀ (inp : Input) (w : World),
        (w.gameState = GameState.MENU ∨ w.gameState = GameState.APROPOS ∨
          w.gameState = GameState.FINISH) → entities (iteration A inp w) = entities w) ∧
      (∀ (inp : Input) (w : World), w.gameState = GameState.LOADING →
        (entities (iteration A inp w) = entities w ∨
          (3 < inp.now - w.loadingClock ∧ (iteration A inp w).gameState = GameState.GAME ∧
            entities (iteration A inp w) = ([], [], [], [])))) ∧
      (∀ (inp : Input) (w : World), entities (iteration A inp w) ≠ entities w →
        (w.gameState = GameState.LOADING ∧ 3 < inp.now - w.loadingClock ∧
            entities (iteration A inp w) = ([], [], [], [])) ∨
          ((w.gameState = GameState.GAME ∨ w.gameState = GameState.HIT) ∧
            w.windowOpen = true ∧ w.inFinishLoop = false)) ∧
      (∀ (inp : Input) (w : World),
        (w.gameState = GameState.GAME ∨ w.gameState = GameState.HIT) → w.windowOpen = true →
        w.inFinishLoop = false →
        iteration A inp w =
            (frameStatements A inp (inp.now - w.deltaClock) (frameStart A inp w)).foldl
              (fun v f => f v) (frameStart A inp w) ∧
          (frameStatements A inp (inp.now - w.deltaClock) (frameStart A inp w)).length = 15) ∧
      (∀ (inp : Input) (dt : ℚ) (b c : Bool) (v : World),
        entities (boostStep inp dt v) = entities v ∧ entities (regenStep b dt v) = entities v ∧
          entities (speedStep b c v) = entities v ∧ entities (finishSpawn A v) = entities v ∧
          entities (finishTrack inp.now v) = entities v ∧ entities (smoothLane A v) = entities v ∧
          entities (hitBlink inp.now v) = entities v) := by
  refine ⟨handleEvent_entities A, finishLoopIteration_entities, ?_, ?_, ?_, ?_, ?_⟩
  · intro inp w h
    apply iteration_entities_idle
    · rcases h with h | h | h <;> rw [h] <;> decide
    · rcases h with h | h | h <;> rw [h] <;> decide
  · exact fun inp w h => iteration_entities_loading A inp w h
  · intro inp w hne
    by_cases hl : w.gameState = GameState.LOADING
    · rcases iteration_entities_loading A inp w hl with h | ⟨h3, -, he⟩
      · exact absurd h hne
      · exact Or.inl ⟨hl, h3, he⟩
    · by_cases hg : w.gameState = GameState.GAME ∨ w.gameState = GameState.HIT
      · refine Or.inr ⟨hg, ?_, ?_⟩
        · by_contra ho
          apply hne
          unfold iteration
          rw [if_pos (by simpa using ho)]
        · by_contra hf
          apply hne
          unfold iteration
          by_cases ho : w.windowOpen = true
          · rw [if_neg (by simp [ho]), if_pos (by simpa using hf)]
            exact finishLoopIteration_entities _ _
          · rw [if_pos (by simpa using ho)]
      · exact absurd (iteration_entities_idle A inp w hg hl) hne
  · intro inp w hg ho hf
    exact ⟨iteration_game_eq A inp w hg ho hf, rfl⟩
  · intro inp dt b c v
    simp [entities]

/-- Witness for C21: the reachable LOADING state with a left-over bottle is
stepped at t = 21, four seconds after the loading clock was restarted; the step
clears the collections and enters GAME. -/
theorem C21_collections_change_in_frames_witness :
    (run demoAssets lostAndRestarted (initWorld demoAssets)).gameState = GameState.LOADING ∧
      (entities (iteration demoAssets (idleInput 21)
          (run demoAssets lostAndRestarted (initWorld demoAssets))) =
          entities (run demoAssets lostAndRestarted (initWorld demoAssets)) ∨
        (3 < (idleInput 21).now -
            (run demoAssets lostAndRestarted (initWorld demoAssets)).loadingClock ∧
          (iteration demoAssets (idleInput 21)
            (run demoAssets lostAndRestarted (initWorld demoAssets))).gameState = GameState.GAME ∧
          entities (iteration demoAssets (idleInput 21)
            (run demoAssets lostAndRestarted (initWorld demoAssets))) = ([], [], [], []))) :=
  ⟨by decide!, (C21_collections_change_in_frames demoAssets).2.2.2.1 (idleInput 21)
    (run demoAssets lostAndRestarted (initWorld demoAssets)) (by decide!)⟩

end BikeGame
